import Mathlib

/-!
# collectd: kstat helper, zfs_arc plugin, memory plugin

A shallow embedding of `src/utils_kstat.c`, `src/zfs_arc.c` and the Linux
branch of `src/memory.c` together with the properties of the specification
that concern them.

Conventions of the embedding

* C `double` (`gauge_t`) is modelled by its IEEE-754 binary64 value classes:
  NaN, the two infinities, negative zero, and the finite values, the latter
  carried as rationals.  `+` and `/` round to nearest, ties to even.
* `int`, `kid_t`, `time_t` and `derive_t` values are carried as `Int`; the
  functions embedded here only compare, copy and subtract clock readings, so no
  wrap-around arises for readings inside the range of the C type.
* Each call of an external function (clock, kstat library, file contents,
  allocator, callback) is an explicit input of the embedded function, and what
  the function does to the outside world is an explicit output.
* The static pointer `metrics` of zfs_arc.c has no initialiser and is assigned
  nowhere, so it is NULL throughout every run.  The functions that read it are
  embedded for every value of the pointer; what is said about a run is said
  with `metrics` NULL.
-/

namespace Collectd

/-! ## IEEE-754 binary64 values -/

/-- The values of a C `double`: `fin 0` is `+0.0`, `negZero` is `-0.0`. -/
inductive gauge_t where
  | nan
  | inf (neg : Bool)
  | negZero
  | fin (q : ℚ)
deriving DecidableEq

namespace gauge_t

/-- Number of halvings that take `n` below 2, at most `fuel` of them. -/
def log2fuel : Nat → Nat → Nat
  | 0, _ => 0
  | fuel + 1, n => if n < 2 then 0 else log2fuel fuel (n / 2) + 1

/-- Largest `e` with `2^e ≤ n`, for positive `n`. -/
def ilog2 (n : Nat) : Nat := log2fuel n n

/-- Largest `e` with `2^e ≤ n / d`, for positive `n` and `d`. -/
def log2floor (n d : Nat) : Int :=
  let e0 : Int := (ilog2 n : Int) - (ilog2 d : Int)
  if 0 ≤ e0 then (if d * 2 ^ e0.toNat ≤ n then e0 else e0 - 1)
  else (if d ≤ n * 2 ^ (-e0).toNat then e0 else e0 - 1)

/-- Round a non-zero rational to binary64: nearest, ties to even, with gradual
underflow (least exponent `-1022`, 52 fraction bits) and overflow to infinity. -/
def round64 (q : ℚ) : gauge_t :=
  let n := q.num.natAbs
  let d := q.den
  let e := max (log2floor n d) (-1022)
  let k := e - 52
  let P := if k < 0 then n * 2 ^ (-k).toNat else n
  let Q := if k < 0 then d else d * 2 ^ k.toNat
  let f := P / Q
  let r := P % Q
  let m := if 2 * r < Q then f else if Q < 2 * r then f + 1 else if f % 2 = 0 then f else f + 1
  let mag : ℚ :=
    if k < 0 then (m : ℚ) / ((2 ^ (-k).toNat : Nat) : ℚ) else (m : ℚ) * ((2 ^ k.toNat : Nat) : ℚ)
  if ((2 ^ 1024 : Nat) : ℚ) ≤ mag then inf (decide (q < 0))
  else if m = 0 then (if q < 0 then negZero else fin 0)
  else fin (if q < 0 then -mag else mag)

/-- Sign bit of a value that is not NaN. -/
def signbit : gauge_t → Bool
  | nan => false
  | inf neg => neg
  | negZero => true
  | fin q => decide (q < 0)

/-- A zero carrying the given sign bit. -/
def zero (neg : Bool) : gauge_t := if neg then negZero else fin 0

/-- C `isfinite`. -/
def isfinite : gauge_t → Bool
  | nan => false
  | inf _ => false
  | negZero => true
  | fin _ => true

/-- C `x < 0.0`. -/
def ltZero : gauge_t → Bool
  | nan => false
  | inf neg => neg
  | negZero => false
  | fin q => decide (q < 0)

/-- C `x != 0.0`. -/
def neZero : gauge_t → Bool
  | nan => true
  | inf _ => true
  | negZero => false
  | fin q => decide (q ≠ 0)

/-- C `x + y` on doubles. -/
def add : gauge_t → gauge_t → gauge_t
  | nan, _ => nan
  | _, nan => nan
  | inf a, inf b => if a = b then inf a else nan
  | inf a, _ => inf a
  | _, inf b => inf b
  | negZero, negZero => negZero
  | negZero, fin q => fin q
  | fin p, negZero => fin p
  | fin p, fin q => if p + q = 0 then fin 0 else round64 (p + q)

/-- C `x / y` on doubles. -/
def div : gauge_t → gauge_t → gauge_t
  | nan, _ => nan
  | _, nan => nan
  | inf _, inf _ => nan
  | inf a, y => inf (xor a (signbit y))
  | x, inf b => zero (xor (signbit x) b)
  | fin p, fin q =>
    if q = 0 then (if p = 0 then nan else inf (decide (p < 0)))
    else if p = 0 then zero (decide (q < 0))
    else round64 (p / q)
  | fin p, negZero => if p = 0 then nan else inf (!decide (p < 0))
  | negZero, fin q => if q = 0 then nan else zero (!decide (q < 0))
  | negZero, negZero => nan

end gauge_t

/-! ## Values and value lists (plugin.h) -/

/-- The members of the `value_t` union that the plugin uses. -/
inductive value_t where
  | gauge (g : gauge_t)
  | derive (d : Int)
deriving DecidableEq

/-- The fields of `value_list_t` that `za_submit` fills in. -/
structure value_list_t where
  values : List value_t
  values_len : Nat
  host : String
  plugin : String
  type : String
  type_instance : String
deriving DecidableEq

/-- What the plugin takes from its surroundings: the global `hostname_g`, the
size `DATA_MAX_NAME_LEN` of the name buffers of a value list (plugin.h), and
`sstrncpy` (common.c), which gives the content of the destination buffer for a
source string and a buffer size. -/
structure plugin_env where
  hostname_g : String
  DATA_MAX_NAME_LEN : Nat
  sstrncpy : String → Nat → String

/-! ## zfs_arc.c: submitting -/

/-- Function `za_submit`: the value list handed to `plugin_dispatch_values`. -/
def za_submit (env : plugin_env) (type type_instance : String) (values : List value_t)
    (values_len : Nat) : value_list_t :=
  { values := values
    values_len := values_len
    host := env.sstrncpy env.hostname_g env.DATA_MAX_NAME_LEN
    plugin := env.sstrncpy "zfs_arc" env.DATA_MAX_NAME_LEN
    type := env.sstrncpy type env.DATA_MAX_NAME_LEN
    type_instance := env.sstrncpy type_instance env.DATA_MAX_NAME_LEN }

/-- Function `za_submit_ratio`: the value list it dispatches. -/
def za_submit_ratio (env : plugin_env) (type_instance : String) (hits misses : gauge_t) :
    value_list_t :=
  let ratio := gauge_t.nan
  let hits := if !hits.isfinite || hits.ltZero then gauge_t.fin 0 else hits
  let misses := if !misses.isfinite || misses.ltZero then gauge_t.fin 0 else misses
  let ratio := if hits.neZero || misses.neZero then hits.div (hits.add misses) else ratio
  za_submit env "cache_ratio" type_instance [value_t.gauge ratio] 1

/-! ## The ratio policy in the words of the specification -/

/-- Clamp of `computeRatio`: a non-finite or negative input becomes 0. -/
def clampInput (x : gauge_t) : gauge_t :=
  match x with
  | gauge_t.nan => gauge_t.fin 0
  | gauge_t.inf _ => gauge_t.fin 0
  | gauge_t.negZero => gauge_t.negZero
  | gauge_t.fin q => if q < 0 then gauge_t.fin 0 else gauge_t.fin q

/-- The inputs that clamp to zero: zero, negative, infinite or NaN. -/
def clampsToZero (x : gauge_t) : Prop :=
  match x with
  | gauge_t.nan => True
  | gauge_t.inf _ => True
  | gauge_t.negZero => True
  | gauge_t.fin q => q ≤ 0

instance clampsToZero.decidable : (x : gauge_t) → Decidable (clampsToZero x)
  | gauge_t.nan => isTrue trivial
  | gauge_t.inf _ => isTrue trivial
  | gauge_t.negZero => isTrue trivial
  | gauge_t.fin q => inferInstanceAs (Decidable (q ≤ 0))

/-- The gauge carried by a dispatched `cache_ratio` record. -/
def ratioOf (vl : value_list_t) : Option gauge_t :=
  match vl.values with
  | [value_t.gauge g] => some g
  | _ => none

/-! ## errno values (errno.h) -/

/-- Value of `ENOENT`. -/
def ENOENT : Int := 2

/-- Value of `ENOMEM`. -/
def ENOMEM : Int := 12

/-- Value of `EINVAL`. -/
def EINVAL : Int := 22

/-! ## zfs_arc.c, Linux branch: the list of metrics -/

/-- The `key` and `value` of an `llentry_t`; the `next` pointer is the position
in the list.  A string is `none` when the pointer is NULL, which is what a
`strdup` that fails leaves. -/
structure llentry_t where
  key : Option String
  value : Option String
deriving DecidableEq

/-- Modelled from the spec: the nodes of an `llist_t` of utils_llist.c, which is
not among the sources at hand, "an ordered collection of CounterEntry, keyed by
name, lookup by exact key match", from the head on.  A node is `some e` while
its entry is allocated and `none` once the entry has been released with
`sfree` while still linked.  A pointer `llist_t *` is an `Option llist_t`,
`none` for NULL. -/
abbrev llist_t := List (Option llentry_t)

/-- The static pointer `metrics` as the program starts, which is NULL.  No
statement of zfs_arc.c assigns to `metrics` and no function receives its
address, so this is its value in every call of every run. -/
def metrics0 : Option llist_t := none

/-- Behaviour that C leaves undefined: reading or writing a node whose memory
has been released, converting a `double` to an `int` that cannot hold its
integral part, and reading through a NULL pointer. -/
inductive fault where
  | use_after_free
  | float_to_int
  | null_pointer
deriving DecidableEq

deriving instance DecidableEq for Except

/-- The comparison of `llist_search` along the nodes of a list: the position
and content of the first entry with the key.  It reads the key of every node it
passes, so it reads released memory at a released node and reads through NULL
at an entry whose key is NULL. -/
def llist_search_nodes : llist_t → String → Except fault (Option (Nat × llentry_t))
  | [], _ => Except.ok none
  | none :: _, _ => Except.error fault.use_after_free
  | some e :: l, key =>
    match e.key with
    | none => Except.error fault.null_pointer
    | some k =>
      if k = key then Except.ok (some (0, e))
      else
        match llist_search_nodes l key with
        | Except.error f => Except.error f
        | Except.ok none => Except.ok none
        | Except.ok (some (i, e')) => Except.ok (some (i + 1, e'))

/-- Modelled from the spec: `llist_search` of utils_llist.c, lookup by exact key
match from the head.  A list that does not exist (NULL) holds no entry, and the
result is NULL. -/
def llist_search (l : Option llist_t) (key : String) :
    Except fault (Option (Nat × llentry_t)) :=
  match l with
  | none => Except.ok none
  | some nodes => llist_search_nodes nodes key

/-- Modelled from the spec: `llist_head` of utils_llist.c, followed along the
`next` pointers; a list that does not exist has no head. -/
def llist_head (l : Option llist_t) : llist_t := l.getD []

/-- Modelled from the spec: `llist_append` of utils_llist.c, which links the
entry behind the current tail node (and so writes to that node).  The
function receives the list pointer by value: handed NULL it cannot make
`metrics` point anywhere, and `null_returns` tells whether it returns at all
rather than reading through the NULL pointer. -/
def llist_append (null_returns : Bool) (l : Option llist_t) (e : llentry_t) :
    Except fault (Option llist_t) :=
  match l with
  | none => if null_returns then Except.ok none else Except.error fault.null_pointer
  | some nodes =>
    match nodes.getLast? with
    | some none => Except.error fault.use_after_free
    | _ => Except.ok (some (nodes ++ [some e]))

/-- The delimiters of `strsplit`: blank, tab, carriage return, newline. -/
def isDelim (c : Char) : Bool :=
  c = ' ' || c = '\t' || c = '\r' || c = '\n'

/-- Modelled from the spec: `strsplit` of common.c, which is not among the sources
at hand: the "whitespace-delimited fields" of a line, at most `size` of them. -/
def strsplit (string : String) (size : Nat) : List String :=
  (((string.data.splitOnP isDelim).filter (fun f => !f.isEmpty)).map String.mk).take size

/-- What one call of `zfs_put_value` meets outside: whether `malloc` returns
memory, whether the `strdup` of the name and the `strdup` of the value do, and
whether `llist_append` returns when it is handed a NULL list. -/
structure put_env where
  malloc : Bool
  strdup_key : Bool
  strdup_value : Bool
  llist_append_null : Bool
deriving DecidableEq

/-- The result of `strdup`: the copy, or NULL. -/
def strdup (ok : Bool) (s : String) : Option String := if ok then some s else none

/-- Function `zfs_put_value` on the list pointer `metrics`.  The result is the
status and the list behind `metrics` afterwards; the pointer itself is not
assigned. -/
def zfs_put_value (w : put_env) (metrics : Option llist_t) (name value : String) :
    Except fault (Int × Option llist_t) :=
  match llist_search metrics name with
  | Except.error f => Except.error f
  | Except.ok (some (i, e)) =>
    Except.ok (0, metrics.map
      (fun nodes => nodes.set i (some { e with value := strdup w.strdup_value value })))
  | Except.ok none =>
    if !w.malloc then Except.ok (ENOMEM, metrics)
    else
      match llist_append w.llist_append_null metrics
          { key := strdup w.strdup_key name, value := strdup w.strdup_value value } with
      | Except.error f => Except.error f
      | Except.ok metrics' => Except.ok (0, metrics')

/-- The `while (fgets ...)` loop of `zfs_update` over the buffers that `fgets`
delivers; `w i` is what the call of `zfs_put_value` for buffer `i` meets. -/
def zfs_update_loop (w : Nat → put_env) :
    List String → Option llist_t → Except fault (Option llist_t)
  | [], metrics => Except.ok metrics
  | buffer :: rest, metrics =>
    let fields := strsplit buffer 8
    let numfields := fields.length
    if numfields ≠ 3 then zfs_update_loop (fun i => w (i + 1)) rest metrics
    else
      match zfs_put_value (w 0) metrics (fields.getD 0 "") (fields.getD 2 "") with
      | Except.error f => Except.error f
      | Except.ok (_, metrics') => zfs_update_loop (fun i => w (i + 1)) rest metrics'

/-- The first loop of `zfs_update` along the nodes from `llist_head`: it
releases key, value and node of every entry with `sfree`; the nodes stay
linked.  Walking over a node released earlier reads released memory. -/
def zfs_update_release : llist_t → Except fault llist_t
  | [] => Except.ok []
  | none :: _ => Except.error fault.use_after_free
  | some _ :: l =>
    match zfs_update_release l with
    | Except.error f => Except.error f
    | Except.ok l' => Except.ok (none :: l')

/-- Function `zfs_update` (Linux).  `file` is `none` when `fopen` fails and otherwise the
buffers read from the file.  The result is the status and the list behind
`metrics` afterwards. -/
def zfs_update (w : Nat → put_env) (file : Option (List String)) (metrics : Option llist_t) :
    Except fault (Int × Option llist_t) :=
  match zfs_update_release (llist_head metrics) with
  | Except.error f => Except.error f
  | Except.ok released =>
    let metrics := metrics.map (fun _ => released)
    match file with
    | none => Except.ok (-1, metrics)
    | some lines =>
      match zfs_update_loop w lines metrics with
      | Except.error f => Except.error f
      | Except.ok metrics' => Except.ok (0, metrics')

/-- Whether the rebuild on a NULL list meets a buffer at which it reads through
the NULL pointer: the buffer has three fields, `malloc` returns memory for it,
and `llist_append` does not return. -/
def appendDies (w : Nat → put_env) : List String → Bool
  | [] => false
  | b :: rest =>
    (decide ((strsplit b 8).length = 3) && (w 0).malloc && !(w 0).llist_append_null)
      || appendDies (fun i => w (i + 1)) rest

/-- The `parse_value` of common.c is not among the sources at hand and is a
parameter: `gauge s` is the status of `parse_value (s, &v, DS_TYPE_GAUGE)`
together with the `v.gauge` it leaves, `derive s` the same for
`DS_TYPE_DERIVE` and `v.derive`; `gauge_null` and `derive_null` are what the
two calls do when the string is NULL. -/
structure parse_value_t where
  gauge : String → Int × gauge_t
  derive : String → Int × Int
  gauge_null : Except fault (Int × gauge_t)
  derive_null : Except fault (Int × Int)

/-- The call `parse_value (e->value, &v, DS_TYPE_GAUGE)`. -/
def parse_value_t.gaugeOf (parse_value : parse_value_t) :
    Option String → Except fault (Int × gauge_t)
  | some s => Except.ok (parse_value.gauge s)
  | none => parse_value.gauge_null

/-- The call `parse_value (e->value, &v, DS_TYPE_DERIVE)`. -/
def parse_value_t.deriveOf (parse_value : parse_value_t) :
    Option String → Except fault (Int × Int)
  | some s => Except.ok (parse_value.derive s)
  | none => parse_value.derive_null

/-- Function `zfs_get_gauge` (Linux); `g` is the content of `*g` before the call, the
result is the status and the content of `*g` afterwards. -/
def zfs_get_gauge (parse_value : parse_value_t) (metrics : Option llist_t) (name : String)
    (g : gauge_t) : Except fault (Int × gauge_t) :=
  match llist_search metrics name with
  | Except.error f => Except.error f
  | Except.ok none => Except.ok (ENOENT, g)
  | Except.ok (some (_, e)) =>
    match parse_value.gaugeOf e.value with
    | Except.error f => Except.error f
    | Except.ok (status, v) =>
      if status ≠ 0 then Except.ok (status, g)
      else Except.ok (0, v)

/-- Function `zfs_get_derive` (Linux); `d` is the content of `*d` before the call. -/
def zfs_get_derive (parse_value : parse_value_t) (metrics : Option llist_t) (name : String)
    (d : Int) : Except fault (Int × Int) :=
  match llist_search metrics name with
  | Except.error f => Except.error f
  | Except.ok none => Except.ok (ENOENT, d)
  | Except.ok (some (_, e)) =>
    match parse_value.deriveOf e.value with
    | Except.error f => Except.error f
    | Except.ok (status, v) =>
      if status ≠ 0 then Except.ok (status, d)
      else Except.ok (0, v)

/-- A list that exists and holds the given keys and raw values, every entry
allocated and neither string NULL. -/
def live (kvs : List (String × String)) : Option llist_t :=
  some (kvs.map (fun p => some { key := some p.1, value := some p.2 }))

/-- No allocation fails, and `llist_append` returns when handed a NULL list. -/
def mallocOk : Nat → put_env := fun _ =>
  { malloc := true, strdup_key := true, strdup_value := true, llist_append_null := true }

/-- No allocation fails, and `llist_append` reads through a NULL list. -/
def appendFaults : Nat → put_env := fun _ =>
  { malloc := true, strdup_key := true, strdup_value := true, llist_append_null := false }

/-! ## utils_kstat.c: the shared kstat handle -/

/-- The file-scope variables of utils_kstat.c; `kc` records whether the
control handle is non-NULL. -/
structure kstat_state where
  kc : Bool
  last_update : Int
  last_kcid : Int
deriving DecidableEq

/-- What one call of `ukstat_update` meets outside: whether `kstat_open` returns
a handle, the reading of `time (NULL)` in the staleness test, the result of
`kstat_chain_update`, the reading of `time (NULL)` stored behind it, and the
callback (`none` for NULL, otherwise the status it returns). -/
structure update_env where
  kstat_open : Bool
  time_check : Int
  kstat_chain_update : Int
  time_store : Int
  callback : Option Int
deriving DecidableEq

/-- What a call does to the outside, in order. -/
inductive event where
  | kstat_open
  | kstat_chain_update
  | error
  | warning
  | debug
  | callback
deriving DecidableEq

/-- Status, variables afterwards, and the outside calls made. -/
structure update_result where
  status : Int
  state : kstat_state
  trace : List event
deriving DecidableEq

/-- The tail of `ukstat_update` from `last_update = time (NULL)` on. -/
def ukstat_update_finish (s : kstat_state) (w : update_env) (trace : List event) :
    update_result :=
  let s := { s with last_update := w.time_store }
  match w.callback with
  | some status => { status := status, state := s, trace := trace ++ [event.callback] }
  | none => { status := 0, state := s, trace := trace }

/-- Function `ukstat_update`.  The function declares `kcid` twice; the embedding has the
one variable that receives the result of `kstat_chain_update`. -/
def ukstat_update (s : kstat_state) (w : update_env) : update_result :=
  if !s.kc && !w.kstat_open then
    { status := -1, state := s, trace := [event.kstat_open, event.error] }
  else
    let trace := if s.kc then [] else [event.kstat_open]
    let s := { s with kc := true }
    if w.time_check - s.last_update ≤ 1 then
      { status := 0, state := s, trace := trace }
    else
      let kcid := w.kstat_chain_update
      let trace := trace ++ [event.kstat_chain_update]
      if kcid < 0 then
        if s.last_kcid = 0 then
          { status := -1, state := s, trace := trace ++ [event.error] }
        else
          ukstat_update_finish s w (trace ++ [event.warning])
      else if kcid > 0 then
        ukstat_update_finish { s with last_kcid := kcid } w (trace ++ [event.debug])
      else
        ukstat_update_finish s w trace

/-- A sequence of calls of `ukstat_update`, each on the variables the previous
one left; the results in order. -/
def ukstat_update_seq : kstat_state → List update_env → List update_result
  | _, [] => []
  | s, w :: ws => ukstat_update s w :: ukstat_update_seq (ukstat_update s w).state ws

/-- All clock readings of the calls lie in the one-second window that starts
at `t`. -/
def sameWindow (t : Int) (ws : List update_env) : Prop :=
  ∀ w ∈ ws, (t ≤ w.time_check ∧ w.time_check ≤ t + 1) ∧ (t ≤ w.time_store ∧ w.time_store ≤ t + 1)

instance sameWindow.decidable (t : Int) (ws : List update_env) : Decidable (sameWindow t ws) :=
  inferInstanceAs (Decidable (∀ w ∈ ws,
    (t ≤ w.time_check ∧ w.time_check ≤ t + 1) ∧ (t ≤ w.time_store ∧ w.time_store ≤ t + 1)))

/-! ## Reading the list of metrics as a table -/

/-- Position and raw value of the first pair with the given key. -/
def lookupEntry : List (String × String) → String → Option (Nat × String)
  | [], _ => none
  | p :: es, k =>
    if p.1 = k then some (0, p.2)
    else (lookupEntry es k).map (fun q => (q.1 + 1, q.2))

/-- The raw value stored under a key, if any. -/
def rawValue (kvs : List (String × String)) (k : String) : Option String :=
  (lookupEntry kvs k).map (fun q => q.2)

/-- The decimal value of a non-empty string of digits. -/
def digitsValue (cs : List Char) : Option Nat :=
  if cs.isEmpty || !cs.all Char.isDigit then none
  else some (cs.foldl (fun n c => 10 * n + (c.toNat - 48)) 0)

/-- Modelled from the spec: an instance of `parse_value` (common.c, not among
the sources at hand) for the examples, which "parses the stored raw string as a
numeric literal" and fails "if the text is not a valid number": it accepts the
unsigned decimal integers and returns -1 for any other text; handed NULL it
reads through the pointer. -/
def parse_decimal : parse_value_t where
  gauge s :=
    match digitsValue s.data with
    | some n => (0, if n = 0 then gauge_t.fin 0 else gauge_t.round64 n)
    | none => (-1, gauge_t.nan)
  derive s :=
    match digitsValue s.data with
    | some n => (0, (n : Int))
    | none => (-1, 0)
  gauge_null := Except.error fault.null_pointer
  derive_null := Except.error fault.null_pointer

/-! ## utils_kstat.c: the chain and its named records (kstat.h) -/

/-- The `value` union of a `kstat_named_t` by `data_type`; `other` stands for
the data types without a case in the switch statements (char, float, double,
string). -/
inductive kstat_value where
  | int32 (i32 : Int)
  | uint32 (ui32 : Int)
  | int64 (i64 : Int)
  | uint64 (ui64 : Int)
  | other (data_type : Nat)
deriving DecidableEq

/-- A named record `kstat_named_t` of a kstat. -/
structure kstat_named_t where
  name : String
  value : kstat_value
deriving DecidableEq

/-- The fields of a `kstat_t` that the helper reads; `ks_next` is the position
in the chain. -/
structure kstat_t where
  ks_module : String
  ks_instance : Int
  ks_name : String
  ks_type : Nat
  ks_data : List kstat_named_t
deriving DecidableEq

/-- Value of `KSTAT_TYPE_NAMED` (kstat.h). -/
def KSTAT_TYPE_NAMED : Nat := 1

/-- Function `kstat_data_lookup` of libkstat: the first named record of the
kstat with the given name, NULL (`none`) if there is none. -/
def kstat_data_lookup (ks : kstat_t) (name : String) : Option kstat_named_t :=
  ks.ks_data.find? (fun n => n.name = name)

/-- Function `ukstat_foreach` over the chain `kc->kc_chain`.  The callback has a
state of its own (reached through `user_data`): for a state and an entry it
gives its status and next state.  The result is the status returned, the
state of the callback afterwards and the entries it has been called on, in
the order of the calls. -/
def ukstat_foreach {σ : Type} (callback : σ → kstat_t → Int × σ) :
    List kstat_t → σ → Int × σ × List kstat_t
  | [], user_data => (0, user_data, [])
  | ks :: ks_next, user_data =>
    let status := (callback user_data ks).1
    if status ≠ 0 then (status, (callback user_data ks).2, [ks])
    else
      let r := ukstat_foreach callback ks_next (callback user_data ks).2
      (r.1, r.2.1, ks :: r.2.2)

/-- The statuses of a callback called on the entries of a list one after the
other, each call on the state the previous call left. -/
def callbackStatuses {σ : Type} (callback : σ → kstat_t → Int × σ) :
    List kstat_t → σ → List Int
  | [], _ => []
  | ks :: rest, u => (callback u ks).1 :: callbackStatuses callback rest (callback u ks).2

/-! ## utils_kstat.c: typed extraction -/

/-- Conversion of an integer to `double`. -/
def gauge_t.ofInt (z : Int) : gauge_t :=
  if z = 0 then gauge_t.fin 0 else gauge_t.round64 z

/-- Conversion of a `double` to `int`: the value with its fraction discarded,
undefined when that is not a value of `int`. -/
def gauge_t.toInt32 : gauge_t → Except fault Int
  | gauge_t.nan => Except.error fault.float_to_int
  | gauge_t.inf _ => Except.error fault.float_to_int
  | gauge_t.negZero => Except.ok 0
  | gauge_t.fin q =>
    let t : Int := if q.num < 0 then -((-q.num) / q.den) else q.num / q.den
    if -2 ^ 31 ≤ t ∧ t < 2 ^ 31 then Except.ok t else Except.error fault.float_to_int

/-- Conversion of an integer to `int`, keeping it modulo `2^32`. -/
def wrapInt32 (z : Int) : Int := (z + 2 ^ 31) % 2 ^ 32 - 2 ^ 31

/-- Conversion of an integer to `derive_t` (signed 64 bit), keeping it modulo
`2^64`. -/
def wrapInt64 (z : Int) : Int := (z + 2 ^ 63) % 2 ^ 64 - 2 ^ 63

/-- Function `ukstat_gauge`.  `ks` is `none` for a NULL handle; `v` is `none`
for a NULL pointer and otherwise the content of `*v` before the call.  The
result is the value returned and the content of `*v` afterwards. -/
def ukstat_gauge (ks : Option kstat_t) (name : String) (v : Option gauge_t) :
    Except fault (Int × Option gauge_t) :=
  match ks with
  | none => Except.ok (EINVAL, v)
  | some ks =>
    if ks.ks_type ≠ KSTAT_TYPE_NAMED || v.isNone then Except.ok (EINVAL, v)
    else
      match kstat_data_lookup ks name with
      | none => Except.ok (ENOENT, v)
      | some n =>
        match n.value with
        | kstat_value.int32 i32 => (gauge_t.ofInt i32).toInt32.map (fun r => (r, v))
        | kstat_value.uint32 ui32 => (gauge_t.ofInt ui32).toInt32.map (fun r => (r, v))
        | kstat_value.int64 i64 => (gauge_t.ofInt i64).toInt32.map (fun r => (r, v))
        | kstat_value.uint64 ui64 => (gauge_t.ofInt ui64).toInt32.map (fun r => (r, v))
        | kstat_value.other _ => Except.ok (EINVAL, v)

/-- Function `ukstat_derive`, with the arguments and result of `ukstat_gauge`. -/
def ukstat_derive (ks : Option kstat_t) (name : String) (v : Option Int) :
    Int × Option Int :=
  match ks with
  | none => (EINVAL, v)
  | some ks =>
    if ks.ks_type ≠ KSTAT_TYPE_NAMED || v.isNone then (EINVAL, v)
    else
      match kstat_data_lookup ks name with
      | none => (ENOENT, v)
      | some n =>
        match n.value with
        | kstat_value.int32 i32 => (wrapInt32 (wrapInt64 i32), v)
        | kstat_value.uint32 ui32 => (wrapInt32 (wrapInt64 ui32), v)
        | kstat_value.int64 i64 => (wrapInt32 (wrapInt64 i64), v)
        | kstat_value.uint64 ui64 => (wrapInt32 (wrapInt64 ui64), v)
        | kstat_value.other _ => (EINVAL, v)

/-- A named kstat with the one record `name`. -/
def kstat_with (name : String) (value : kstat_value) : kstat_t :=
  { ks_module := "unix", ks_instance := 0, ks_name := "system_pages",
    ks_type := KSTAT_TYPE_NAMED, ks_data := [{ name := name, value := value }] }

/-! ## zfs_arc.c, Solaris and FreeBSD branches -/

/-- Function `ukstat_lookup`, which hands on to `kstat_lookup` of libkstat: the
first kstat of the chain with the given module, instance (-1 matches any) and
name, NULL (`none`) if there is none. -/
def ukstat_lookup (kc_chain : List kstat_t) (ks_module : String) (ks_instance : Int)
    (ks_name : String) : Option kstat_t :=
  kc_chain.find? (fun ks =>
    ks.ks_module = ks_module && (ks_instance = -1 || ks.ks_instance = ks_instance)
      && ks.ks_name = ks_name)

/-- Function `zfs_update` (Solaris).  `ks` is the file-scope handle before the
call; the result is that of `ukstat_update` with the status of `zfs_update`,
and the handle afterwards. -/
def zfs_update_solaris (s : kstat_state) (w : update_env) (kc_chain : List kstat_t)
    (ks : Option kstat_t) : update_result × Option kstat_t :=
  let r := ukstat_update s { w with callback := none }
  if r.status ≠ 0 then (r, ks)
  else
    match ukstat_lookup kc_chain "zfs" 0 "arcstats" with
    | none => ({ r with status := ENOENT, trace := r.trace ++ [event.error] }, none)
    | some k => (r, some k)

/-- Function `zfs_get_gauge` (Solaris); `v` is the content of `*v` before the
call.  The third argument of `ukstat_gauge` is `&v`, the address of the
parameter itself, which is not NULL; `ukstat_gauge` does not write through
it, and `*v` keeps its content. -/
def zfs_get_gauge_solaris (env : plugin_env) (ks : Option kstat_t) (name : String)
    (v : gauge_t) : Except fault (Int × gauge_t) :=
  let tmp := env.sstrncpy name env.DATA_MAX_NAME_LEN
  (ukstat_gauge ks tmp (some v)).map (fun r => (r.1, v))

/-- Function `zfs_get_derive` (Solaris); see `zfs_get_gauge_solaris`. -/
def zfs_get_derive_solaris (env : plugin_env) (ks : Option kstat_t) (name : String)
    (v : Int) : Int × Int :=
  let tmp := env.sstrncpy name env.DATA_MAX_NAME_LEN
  ((ukstat_derive ks tmp (some v)).1, v)

/-- What the FreeBSD branch takes from its surroundings: `ssnprintf` (common.c),
giving the content of a buffer of the given size for the formatted text, and
`sysctlbyname`, giving for a name its status and the value it stores. -/
structure freebsd_env where
  ssnprintf : Nat → String → String
  sysctlbyname : String → Int × Int

/-- Value of `ZFS_ARCSTATS_PREFIX`. -/
def ZFS_ARCSTATS_PREFIX : String := "kstat.zfs.misc.arcstats."

/-- Function `zfs_update` (FreeBSD). -/
def zfs_update_freebsd : Int := 0

/-- Function `zfs_get_derive` (FreeBSD); `v` is the content of `*v` before the
call. -/
def zfs_get_derive_freebsd (sys : freebsd_env) (name : String) (v : Int) : Int × Int :=
  let buffer := sys.ssnprintf 256 (ZFS_ARCSTATS_PREFIX ++ name)
  let status := (sys.sysctlbyname buffer).1
  let value := (sys.sysctlbyname buffer).2
  if status ≠ 0 then (status, v)
  else (0, wrapInt64 value)

/-- Function `zfs_get_gauge` (FreeBSD).  The local `d` is read only after
`zfs_get_derive` has written it. -/
def zfs_get_gauge_freebsd (sys : freebsd_env) (name : String) (v : gauge_t) : Int × gauge_t :=
  let status := (zfs_get_derive_freebsd sys name 0).1
  let d := (zfs_get_derive_freebsd sys name 0).2
  if status ≠ 0 then (status, v)
  else (0, gauge_t.ofInt d)

/-! ## zfs_arc.c: the read cycle (Linux branch) -/

/-- Function `za_read_derive`: its status and the value lists it dispatches.
The local `v` is read only after `zfs_get_derive` has written it. -/
def za_read_derive (pv : parse_value_t) (env : plugin_env) (metrics : Option llist_t)
    (name type type_instance : String) : Except fault (Int × List value_list_t) :=
  match zfs_get_derive pv metrics name 0 with
  | Except.error f => Except.error f
  | Except.ok (status, v) =>
    if status ≠ 0 then Except.ok (status, [])
    else Except.ok (0, [za_submit env type type_instance [value_t.derive v] 1])

/-- Function `za_read_gauge`: its status and the value lists it dispatches. -/
def za_read_gauge (pv : parse_value_t) (env : plugin_env) (metrics : Option llist_t)
    (name type type_instance : String) : Except fault (Int × List value_list_t) :=
  match zfs_get_gauge pv metrics name (gauge_t.fin 0) with
  | Except.error f => Except.error f
  | Except.ok (status, v) =>
    if status ≠ 0 then Except.ok (status, [])
    else Except.ok (0, [za_submit env type type_instance [value_t.gauge v] 1])

/-- The calls of `za_read_derive` in `za_read`, from "Operations" to "Hits /
misses", in order: name, type, type instance. -/
def za_read_derives : List (String × String × String) :=
  [("deleted", "cache_operation", "deleted"),
   ("mutex_miss", "mutex_operations", "miss"),
   ("hash_collisions", "hash_collisions", ""),
   ("evict_l2_cached", "cache_eviction", "cached"),
   ("evict_l2_eligible", "cache_eviction", "eligible"),
   ("evict_l2_ineligible", "cache_eviction", "ineligible"),
   ("demand_data_hits", "cache_result", "demand_data-hit"),
   ("demand_metadata_hits", "cache_result", "demand_metadata-hit"),
   ("prefetch_data_hits", "cache_result", "prefetch_data-hit"),
   ("prefetch_metadata_hits", "cache_result", "prefetch_metadata-hit"),
   ("demand_data_misses", "cache_result", "demand_data-miss"),
   ("demand_metadata_misses", "cache_result", "demand_metadata-miss"),
   ("prefetch_data_misses", "cache_result", "prefetch_data-miss"),
   ("prefetch_metadata_misses", "cache_result", "prefetch_metadata-miss")]

/-- A sequence of calls of `za_read_derive` whose statuses are dropped: the
value lists dispatched, in order. -/
def za_read_derive_all (pv : parse_value_t) (env : plugin_env) (metrics : Option llist_t) :
    List (String × String × String) → Except fault (List value_list_t)
  | [] => Except.ok []
  | (name, type, type_instance) :: rest =>
    match za_read_derive pv env metrics name type type_instance with
    | Except.error f => Except.error f
    | Except.ok (_, vls) =>
      match za_read_derive_all pv env metrics rest with
      | Except.error f => Except.error f
      | Except.ok vls' => Except.ok (vls ++ vls')

/-- The content of the locals of `za_read` that have no initialiser, as the
call finds it. -/
structure za_locals where
  arc_hits : gauge_t
  arc_misses : gauge_t
  l2_hits : gauge_t
  l2_misses : gauge_t
  l2_io_0 : Int
  l2_io_1 : Int

/-- What `za_read` keeps between calls: the list `metrics` and the static flag
`l2_size_avail`. -/
structure za_state where
  metrics : Option llist_t
  l2_size_avail : Bool
deriving DecidableEq

/-- Status of `za_read`, state afterwards, and the value lists dispatched, in
order. -/
structure za_result where
  status : Int
  state : za_state
  dispatched : List value_list_t
deriving DecidableEq

/-- The gauge parts of `za_read`: "Sizes". -/
def za_read_sizes (pv : parse_value_t) (env : plugin_env) (metrics : Option llist_t)
    (l2_size_avail : Bool) : Except fault (Bool × List value_list_t) :=
  match za_read_gauge pv env metrics "size" "cache_size" "arc" with
  | Except.error f => Except.error f
  | Except.ok (_, vls) =>
    if l2_size_avail then
      match za_read_gauge pv env metrics "l2_size" "cache_size" "L2" with
      | Except.error f => Except.error f
      | Except.ok (status, vls') =>
        Except.ok (if status ≠ 0 then false else l2_size_avail, vls ++ vls')
    else Except.ok (l2_size_avail, vls)

/-- The part "Ratios" of `za_read`; the statuses of `zfs_get_gauge` are
dropped. -/
def za_read_ratios (pv : parse_value_t) (env : plugin_env) (metrics : Option llist_t)
    (locals : za_locals) : Except fault (List value_list_t) :=
  match zfs_get_gauge pv metrics "hits" locals.arc_hits with
  | Except.error f => Except.error f
  | Except.ok (_, arc_hits) =>
    match zfs_get_gauge pv metrics "misses" locals.arc_misses with
    | Except.error f => Except.error f
    | Except.ok (_, arc_misses) =>
      match zfs_get_gauge pv metrics "l2_hits" locals.l2_hits with
      | Except.error f => Except.error f
      | Except.ok (_, l2_hits) =>
        match zfs_get_gauge pv metrics "l2_misses" locals.l2_misses with
        | Except.error f => Except.error f
        | Except.ok (_, l2_misses) =>
          Except.ok [za_submit_ratio env "arc" arc_hits arc_misses,
                     za_submit_ratio env "L2" l2_hits l2_misses]

/-- The part "I/O" of `za_read`; the statuses of `zfs_get_derive` are
dropped. -/
def za_read_io (pv : parse_value_t) (env : plugin_env) (metrics : Option llist_t)
    (locals : za_locals) : Except fault (List value_list_t) :=
  match zfs_get_derive pv metrics "l2_read_bytes" locals.l2_io_0 with
  | Except.error f => Except.error f
  | Except.ok (_, l2_io_0) =>
    match zfs_get_derive pv metrics "l2_write_bytes" locals.l2_io_1 with
    | Except.error f => Except.error f
    | Except.ok (_, l2_io_1) =>
      Except.ok [za_submit env "io_octets" "L2"
        [value_t.derive l2_io_0, value_t.derive l2_io_1] 2]

/-- Function `za_read` (Linux branch, so without the two reads under
`__FreeBSD__`). -/
def za_read (pv : parse_value_t) (env : plugin_env) (w : Nat → put_env)
    (file : Option (List String)) (locals : za_locals) (st : za_state) :
    Except fault za_result :=
  match zfs_update w file st.metrics with
  | Except.error f => Except.error f
  | Except.ok (status, metrics) =>
    if status ≠ 0 then
      Except.ok { status := status, state := { st with metrics := metrics }, dispatched := [] }
    else
      match za_read_sizes pv env metrics st.l2_size_avail with
      | Except.error f => Except.error f
      | Except.ok (l2_size_avail, sizes) =>
        match za_read_derive_all pv env metrics za_read_derives with
        | Except.error f => Except.error f
        | Except.ok derives =>
          match za_read_ratios pv env metrics locals with
          | Except.error f => Except.error f
          | Except.ok ratios =>
            match za_read_io pv env metrics locals with
            | Except.error f => Except.error f
            | Except.ok io =>
              Except.ok
                { status := 0
                  state := { metrics := metrics, l2_size_avail := l2_size_avail }
                  dispatched := sizes ++ derives ++ ratios ++ io }

/-- An instance of the surroundings for the examples: host `localhost`, name
buffers of 64 bytes, `sstrncpy` keeping at most `n - 1` characters. -/
def env0 : plugin_env :=
  { hostname_g := "localhost", DATA_MAX_NAME_LEN := 64,
    sstrncpy := fun src n => String.mk (src.data.take (n - 1)) }

/-! ## More arithmetic on doubles -/

/-- C `-x` on doubles. -/
def gauge_t.neg : gauge_t → gauge_t
  | gauge_t.nan => gauge_t.nan
  | gauge_t.inf b => gauge_t.inf (!b)
  | gauge_t.negZero => gauge_t.fin 0
  | gauge_t.fin q => if q = 0 then gauge_t.negZero else gauge_t.fin (-q)

/-- C `x - y` on doubles. -/
def gauge_t.sub (x y : gauge_t) : gauge_t := x.add y.neg

/-- C `x * y` on doubles. -/
def gauge_t.mul : gauge_t → gauge_t → gauge_t
  | gauge_t.nan, _ => gauge_t.nan
  | _, gauge_t.nan => gauge_t.nan
  | gauge_t.inf a, gauge_t.inf b => gauge_t.inf (xor a b)
  | gauge_t.inf _, gauge_t.negZero => gauge_t.nan
  | gauge_t.inf a, gauge_t.fin q =>
    if q = 0 then gauge_t.nan else gauge_t.inf (xor a (decide (q < 0)))
  | gauge_t.negZero, gauge_t.inf _ => gauge_t.nan
  | gauge_t.fin p, gauge_t.inf b =>
    if p = 0 then gauge_t.nan else gauge_t.inf (xor (decide (p < 0)) b)
  | gauge_t.negZero, gauge_t.negZero => gauge_t.fin 0
  | gauge_t.negZero, gauge_t.fin q => gauge_t.zero (!decide (q < 0))
  | gauge_t.fin p, gauge_t.negZero => gauge_t.zero (!decide (p < 0))
  | gauge_t.fin p, gauge_t.fin q =>
    if p = 0 ∨ q = 0 then gauge_t.zero (xor (decide (p < 0)) (decide (q < 0)))
    else gauge_t.round64 (p * q)

/-- The number a finite double stands for (0 for the zeros). -/
def gauge_t.toRat : gauge_t → ℚ
  | gauge_t.fin q => q
  | _ => 0

/-- C `x < y` on doubles. -/
def gauge_t.lt : gauge_t → gauge_t → Bool
  | gauge_t.nan, _ => false
  | _, gauge_t.nan => false
  | gauge_t.inf a, gauge_t.inf b => a && !b
  | gauge_t.inf a, _ => a
  | _, gauge_t.inf b => !b
  | x, y => decide (x.toRat < y.toRat)

/-! ## memory.c, Linux branch -/

/-- Value of `DS_TYPE_GAUGE` (plugin.h). -/
def DS_TYPE_GAUGE : Int := 1

/-- C `strncasecmp (s1, s2, n) == 0`. -/
def strncasecmp_eq (s1 s2 : String) (n : Nat) : Bool :=
  (s1.data.take n).map Char.toLower = (s2.data.take n).map Char.toLower

/-- The gauges that the pointer `val` of `memory_read_internal` can point to. -/
inductive memvar where
  | mem_total
  | mem_free
  | mem_buffered
  | mem_cached
  | mem_slab_total
  | mem_slab_reclaimable
  | mem_slab_unreclaimable
deriving DecidableEq

/-- The locals of `memory_read_internal` that the loop over the file writes. -/
structure meminfo where
  detailed_slab_info : Bool
  mem_total : gauge_t
  mem_buffered : gauge_t
  mem_cached : gauge_t
  mem_free : gauge_t
  mem_slab_total : gauge_t
  mem_slab_reclaimable : gauge_t
  mem_slab_unreclaimable : gauge_t
deriving DecidableEq

/-- The initialisers of the locals. -/
def meminfo.init : meminfo :=
  { detailed_slab_info := false, mem_total := gauge_t.fin 0, mem_buffered := gauge_t.fin 0,
    mem_cached := gauge_t.fin 0, mem_free := gauge_t.fin 0, mem_slab_total := gauge_t.fin 0,
    mem_slab_reclaimable := gauge_t.fin 0, mem_slab_unreclaimable := gauge_t.fin 0 }

/-- Reading `*val`. -/
def meminfo.get (m : meminfo) : memvar → gauge_t
  | memvar.mem_total => m.mem_total
  | memvar.mem_free => m.mem_free
  | memvar.mem_buffered => m.mem_buffered
  | memvar.mem_cached => m.mem_cached
  | memvar.mem_slab_total => m.mem_slab_total
  | memvar.mem_slab_reclaimable => m.mem_slab_reclaimable
  | memvar.mem_slab_unreclaimable => m.mem_slab_unreclaimable

/-- Writing `*val`. -/
def meminfo.set (m : meminfo) (val : memvar) (x : gauge_t) : meminfo :=
  match val with
  | memvar.mem_total => { m with mem_total := x }
  | memvar.mem_free => { m with mem_free := x }
  | memvar.mem_buffered => { m with mem_buffered := x }
  | memvar.mem_cached => { m with mem_cached := x }
  | memvar.mem_slab_total => { m with mem_slab_total := x }
  | memvar.mem_slab_reclaimable => { m with mem_slab_reclaimable := x }
  | memvar.mem_slab_unreclaimable => { m with mem_slab_unreclaimable := x }

/-- The chain of `strncasecmp` tests on a buffer: where `val` points
afterwards, `none` when the loop continues with the next buffer. -/
def memory_line_val (buffer : String) : Option memvar :=
  if strncasecmp_eq buffer "MemTotal:" 9 then some memvar.mem_total
  else if strncasecmp_eq buffer "MemFree:" 8 then some memvar.mem_free
  else if strncasecmp_eq buffer "Buffers:" 8 then some memvar.mem_buffered
  else if strncasecmp_eq buffer "Cached:" 7 then some memvar.mem_cached
  else if strncasecmp_eq buffer "Slab:" 5 then some memvar.mem_slab_total
  else if strncasecmp_eq buffer "SReclaimable:" 13 then some memvar.mem_slab_reclaimable
  else if strncasecmp_eq buffer "SUnreclaim:" 11 then some memvar.mem_slab_unreclaimable
  else none

/-- Whether the branch taken for `val` sets `detailed_slab_info`. -/
def memvar.detailed : memvar → Bool
  | memvar.mem_slab_reclaimable => true
  | memvar.mem_slab_unreclaimable => true
  | _ => false

/-- One pass of the body of the `while (fgets ...)` loop; `atof` is that of
libc. -/
def memory_scan_line (atof : String → gauge_t) (buffer : String) (m : meminfo) : meminfo :=
  match memory_line_val buffer with
  | none => m
  | some val =>
    let m := if val.detailed then { m with detailed_slab_info := true } else m
    let fields := strsplit buffer 8
    let numfields := fields.length
    if numfields < 2 then m
    else m.set val ((gauge_t.fin 1024).mul (atof (fields.getD 1 "")))

/-- The `while (fgets ...)` loop over the buffers read from the file. -/
def memory_scan (atof : String → gauge_t) : List String → meminfo → meminfo
  | [], m => m
  | buffer :: rest, m => memory_scan atof rest (memory_scan_line atof buffer m)

/-- The options `ValuesAbsolute` and `ValuesPercentage`. -/
structure memory_config where
  values_absolute : Bool
  values_percentage : Bool
deriving DecidableEq

/-- The defaults of the options. -/
def memory_config.default : memory_config :=
  { values_absolute := true, values_percentage := false }

/-- One call of `plugin_dispatch_multivalue`: the value list, the flag
`store_percentage`, the data source type and the pairs of type instance and
value. -/
structure multivalue_call where
  vl : value_list_t
  store_percentage : Int
  store_type : Int
  values : List (String × gauge_t)
deriving DecidableEq

/-- The macro `MEMORY_SUBMIT`: the calls of `plugin_dispatch_multivalue` it
makes. -/
def MEMORY_SUBMIT (cfg : memory_config) (vl : value_list_t) (values : List (String × gauge_t)) :
    List multivalue_call :=
  (if cfg.values_absolute then
      [{ vl := vl, store_percentage := 0, store_type := DS_TYPE_GAUGE, values := values }]
    else [])
  ++ (if cfg.values_percentage then
      [{ vl := vl, store_percentage := 1, store_type := DS_TYPE_GAUGE, values := values }]
    else [])

/-- Function `memory_read_internal` (Linux branch).  `file` is `none` when
`fopen` fails and otherwise the buffers read from `/proc/meminfo`.  The
result is the status and the calls of `plugin_dispatch_multivalue`; the
outcome of `fclose` decides a warning only. -/
def memory_read_internal_linux (cfg : memory_config) (atof : String → gauge_t)
    (file : Option (List String)) (vl : value_list_t) : Int × List multivalue_call :=
  match file with
  | none => (-1, [])
  | some lines =>
    let m := memory_scan atof lines meminfo.init
    let sum := ((m.mem_free.add m.mem_buffered).add m.mem_cached).add m.mem_slab_total
    if m.mem_total.lt sum then (-1, [])
    else
      let mem_used := m.mem_total.sub sum
      if m.detailed_slab_info then
        (0, MEMORY_SUBMIT cfg vl
          [("used", mem_used), ("buffered", m.mem_buffered), ("cached", m.mem_cached),
           ("free", m.mem_free), ("slab_unrecl", m.mem_slab_unreclaimable),
           ("slab_recl", m.mem_slab_reclaimable)])
      else
        (0, MEMORY_SUBMIT cfg vl
          [("used", mem_used), ("buffered", m.mem_buffered), ("cached", m.mem_cached),
           ("free", m.mem_free), ("slab", m.mem_slab_total)])

/-- The number that a snapshot gives for one of the gauges: what `atof` makes of
the second field of the last buffer that selects the gauge and has at least
two fields. -/
def meminfo_kB (atof : String → gauge_t) (lines : List String) (val : memvar) :
    Option gauge_t :=
  ((lines.filter (fun b =>
      decide (memory_line_val b = some val) && decide (2 ≤ (strsplit b 8).length))).getLast?).map
    (fun b => atof ((strsplit b 8).getD 1 ""))

/-- An instance of `atof` for the examples: the value of a string of decimal
digits, 0 for any other text. -/
def atof_decimal (s : String) : gauge_t :=
  match digitsValue s.data with
  | some n => gauge_t.ofInt n
  | none => gauge_t.fin 0

/-- A value list as `memory_read` prepares it. -/
def memory_vl : value_list_t :=
  { values := [], values_len := 1, host := "localhost", plugin := "memory", type := "memory",
    type_instance := "" }

/-- The snapshot of the end-to-end scenario, with a line that no test
selects. -/
def meminfo_example : List String :=
  ["MemTotal:       1000 kB\n", "MemFree:         200 kB\n", "Buffers:          50 kB\n",
   "Cached:          100 kB\n", "SwapCached:        0 kB\n", "Slab:             50 kB\n"]

/-! ## zfs_arc.c: successive read cycles -/

/-- What one call of `za_read` finds outside: what the calls of
`zfs_put_value` meet, the file, and the content of its uninitialised locals. -/
structure za_cycle where
  put : Nat → put_env
  file : Option (List String)
  locals : za_locals

/-- The variables of zfs_arc.c as the program starts: `metrics` is NULL and
`l2_size_avail` is 1. -/
def za_state0 : za_state := { metrics := metrics0, l2_size_avail := true }

/-- Successive calls of `za_read`, each on the state the previous one left, up
to the first call that does not return: for every call that returned, the
state it found, what it found outside, and its result; and the fault that
ended the run, if one did. -/
def za_run (pv : parse_value_t) (env : plugin_env) :
    za_state → List za_cycle → List (za_state × za_cycle × za_result) × Option fault
  | _, [] => ([], none)
  | st, c :: cs =>
    match za_read pv env c.put c.file c.locals st with
    | Except.error f => ([], some f)
    | Except.ok r => ((st, c, r) :: (za_run pv env r.state cs).1, (za_run pv env r.state cs).2)

/-- A call of `za_read` in which the flag `l2_size_avail` goes from set to
cleared. -/
def clearsL2Size (t : za_state × za_cycle × za_result) : Bool :=
  t.1.l2_size_avail && !t.2.2.state.l2_size_avail

/-- Locals of `za_read` holding NaN and 0, for the examples. -/
def za_locals0 : za_locals :=
  { arc_hits := gauge_t.nan, arc_misses := gauge_t.nan, l2_hits := gauge_t.nan,
    l2_misses := gauge_t.nan, l2_io_0 := 0, l2_io_1 := 0 }

/-- Three read cycles for the examples: the file cannot be opened, then a
snapshot without `l2_size`, then a snapshot that has a line for `l2_size`. -/
def za_cycles0 : List za_cycle :=
  [{ put := mallocOk, file := none, locals := za_locals0 },
   { put := mallocOk, file := some ["size 4 7"], locals := za_locals0 },
   { put := mallocOk, file := some ["size 4 7", "l2_size 4 5"], locals := za_locals0 }]

/-! ## memory.c, kstat branch -/

/-- Function `memory_update_kstat`: its status and the file-scope handle `ksp`
afterwards. -/
def memory_update_kstat (kc_chain : List kstat_t) : Int × Option kstat_t :=
  match ukstat_lookup kc_chain "unix" 0 "system_pages" with
  | none => (ENOENT, none)
  | some ks => (0, some ks)

/-- One operand `ukstat_gauge (ksp, name, &v) != 0` of the test in
`memory_read_internal`: `none` when the operand is true, otherwise the content
of `v` afterwards. -/
def memory_get_gauge (ksp : Option kstat_t) (name : String) (v : gauge_t) :
    Except fault (Option gauge_t) :=
  match ukstat_gauge ksp name (some v) with
  | Except.error f => Except.error f
  | Except.ok (status, v') => if status ≠ 0 then Except.ok none else Except.ok (some (v'.getD v))

/-- The content of the page count locals of `memory_read_internal`, which have
no initialiser, as the call finds it. -/
structure memory_kstat_locals where
  pagestotal : gauge_t
  pagesfree : gauge_t
  pageslocked : gauge_t
  pp_kernel : gauge_t
  physmem : gauge_t
  availrmem : gauge_t

/-- Lines 427 to 461 of `memory_read_internal`: from the page counts to the
pairs handed to `MEMORY_SUBMIT`. -/
def memory_kstat_values (pagesize pagestotal pagesfree pageslocked pp_kernel physmem
    availrmem : gauge_t) : List (String × gauge_t) :=
  let unusable := physmem.sub pagestotal
  let small := pagestotal.lt (pagesfree.add pageslocked)
  let used := if small then gauge_t.fin 0 else pagestotal.sub (pagesfree.add pageslocked)
  let pagesfree := if small then availrmem else pagesfree
  let kernel := if pp_kernel.lt pageslocked then pp_kernel else pageslocked
  let pageslocked :=
    if pp_kernel.lt pageslocked then pageslocked.sub pp_kernel else gauge_t.fin 0
  [("used", pagesize.mul used), ("free", pagesize.mul pagesfree),
   ("locked", pagesize.mul pageslocked), ("kernel", pagesize.mul kernel),
   ("unusable", pagesize.mul unusable)]

/-- Result of the kstat branch of `memory_read_internal`: its status, what
`ukstat_update` did, the handle `ksp` afterwards, the handle passed to
`ukstat_read` if that call was reached, and the dispatch calls. -/
structure memory_kstat_result where
  status : Int
  update : update_result
  ksp : Option kstat_t
  read : Option (Option kstat_t)
  calls : List multivalue_call
deriving DecidableEq

/-- Function `memory_read_internal` (kstat branch).  `pagesize` and `ksp` are the
file-scope variables, `kc_chain` is the chain as it is behind
`kstat_chain_update`, `kstat_read` gives what `kstat_read` of libkstat returns
for a handle. -/
def memory_read_internal_kstat (cfg : memory_config) (pagesize : gauge_t) (s : kstat_state)
    (w : update_env) (kc_chain : List kstat_t) (ksp : Option kstat_t)
    (kstat_read : Option kstat_t → Int) (locals : memory_kstat_locals) (vl : value_list_t) :
    Except fault memory_kstat_result :=
  let u := ukstat_update s { w with callback := some (memory_update_kstat kc_chain).1 }
  let ksp := if event.callback ∈ u.trace then (memory_update_kstat kc_chain).2 else ksp
  if u.status ≠ 0 then
    Except.ok { status := u.status, update := u, ksp := ksp, read := none, calls := [] }
  else if kstat_read ksp = -1 then
    Except.ok { status := -1, update := u, ksp := ksp, read := some ksp, calls := [] }
  else
    let fail : memory_kstat_result :=
      { status := -1, update := u, ksp := ksp, read := some ksp, calls := [] }
    match memory_get_gauge ksp "pagestotal" locals.pagestotal with
    | Except.error f => Except.error f
    | Except.ok none => Except.ok fail
    | Except.ok (some pagestotal) =>
    match memory_get_gauge ksp "pagesfree" locals.pagesfree with
    | Except.error f => Except.error f
    | Except.ok none => Except.ok fail
    | Except.ok (some pagesfree) =>
    match memory_get_gauge ksp "pageslocked" locals.pageslocked with
    | Except.error f => Except.error f
    | Except.ok none => Except.ok fail
    | Except.ok (some pageslocked) =>
    match memory_get_gauge ksp "pp_kernel" locals.pp_kernel with
    | Except.error f => Except.error f
    | Except.ok none => Except.ok fail
    | Except.ok (some pp_kernel) =>
    match memory_get_gauge ksp "physmem" locals.physmem with
    | Except.error f => Except.error f
    | Except.ok none => Except.ok fail
    | Except.ok (some physmem) =>
    match memory_get_gauge ksp "availrmem" locals.availrmem with
    | Except.error f => Except.error f
    | Except.ok none => Except.ok fail
    | Except.ok (some availrmem) =>
      Except.ok
        { status := 0, update := u, ksp := ksp, read := some ksp
          calls := MEMORY_SUBMIT cfg vl
            (memory_kstat_values pagesize pagestotal pagesfree pageslocked pp_kernel physmem
              availrmem) }

/-- The kstat `unix:0:system_pages` of the examples. -/
def system_pages0 : kstat_t :=
  { ks_module := "unix", ks_instance := 0, ks_name := "system_pages",
    ks_type := KSTAT_TYPE_NAMED,
    ks_data :=
      [{ name := "pagestotal", value := kstat_value.uint64 1000 },
       { name := "pagesfree", value := kstat_value.uint64 300 },
       { name := "pageslocked", value := kstat_value.uint64 200 },
       { name := "pp_kernel", value := kstat_value.uint64 150 },
       { name := "physmem", value := kstat_value.uint64 1024 },
       { name := "availrmem", value := kstat_value.uint64 700 }] }

/-- Page count locals holding NaN, for the examples. -/
def memory_kstat_locals0 : memory_kstat_locals :=
  { pagestotal := gauge_t.nan, pagesfree := gauge_t.nan, pageslocked := gauge_t.nan,
    pp_kernel := gauge_t.nan, physmem := gauge_t.nan, availrmem := gauge_t.nan }

/-- An instance of `kstat_read` for the examples: -1 for a NULL handle, the
chain id 7 otherwise. -/
def kstat_read0 (ks : Option kstat_t) : Int := if ks.isSome then 7 else -1

/-! ## The parts of `round64` -/

/-- Nearest natural number to `P / Q`, ties to even. -/
def gauge_t.rne (P Q : Nat) : Nat :=
  if 2 * (P % Q) < Q then P / Q
  else if Q < 2 * (P % Q) then P / Q + 1
  else if P / Q % 2 = 0 then P / Q else P / Q + 1

/-- Exponent of the unit in the last place that `round64` uses for `q`. -/
def gauge_t.rexp (q : ℚ) : Int :=
  max (gauge_t.log2floor q.num.natAbs q.den) (-1022) - 52

/-- Numerator of `|q|` in units of `2 ^ rexp q`. -/
def gauge_t.rnum (q : ℚ) : Nat :=
  if gauge_t.rexp q < 0 then q.num.natAbs * 2 ^ (-gauge_t.rexp q).toNat else q.num.natAbs

/-- Denominator of `|q|` in units of `2 ^ rexp q`. -/
def gauge_t.rden (q : ℚ) : Nat :=
  if gauge_t.rexp q < 0 then q.den else q.den * 2 ^ (gauge_t.rexp q).toNat

/-- The integral significand that `round64` gives `q`. -/
def gauge_t.rmant (q : ℚ) : Nat := gauge_t.rne (gauge_t.rnum q) (gauge_t.rden q)

/-- The magnitude that `round64` gives `q`. -/
def gauge_t.rmag (q : ℚ) : ℚ :=
  if gauge_t.rexp q < 0 then
    (gauge_t.rmant q : ℚ) / ((2 ^ (-gauge_t.rexp q).toNat : Nat) : ℚ)
  else (gauge_t.rmant q : ℚ) * ((2 ^ (gauge_t.rexp q).toNat : Nat) : ℚ)

/-- A value of `gauge_t` that a `double` can hold: a finite value that is not
zero is one that `round64` leaves as it is. -/
def gauge_t.isDouble : gauge_t → Prop
  | gauge_t.fin q => q = 0 ∨ gauge_t.round64 q = gauge_t.fin q
  | _ => True

instance gauge_t.isDouble.decidable : (g : gauge_t) → Decidable g.isDouble
  | gauge_t.nan => isTrue trivial
  | gauge_t.inf _ => isTrue trivial
  | gauge_t.negZero => isTrue trivial
  | gauge_t.fin q => inferInstanceAs (Decidable (q = 0 ∨ gauge_t.round64 q = gauge_t.fin q))

/-- A gauge in the closed interval from 0 to 1; `-0.0` compares equal to 0. -/
def gauge_t.inUnit : gauge_t → Prop
  | gauge_t.fin q => 0 ≤ q ∧ q ≤ 1
  | gauge_t.negZero => True
  | _ => False

instance gauge_t.inUnit.decidable : (g : gauge_t) → Decidable g.inUnit
  | gauge_t.nan => isFalse not_false
  | gauge_t.inf _ => isFalse not_false
  | gauge_t.negZero => isTrue trivial
  | gauge_t.fin q => inferInstanceAs (Decidable (0 ≤ q ∧ q ≤ 1))

/-- A snapshot with the detailed slab lines and no `Buffers` line. -/
def meminfo_detailed : List String :=
  ["MemTotal:       2000 kB\n", "MemFree:         500 kB\n", "Cached:          300 kB\n",
   "Slab:            200 kB\n", "SReclaimable:    120 kB\n", "SUnreclaim:       80 kB\n"]

/-! # Properties -/

/-! ## The ratio of hits and misses -/

theorem clampsToZero_iff (x : gauge_t) : clampsToZero x ↔ (clampInput x).neZero = false := by
  cases x with
  | nan => simp [clampsToZero, clampInput, gauge_t.neZero]
  | inf b => simp [clampsToZero, clampInput, gauge_t.neZero]
  | negZero => simp [clampsToZero, clampInput, gauge_t.neZero]
  | fin q =>
    by_cases hq : q < 0
    · simp [clampsToZero, clampInput, gauge_t.neZero, hq, le_of_lt hq]
    · have hq' : 0 ≤ q := not_lt.mp hq
      simp only [clampsToZero, clampInput, gauge_t.neZero, hq, if_false]
      simp only [ne_eq, decide_not, Bool.not_eq_false_eq_eq_true, decide_eq_true_eq]
      constructor
      · intro h; exact le_antisymm h hq'
      · intro h; exact le_of_eq h

theorem clamp_code_eq (x : gauge_t) :
    (if !x.isfinite || x.ltZero then gauge_t.fin 0 else x) = clampInput x := by
  cases x with
  | nan => simp [clampInput, gauge_t.isfinite]
  | inf b => simp [clampInput, gauge_t.isfinite]
  | negZero => simp [clampInput, gauge_t.isfinite, gauge_t.ltZero]
  | fin q =>
    by_cases hq : q < 0 <;> simp [clampInput, gauge_t.isfinite, gauge_t.ltZero, hq]

theorem za_submit_ratio_eq (env : plugin_env) (type_instance : String) (hits misses : gauge_t) :
    za_submit_ratio env type_instance hits misses =
      za_submit env "cache_ratio" type_instance
        [value_t.gauge
          (if (clampInput hits).neZero || (clampInput misses).neZero then
            (clampInput hits).div ((clampInput hits).add (clampInput misses))
          else gauge_t.nan)] 1 := by
  simp only [za_submit_ratio, clamp_code_eq]

theorem ratioOf_za_submit (env : plugin_env) (type type_instance : String) (g : gauge_t) :
    ratioOf (za_submit env type type_instance [value_t.gauge g] 1) = some g := rfl

/-- C1: when the clamped inputs are not both zero, `za_submit_ratio` dispatches
exactly `h / (h + m)` for the clamped hits `h` and misses `m`; the ratio of
`(-5, 10)` is that of `(0, 10)`, which is `0.0`, and the ratio of `(3, 1)` is
`0.75`. -/
theorem za_submit_ratio_quotient (env : plugin_env) (type_instance : String)
    (hits misses : gauge_t) (h : ¬ (clampsToZero hits ∧ clampsToZero misses)) :
    za_submit_ratio env type_instance hits misses =
        za_submit env "cache_ratio" type_instance
          [value_t.gauge ((clampInput hits).div ((clampInput hits).add (clampInput misses)))] 1
      ∧ ratioOf (za_submit_ratio env type_instance (gauge_t.fin (-5)) (gauge_t.fin 10)) =
          ratioOf (za_submit_ratio env type_instance (gauge_t.fin 0) (gauge_t.fin 10))
      ∧ ratioOf (za_submit_ratio env type_instance (gauge_t.fin 0) (gauge_t.fin 10)) =
          some (gauge_t.fin 0)
      ∧ ratioOf (za_submit_ratio env type_instance (gauge_t.fin 3) (gauge_t.fin 1)) =
          some (gauge_t.fin (3 / 4)) := by
  have e1 : (clampInput (gauge_t.fin (-5))) = gauge_t.fin 0 := by decide!
  have e2 : (if (gauge_t.fin 0).neZero || (gauge_t.fin 10).neZero then
      (gauge_t.fin 0).div ((gauge_t.fin 0).add (gauge_t.fin 10)) else gauge_t.nan)
      = gauge_t.fin 0 := by decide!
  have e3 : (if (gauge_t.fin 3).neZero || (gauge_t.fin 1).neZero then
      (gauge_t.fin 3).div ((gauge_t.fin 3).add (gauge_t.fin 1)) else gauge_t.nan)
      = gauge_t.fin (3 / 4) := by decide!
  have c0 : clampInput (gauge_t.fin 0) = gauge_t.fin 0 := by decide!
  have c10 : clampInput (gauge_t.fin 10) = gauge_t.fin 10 := by decide!
  have c3 : clampInput (gauge_t.fin 3) = gauge_t.fin 3 := by decide!
  have c1 : clampInput (gauge_t.fin 1) = gauge_t.fin 1 := by decide!
  refine ⟨?_, ?_, ?_, ?_⟩
  · rw [za_submit_ratio_eq]
    have hne : ((clampInput hits).neZero || (clampInput misses).neZero) = true := by
      by_contra hc
      apply h
      rw [clampsToZero_iff, clampsToZero_iff]
      simpa using hc
    rw [hne]; rfl
  · simp only [za_submit_ratio_eq, ratioOf_za_submit, e1, c0, c10]
  · simp only [za_submit_ratio_eq, ratioOf_za_submit, c0, c10, e2]
  · simp only [za_submit_ratio_eq, ratioOf_za_submit, c3, c1, e3]

theorem za_submit_ratio_quotient_witness :
    ¬ (clampsToZero (gauge_t.fin 3) ∧ clampsToZero (gauge_t.fin 1)) ∧
      ratioOf (za_submit_ratio ⟨"localhost", 64, fun src _ => src⟩ "arc" (gauge_t.fin 3) (gauge_t.fin 1)) =
        some (gauge_t.fin (3 / 4)) :=
  ⟨by decide!,
   (za_submit_ratio_quotient ⟨"localhost", 64, fun src _ => src⟩ "arc" (gauge_t.fin 3) (gauge_t.fin 1)
      (by decide!)).2.2.2⟩

/-- C2: when both inputs clamp to zero (each is zero, negative, infinite or
NaN), `za_submit_ratio` dispatches NaN and not a zero. -/
theorem za_submit_ratio_no_data (env : plugin_env) (type_instance : String)
    (hits misses : gauge_t) (hh : clampsToZero hits) (hm : clampsToZero misses) :
    za_submit_ratio env type_instance hits misses =
        za_submit env "cache_ratio" type_instance [value_t.gauge gauge_t.nan] 1
      ∧ ratioOf (za_submit_ratio env type_instance hits misses) = some gauge_t.nan
      ∧ ratioOf (za_submit_ratio env type_instance hits misses) ≠ some (gauge_t.fin 0)
      ∧ ratioOf (za_submit_ratio env type_instance hits misses) ≠ some gauge_t.negZero := by
  have e : za_submit_ratio env type_instance hits misses =
      za_submit env "cache_ratio" type_instance [value_t.gauge gauge_t.nan] 1 := by
    rw [za_submit_ratio_eq]
    rw [clampsToZero_iff] at hh hm
    simp [hh, hm]
  refine ⟨e, ?_, ?_, ?_⟩
  · rw [e, ratioOf_za_submit]
  · rw [e, ratioOf_za_submit]; simp
  · rw [e, ratioOf_za_submit]; simp

theorem za_submit_ratio_no_data_witness :
    clampsToZero (gauge_t.fin 0) ∧ clampsToZero (gauge_t.fin 0) ∧
      ratioOf (za_submit_ratio ⟨"localhost", 64, fun src _ => src⟩ "arc" (gauge_t.fin 0) (gauge_t.fin 0)) =
        some gauge_t.nan :=
  ⟨by decide!, by decide!,
   (za_submit_ratio_no_data ⟨"localhost", 64, fun src _ => src⟩ "arc" (gauge_t.fin 0) (gauge_t.fin 0)
      (by decide!) (by decide!)).2.1⟩

/-! ## The Named Counter Store -/

theorem zfs_put_value_null (w : put_env) (name value : String) :
    zfs_put_value w none name value =
      if w.malloc = false then Except.ok (ENOMEM, none)
      else if w.llist_append_null = true then Except.ok (0, none)
      else Except.error fault.null_pointer := by
  unfold zfs_put_value llist_search llist_append
  cases w.malloc <;> cases w.llist_append_null <;> rfl

theorem zfs_put_value_null_cases (w : put_env) (name value : String) :
    (∃ status, zfs_put_value w none name value = Except.ok (status, none))
      ∨ zfs_put_value w none name value = Except.error fault.null_pointer := by
  rw [zfs_put_value_null]
  cases w.malloc <;> cases w.llist_append_null <;> simp

theorem zfs_update_loop_null (w : Nat → put_env) (lines : List String) :
    zfs_update_loop w lines none =
      if appendDies w lines = true then Except.error fault.null_pointer else Except.ok none := by
  induction lines generalizing w with
  | nil => rfl
  | cons b rest ih =>
    have ih' := ih (fun i => w (i + 1))
    by_cases h3 : (strsplit b 8).length = 3
    · simp only [zfs_update_loop, h3, ne_eq, not_true_eq_false, if_false, zfs_put_value_null,
        appendDies, decide_True, Bool.true_and]
      cases hm : (w 0).malloc <;> cases ha : (w 0).llist_append_null <;> simp [ih']
    · simp only [zfs_update_loop, h3, ne_eq, not_false_eq_true, if_true, appendDies,
        decide_False, Bool.false_and, Bool.false_or]
      exact ih'

theorem zfs_update_null (w : Nat → put_env) (lines : List String) :
    zfs_update w none none = Except.ok (-1, none)
      ∧ zfs_update w (some lines) none =
          if appendDies w lines = true then Except.error fault.null_pointer
          else Except.ok (0, none) := by
  refine ⟨rfl, ?_⟩
  simp only [zfs_update, llist_head, Option.getD_none, zfs_update_release, Option.map_none',
    zfs_update_loop_null]
  cases appendDies w lines <;> rfl

theorem appendDies_of_returns (w : Nat → put_env) (lines : List String)
    (h : ∀ i, (w i).llist_append_null = true) : appendDies w lines = false := by
  induction lines generalizing w with
  | nil => rfl
  | cons b rest ih =>
    simp only [appendDies, h 0, Bool.not_true, Bool.and_false, Bool.false_or]
    exact ih _ (fun i => h (i + 1))

theorem appendDies_of_no_three (w : Nat → put_env) (lines : List String)
    (h : ∀ b ∈ lines, (strsplit b 8).length ≠ 3) : appendDies w lines = false := by
  induction lines generalizing w with
  | nil => rfl
  | cons b rest ih =>
    have h3 := h b (List.mem_cons_self _ _)
    simp only [appendDies, h3, decide_False, Bool.false_and, Bool.false_or]
    exact ih _ (fun b' hb' => h b' (List.mem_cons_of_mem _ hb'))

theorem zfs_get_gauge_null (pv : parse_value_t) (name : String) (g : gauge_t) :
    zfs_get_gauge pv none name g = Except.ok (ENOENT, g) := rfl

theorem zfs_get_derive_null (pv : parse_value_t) (name : String) (d : Int) :
    zfs_get_derive pv none name d = Except.ok (ENOENT, d) := rfl

theorem llist_search_live (kvs : List (String × String)) (k : String) :
    llist_search (live kvs) k =
      Except.ok ((lookupEntry kvs k).map
        (fun q => (q.1, { key := some k, value := some q.2 }))) := by
  unfold llist_search live
  dsimp only
  induction kvs with
  | nil => rfl
  | cons p kvs ih =>
    by_cases h : p.1 = k
    · subst h
      simp [llist_search_nodes, lookupEntry]
    · simp only [List.map_cons, llist_search_nodes, h, if_false, ih, lookupEntry]
      cases lookupEntry kvs k <;> rfl

theorem zfs_get_gauge_live (pv : parse_value_t) (kvs : List (String × String)) (name : String)
    (g : gauge_t) :
    zfs_get_gauge pv (live kvs) name g =
      Except.ok
        (match rawValue kvs name with
         | none => (ENOENT, g)
         | some raw => if (pv.gauge raw).1 ≠ 0 then ((pv.gauge raw).1, g)
                       else (0, (pv.gauge raw).2)) := by
  unfold zfs_get_gauge rawValue
  rw [llist_search_live]
  cases lookupEntry kvs name with
  | none => rfl
  | some p =>
    obtain ⟨i, v⟩ := p
    by_cases h : (pv.gauge v).1 = 0 <;> simp [parse_value_t.gaugeOf, h]

theorem zfs_get_derive_live (pv : parse_value_t) (kvs : List (String × String)) (name : String)
    (d : Int) :
    zfs_get_derive pv (live kvs) name d =
      Except.ok
        (match rawValue kvs name with
         | none => (ENOENT, d)
         | some raw => if (pv.derive raw).1 ≠ 0 then ((pv.derive raw).1, d)
                       else (0, (pv.derive raw).2)) := by
  unfold zfs_get_derive rawValue
  rw [llist_search_live]
  cases lookupEntry kvs name with
  | none => rfl
  | some p =>
    obtain ⟨i, v⟩ := p
    by_cases h : (pv.derive v).1 = 0 <;> simp [parse_value_t.deriveOf, h]

theorem zfs_get_gauge_failure (pv : parse_value_t) (metrics : Option llist_t) (name : String)
    (g : gauge_t) (r : Int × gauge_t) (h : zfs_get_gauge pv metrics name g = Except.ok r)
    (hne : r.1 ≠ 0) : r.2 = g := by
  unfold zfs_get_gauge at h
  split at h
  · cases h
  · simp only [Except.ok.injEq] at h
    rw [← h]
  · split at h
    · cases h
    · rename_i status v _
      by_cases hs : status = 0
      · simp only [hs, ne_eq, not_true_eq_false, if_false, Except.ok.injEq] at h
        rw [← h] at hne
        exact absurd rfl hne
      · simp only [ne_eq, hs, not_false_eq_true, if_true, Except.ok.injEq] at h
        rw [← h]

theorem zfs_get_derive_failure (pv : parse_value_t) (metrics : Option llist_t) (name : String)
    (d : Int) (r : Int × Int) (h : zfs_get_derive pv metrics name d = Except.ok r)
    (hne : r.1 ≠ 0) : r.2 = d := by
  unfold zfs_get_derive at h
  split at h
  · cases h
  · simp only [Except.ok.injEq] at h
    rw [← h]
  · split at h
    · cases h
    · rename_i status v _
      by_cases hs : status = 0
      · simp only [hs, ne_eq, not_true_eq_false, if_false, Except.ok.injEq] at h
        rw [← h] at hne
        exact absurd rfl hne
      · simp only [ne_eq, hs, not_false_eq_true, if_true, Except.ok.injEq] at h
        rw [← h]

/-- C3, the code at the failing input: `metrics` is NULL, as in every run, and
the rebuild from `["foo 10 bytes", "bar"]` hands `foo` and `bytes` to
`zfs_put_value`, whose `llist_append` receives the NULL pointer.  If that
call returns, the rebuild returns 0 with `metrics` still NULL, so that `foo`
is not found afterwards; if it does not, the rebuild ends in a read through
NULL.  No entry `foo -> "10"` exists in either case. -/
theorem zfs_update_entry_not_stored :
    zfs_update mallocOk (some ["foo 10 bytes", "bar"]) metrics0 = Except.ok (0, none)
      ∧ zfs_update appendFaults (some ["foo 10 bytes", "bar"]) metrics0 =
          Except.error fault.null_pointer
      ∧ (∀ w : Nat → put_env,
          zfs_update w (some ["foo 10 bytes", "bar"]) metrics0 = Except.ok (0, none)
            ∨ zfs_update w (some ["foo 10 bytes", "bar"]) metrics0 =
                Except.error fault.null_pointer)
      ∧ strsplit "foo 10 bytes" 8 = ["foo", "10", "bytes"]
      ∧ zfs_put_value (mallocOk 0) metrics0 "foo" "bytes" = Except.ok (0, none)
      ∧ llist_search none "foo" = Except.ok none
      ∧ zfs_get_gauge parse_decimal none "foo" gauge_t.nan =
          Except.ok (ENOENT, gauge_t.nan) := by
  refine ⟨by decide, by decide, ?_, by decide, by decide, rfl, rfl⟩
  intro w
  rw [metrics0, (zfs_update_null w _).2]
  cases appendDies w ["foo 10 bytes", "bar"] <;> simp

/-- C4, the code at the failing input: `metrics` is NULL, as in every run.  A
rebuild from any snapshot either ends in a read through NULL (when a buffer
with three fields gets memory and `llist_append` does not return) or returns 0
with `metrics` still NULL, and then the lookup of every key returns ENOENT:
after the rebuild from `["foo 4 1", "foo 4 2"]` there is no entry of `foo`. -/
theorem zfs_update_key_not_found (w : Nat → put_env) (lines : List String)
    (pv : parse_value_t) (name : String) (g : gauge_t) (d : Int) :
    zfs_update w (some lines) metrics0 =
        (if appendDies w lines = true then Except.error fault.null_pointer
         else Except.ok (0, none))
      ∧ zfs_get_gauge pv none name g = Except.ok (ENOENT, g)
      ∧ zfs_get_derive pv none name d = Except.ok (ENOENT, d)
      ∧ zfs_update mallocOk (some ["foo 4 1", "foo 4 2"]) metrics0 = Except.ok (0, none)
      ∧ zfs_get_derive parse_decimal none "foo" 0 = Except.ok (ENOENT, 0)
      ∧ zfs_update appendFaults (some ["foo 4 1", "foo 4 2"]) metrics0 =
          Except.error fault.null_pointer :=
  ⟨(zfs_update_null w lines).2, rfl, rfl, by decide, rfl, by decide⟩

/-- C6, as the code has it: the typed lookup returns ENOENT with the output
untouched when the list holds no entry with the key, which includes the list
that does not exist (`metrics` NULL, as in every run), and otherwise the status
of `parse_value` on the raw value of the entry, writing the output only when
that status is 0; whatever the list, a lookup that returns a non-zero status
leaves the output as it was.  The rebuild from `"foo notanumber"` skips the
buffer, which has two fields, and the lookup of `foo` returns ENOENT. -/
theorem zfs_get_typed (pv : parse_value_t) (kvs : List (String × String)) (name : String)
    (g : gauge_t) (d : Int) (w : Nat → put_env) :
    zfs_get_gauge pv none name g = Except.ok (ENOENT, g)
      ∧ zfs_get_derive pv none name d = Except.ok (ENOENT, d)
      ∧ zfs_get_gauge pv (live kvs) name g =
        Except.ok
          (match rawValue kvs name with
           | none => (ENOENT, g)
           | some raw => if (pv.gauge raw).1 ≠ 0 then ((pv.gauge raw).1, g)
                         else (0, (pv.gauge raw).2))
      ∧ zfs_get_derive pv (live kvs) name d =
        Except.ok
          (match rawValue kvs name with
           | none => (ENOENT, d)
           | some raw => if (pv.derive raw).1 ≠ 0 then ((pv.derive raw).1, d)
                         else (0, (pv.derive raw).2))
      ∧ (∀ metrics r, zfs_get_gauge pv metrics name g = Except.ok r → r.1 ≠ 0 → r.2 = g)
      ∧ (∀ metrics r, zfs_get_derive pv metrics name d = Except.ok r → r.1 ≠ 0 → r.2 = d)
      ∧ zfs_update w (some ["foo notanumber"]) metrics0 = Except.ok (0, none)
      ∧ zfs_get_gauge pv none "foo" g = Except.ok (ENOENT, g)
      ∧ zfs_get_gauge pv none "missing" g = Except.ok (ENOENT, g) := by
  refine ⟨rfl, rfl, zfs_get_gauge_live pv kvs name g, zfs_get_derive_live pv kvs name d,
    fun metrics r h hne => zfs_get_gauge_failure pv metrics name g r h hne,
    fun metrics r h hne => zfs_get_derive_failure pv metrics name d r h hne, ?_, rfl, rfl⟩
  rw [metrics0, (zfs_update_null w _).2,
    appendDies_of_no_three w ["foo notanumber"] (by decide)]
  rfl

/-- C6 fails as stated: after a rebuild from the line `"foo notanumber"` the
lookup of `foo` returns ENOENT, the status for a missing key, and not the
status of the parser. -/
theorem zfs_get_gauge_two_field_line_not_found :
    (strsplit "foo notanumber" 8).length = 2
      ∧ zfs_update mallocOk (some ["foo notanumber"]) metrics0 = Except.ok (0, none)
      ∧ zfs_update appendFaults (some ["foo notanumber"]) metrics0 = Except.ok (0, none)
      ∧ zfs_get_gauge parse_decimal none "foo" gauge_t.nan =
          Except.ok (ENOENT, gauge_t.nan)
      ∧ (parse_decimal.gauge "notanumber").1 ≠ ENOENT := by
  decide

/-! ## The kstat handle -/

theorem ukstat_update_open_fail (s : kstat_state) (w : update_env) (hkc : s.kc = false)
    (hop : w.kstat_open = false) :
    ukstat_update s w = { status := -1, state := s, trace := [event.kstat_open, event.error] } := by
  simp [ukstat_update, hkc, hop]

theorem ukstat_update_throttle (s : kstat_state) (w : update_env)
    (hopen : s.kc = true ∨ w.kstat_open = true) (h : w.time_check - s.last_update ≤ 1) :
    ukstat_update s w =
      { status := 0, state := { s with kc := true },
        trace := if s.kc then [] else [event.kstat_open] } := by
  have h1 : (!s.kc && !w.kstat_open) = false := by
    rcases hopen with h | h <;> simp [h]
  unfold ukstat_update
  dsimp only
  rw [h1, if_neg (by simp), if_pos h]

theorem ukstat_update_contact (s : kstat_state) (w : update_env)
    (hopen : s.kc = true ∨ w.kstat_open = true) (h : ¬ (w.time_check - s.last_update ≤ 1)) :
    ukstat_update s w =
      if w.kstat_chain_update < 0 then
        if s.last_kcid = 0 then
          { status := -1, state := { s with kc := true },
            trace := (if s.kc then [] else [event.kstat_open]) ++ [event.kstat_chain_update]
              ++ [event.error] }
        else
          ukstat_update_finish { s with kc := true } w
            ((if s.kc then [] else [event.kstat_open]) ++ [event.kstat_chain_update]
              ++ [event.warning])
      else if w.kstat_chain_update > 0 then
        ukstat_update_finish { s with kc := true, last_kcid := w.kstat_chain_update } w
          ((if s.kc then [] else [event.kstat_open]) ++ [event.kstat_chain_update]
            ++ [event.debug])
      else
        ukstat_update_finish { s with kc := true } w
          ((if s.kc then [] else [event.kstat_open]) ++ [event.kstat_chain_update]) := by
  have h1 : (!s.kc && !w.kstat_open) = false := by
    rcases hopen with h | h <;> simp [h]
  unfold ukstat_update
  dsimp only
  rw [h1, if_neg (by simp), if_neg h]

theorem ukstat_update_finish_state (s : kstat_state) (w : update_env) (tr : List event) :
    (ukstat_update_finish s w tr).state = { s with last_update := w.time_store } := by
  unfold ukstat_update_finish
  cases w.callback <;> rfl

theorem ukstat_update_finish_status (s : kstat_state) (w : update_env) (tr : List event) :
    (ukstat_update_finish s w tr).status = (match w.callback with
      | some r => r
      | none => 0) := by
  unfold ukstat_update_finish
  cases w.callback <;> rfl

theorem ukstat_update_finish_trace (s : kstat_state) (w : update_env) (tr : List event) :
    (ukstat_update_finish s w tr).trace =
      tr ++ (if w.callback.isSome then [event.callback] else []) := by
  unfold ukstat_update_finish
  cases w.callback <;> simp

theorem ukstat_update_throttle_step (s : kstat_state) (w : update_env) (hkc : s.kc = true)
    (h : w.time_check - s.last_update ≤ 1) :
    ukstat_update s w = { status := 0, state := s, trace := [] } := by
  rw [ukstat_update_throttle s w (Or.inl hkc) h]
  obtain ⟨kc, lu, lk⟩ := s
  simp only at hkc
  subst hkc
  rfl

theorem ukstat_update_contact_iff (s : kstat_state) (w : update_env) :
    event.kstat_chain_update ∈ (ukstat_update s w).trace ↔
      (s.kc = true ∨ w.kstat_open = true) ∧ ¬ (w.time_check - s.last_update ≤ 1) := by
  by_cases hopen : s.kc = true ∨ w.kstat_open = true
  · by_cases h : w.time_check - s.last_update ≤ 1
    · rw [ukstat_update_throttle s w hopen h]
      have : event.kstat_chain_update ∉ (if s.kc = true then [] else [event.kstat_open]) := by
        split <;> simp
      simp [this, h]
    · rw [ukstat_update_contact s w hopen h]
      have : event.kstat_chain_update ∈
          (if w.kstat_chain_update < 0 then
            if s.last_kcid = 0 then
              ({ status := -1, state := { s with kc := true },
                 trace := (if s.kc then [] else [event.kstat_open])
                   ++ [event.kstat_chain_update] ++ [event.error] } : update_result)
            else
              ukstat_update_finish { s with kc := true } w
                ((if s.kc then [] else [event.kstat_open]) ++ [event.kstat_chain_update]
                  ++ [event.warning])
          else if w.kstat_chain_update > 0 then
            ukstat_update_finish { s with kc := true, last_kcid := w.kstat_chain_update } w
              ((if s.kc then [] else [event.kstat_open]) ++ [event.kstat_chain_update]
                ++ [event.debug])
          else
            ukstat_update_finish { s with kc := true } w
              ((if s.kc then [] else [event.kstat_open])
                ++ [event.kstat_chain_update])).trace := by
        split
        · split
          · simp
          · simp [ukstat_update_finish_trace]
        · split <;> simp [ukstat_update_finish_trace]
      simp only [this, true_iff]
      exact ⟨hopen, h⟩
  · have hkc : s.kc = false := by
      cases hs : s.kc
      · rfl
      · exact absurd (Or.inl hs) hopen
    have hop : w.kstat_open = false := by
      cases hs : w.kstat_open
      · rfl
      · exact absurd (Or.inr hs) hopen
    rw [ukstat_update_open_fail s w hkc hop]
    simp [hkc, hop]

theorem ukstat_update_contact_state (s : kstat_state) (w : update_env)
    (hc : event.kstat_chain_update ∈ (ukstat_update s w).trace)
    (hnf : ¬ (w.kstat_chain_update < 0 ∧ s.last_kcid = 0)) :
    (ukstat_update s w).state.kc = true ∧ (ukstat_update s w).state.last_update = w.time_store := by
  rw [ukstat_update_contact_iff] at hc
  obtain ⟨hopen, hstale⟩ := hc
  rw [ukstat_update_contact s w hopen hstale]
  by_cases h2 : w.kstat_chain_update < 0
  · have h3 : ¬ s.last_kcid = 0 := fun h => hnf ⟨h2, h⟩
    rw [if_pos h2, if_neg h3, ukstat_update_finish_state]
    exact ⟨rfl, rfl⟩
  · rw [if_neg h2]
    split <;> rw [ukstat_update_finish_state] <;> exact ⟨rfl, rfl⟩

theorem ukstat_update_seq_throttled (s : kstat_state) (ws : List update_env) (t : Int)
    (hkc : s.kc = true) (hlu : t ≤ s.last_update) (hwin : sameWindow t ws) :
    ∀ r ∈ ukstat_update_seq s ws, r = { status := 0, state := s, trace := [] } := by
  induction ws with
  | nil => intro r hr; simp [ukstat_update_seq] at hr
  | cons w ws ih =>
    have hw := hwin w (List.mem_cons_self _ _)
    have hstep : ukstat_update s w = { status := 0, state := s, trace := [] } :=
      ukstat_update_throttle_step s w hkc (by omega)
    have hwin' : sameWindow t ws := fun w' hw' => hwin w' (List.mem_cons_of_mem _ hw')
    intro r hr
    simp only [ukstat_update_seq, hstep, List.mem_cons] at hr
    rcases hr with hr | hr
    · exact hr
    · exact ih hwin' r hr

/-- C7, as the code has it: when the clock readings of a sequence of calls lie
in one one-second window and the first call reaches `kstat_chain_update`
without failing for want of a prior generation, every later call returns 0 at
once: it makes no outside call and leaves every variable, `last_kcid`
included, as the first call left it. -/
theorem ukstat_update_throttled (s : kstat_state) (w : update_env) (ws : List update_env)
    (t : Int) (hwin : sameWindow t (w :: ws))
    (hcontact : event.kstat_chain_update ∈ (ukstat_update s w).trace)
    (hnonfatal : ¬ (w.kstat_chain_update < 0 ∧ s.last_kcid = 0)) :
    ∀ r ∈ (ukstat_update_seq s (w :: ws)).tail,
      r.status = 0 ∧ r.trace = [] ∧ event.kstat_chain_update ∉ r.trace
        ∧ r.state = (ukstat_update s w).state
        ∧ r.state.last_kcid = (ukstat_update s w).state.last_kcid := by
  intro r hr
  simp only [ukstat_update_seq, List.tail_cons] at hr
  obtain ⟨hkc, hlu⟩ := ukstat_update_contact_state s w hcontact hnonfatal
  have hw := hwin w (List.mem_cons_self _ _)
  have hwin' : sameWindow t ws := fun w' hw' => hwin w' (List.mem_cons_of_mem _ hw')
  have h := ukstat_update_seq_throttled (ukstat_update s w).state ws t hkc
    (by rw [hlu]; exact hw.2.1) hwin' r hr
  subst h
  simp

theorem ukstat_update_throttled_witness :
    sameWindow 100 [⟨true, 100, 7, 100, none⟩, ⟨true, 100, 8, 101, some 3⟩,
        ⟨true, 101, -1, 101, none⟩]
      ∧ ukstat_update_seq ⟨true, 0, 0⟩ [⟨true, 100, 7, 100, none⟩, ⟨true, 100, 8, 101, some 3⟩,
          ⟨true, 101, -1, 101, none⟩] =
        [⟨0, ⟨true, 100, 7⟩, [event.kstat_chain_update, event.debug]⟩,
         ⟨0, ⟨true, 100, 7⟩, []⟩, ⟨0, ⟨true, 100, 7⟩, []⟩]
      ∧ ∀ r ∈ (ukstat_update_seq ⟨true, 0, 0⟩ [⟨true, 100, 7, 100, none⟩,
          ⟨true, 100, 8, 101, some 3⟩, ⟨true, 101, -1, 101, none⟩]).tail,
        r.status = 0 ∧ r.trace = [] ∧ event.kstat_chain_update ∉ r.trace
          ∧ r.state = (ukstat_update ⟨true, 0, 0⟩ ⟨true, 100, 7, 100, none⟩).state
          ∧ r.state.last_kcid =
              (ukstat_update ⟨true, 0, 0⟩ ⟨true, 100, 7, 100, none⟩).state.last_kcid :=
  ⟨by decide, by decide,
   ukstat_update_throttled ⟨true, 0, 0⟩ ⟨true, 100, 7, 100, none⟩
     [⟨true, 100, 8, 101, some 3⟩, ⟨true, 101, -1, 101, none⟩] 100 (by decide) (by decide)
     (by decide)⟩

/-- C7 fails as stated: with no prior generation and a failing chain update,
two calls in the same second both reach `kstat_chain_update` and both return
-1. -/
theorem ukstat_update_not_throttled_after_fatal :
    sameWindow 100 [⟨true, 100, -1, 100, none⟩, ⟨true, 100, -1, 100, none⟩]
      ∧ ukstat_update_seq ⟨true, 0, 0⟩
          [⟨true, 100, -1, 100, none⟩, ⟨true, 100, -1, 100, none⟩] =
        [⟨-1, ⟨true, 0, 0⟩, [event.kstat_chain_update, event.error]⟩,
         ⟨-1, ⟨true, 0, 0⟩, [event.kstat_chain_update, event.error]⟩]
      ∧ ¬ (∀ r ∈ (ukstat_update_seq ⟨true, 0, 0⟩
            [⟨true, 100, -1, 100, none⟩, ⟨true, 100, -1, 100, none⟩]).tail,
          r.status = 0 ∧ event.kstat_chain_update ∉ r.trace) := by
  decide

/-- C8: when a call reaches `kstat_chain_update` and the update fails (negative
id), the refresh fails (status -1 with an error reported) exactly when
`last_kcid` is 0; it then returns before the callback.  With a prior
generation the call goes on with `last_kcid` unchanged behind a warning,
stores the clock reading and returns the status of the callback, which is 0
when none is supplied; so without a callback the status is -1 exactly when
`last_kcid` is 0. -/
theorem ukstat_update_chain_failure (s : kstat_state) (w : update_env)
    (hopen : s.kc = true ∨ w.kstat_open = true)
    (hstale : ¬ (w.time_check - s.last_update ≤ 1)) (hfail : w.kstat_chain_update < 0) :
    (((ukstat_update s w).status = -1 ∧ event.error ∈ (ukstat_update s w).trace) ↔
        s.last_kcid = 0)
      ∧ (s.last_kcid = 0 →
          (ukstat_update s w).status = -1 ∧ event.callback ∉ (ukstat_update s w).trace
            ∧ (ukstat_update s w).state.last_kcid = s.last_kcid)
      ∧ (s.last_kcid ≠ 0 →
          (ukstat_update s w).state.last_kcid = s.last_kcid
            ∧ (ukstat_update s w).state.last_update = w.time_store
            ∧ event.warning ∈ (ukstat_update s w).trace
            ∧ event.error ∉ (ukstat_update s w).trace
            ∧ (event.callback ∈ (ukstat_update s w).trace ↔ w.callback.isSome = true)
            ∧ (ukstat_update s w).status = (match w.callback with
                | some r => r
                | none => 0))
      ∧ (w.callback = none → ((ukstat_update s w).status = -1 ↔ s.last_kcid = 0)) := by
  rw [ukstat_update_contact s w hopen hstale, if_pos hfail]
  have hopen_tr : ∀ e : event, e ≠ event.kstat_open →
      e ∉ (if s.kc = true then [] else [event.kstat_open]) := by
    intro e he
    split <;> simp [he]
  by_cases h0 : s.last_kcid = 0
  · rw [if_pos h0]
    refine ⟨?_, ?_, ?_, ?_⟩
    · simp [h0]
    · intro _
      have := hopen_tr event.callback (by decide)
      simp [this]
    · intro h; exact absurd h0 h
    · intro _; simp [h0]
  · rw [if_neg h0]
    have herr := hopen_tr event.error (by decide)
    have hcb := hopen_tr event.callback (by decide)
    refine ⟨?_, ?_, ?_, ?_⟩
    · simp only [ukstat_update_finish_trace, h0, iff_false, not_and]
      intro _
      cases w.callback <;> simp [herr]
    · intro h; exact absurd h h0
    · intro _
      rw [ukstat_update_finish_state, ukstat_update_finish_status, ukstat_update_finish_trace]
      refine ⟨rfl, rfl, by simp, ?_, ?_, rfl⟩
      · cases w.callback <;> simp [herr]
      · cases w.callback <;> simp [hcb]
    · intro hnone
      rw [ukstat_update_finish_status, hnone]
      simp [h0]

theorem ukstat_update_chain_failure_witness :
    ((⟨true, 0, 5⟩ : kstat_state).kc = true ∨ (⟨true, 100, -1, 100, none⟩ : update_env).kstat_open = true)
      ∧ ukstat_update ⟨true, 0, 5⟩ ⟨true, 100, -1, 100, none⟩ =
          ⟨0, ⟨true, 100, 5⟩, [event.kstat_chain_update, event.warning]⟩
      ∧ ((ukstat_update ⟨true, 0, 5⟩ ⟨true, 100, -1, 100, none⟩).status = -1 ↔
          (⟨true, 0, 5⟩ : kstat_state).last_kcid = 0) :=
  ⟨by decide, by decide,
   (ukstat_update_chain_failure ⟨true, 0, 5⟩ ⟨true, 100, -1, 100, none⟩ (by decide) (by decide)
      (by decide)).2.2.2 rfl⟩

/-- C9, as the code has it: a call that reaches `kstat_chain_update` leaves
`last_update` at the clock reading taken behind the update unless the update
fails with no prior generation; in that case the call returns -1 and
`last_update` keeps its old value. -/
theorem ukstat_update_last_update (s : kstat_state) (w : update_env)
    (hcontact : event.kstat_chain_update ∈ (ukstat_update s w).trace) :
    (¬ (w.kstat_chain_update < 0 ∧ s.last_kcid = 0) →
        (ukstat_update s w).state.last_update = w.time_store)
      ∧ ((w.kstat_chain_update < 0 ∧ s.last_kcid = 0) →
          (ukstat_update s w).status = -1
            ∧ (ukstat_update s w).state.last_update = s.last_update) := by
  refine ⟨fun hnf => (ukstat_update_contact_state s w hcontact hnf).2, ?_⟩
  rintro ⟨hfail, h0⟩
  rw [ukstat_update_contact_iff] at hcontact
  rw [ukstat_update_contact s w hcontact.1 hcontact.2, if_pos hfail, if_pos h0]
  exact ⟨rfl, rfl⟩

theorem ukstat_update_last_update_witness :
    event.kstat_chain_update ∈ (ukstat_update ⟨true, 0, 5⟩ ⟨true, 100, -1, 103, none⟩).trace
      ∧ (ukstat_update ⟨true, 0, 5⟩ ⟨true, 100, -1, 103, none⟩).state.last_update = 103 :=
  ⟨by decide,
   (ukstat_update_last_update ⟨true, 0, 5⟩ ⟨true, 100, -1, 103, none⟩ (by decide)).1
     (by decide)⟩

/-- C9 fails as stated: when the chain update fails with no prior generation
the call returns with `last_update` still at its old value 0, not at the
current time 100. -/
theorem ukstat_update_fatal_keeps_last_update :
    event.kstat_chain_update ∈ (ukstat_update ⟨true, 0, 0⟩ ⟨true, 100, -1, 100, none⟩).trace
      ∧ (ukstat_update ⟨true, 0, 0⟩ ⟨true, 100, -1, 100, none⟩).status = -1
      ∧ (ukstat_update ⟨true, 0, 0⟩ ⟨true, 100, -1, 100, none⟩).state.last_update = 0
      ∧ (ukstat_update ⟨true, 0, 0⟩ ⟨true, 100, -1, 100, none⟩).state.last_update ≠ 100 := by
  decide

/-- C10, the code at the failing input: with a prior generation 5 the callback
is invoked although `kstat_chain_update` reports no change (id 0), and also
when it fails (id -1); `last_kcid` stays 5 in both calls. -/
theorem ukstat_update_callback_without_change :
    ukstat_update ⟨true, 0, 5⟩ ⟨true, 100, 0, 100, some 0⟩ =
        ⟨0, ⟨true, 100, 5⟩, [event.kstat_chain_update, event.callback]⟩
      ∧ ukstat_update ⟨true, 0, 5⟩ ⟨true, 100, -1, 100, some 0⟩ =
        ⟨0, ⟨true, 100, 5⟩, [event.kstat_chain_update, event.warning, event.callback]⟩ := by
  decide

/-- C11: a call made while the connection is unopened and in which
`kstat_open` fails returns -1 behind an error report, makes no chain update
and no callback, and leaves every variable as it was, the connection
unopened; the next call therefore calls `kstat_open` again. -/
theorem ukstat_update_open_failure (s : kstat_state) (w : update_env) (hkc : s.kc = false)
    (hop : w.kstat_open = false) :
    (ukstat_update s w).status = -1
      ∧ (ukstat_update s w).trace = [event.kstat_open, event.error]
      ∧ event.kstat_chain_update ∉ (ukstat_update s w).trace
      ∧ event.callback ∉ (ukstat_update s w).trace
      ∧ (ukstat_update s w).state = s
      ∧ (ukstat_update s w).state.last_update = s.last_update
      ∧ (ukstat_update s w).state.last_kcid = s.last_kcid
      ∧ (ukstat_update s w).state.kc = false
      ∧ ∀ w' : update_env,
          (ukstat_update (ukstat_update s w).state w').trace.head? = some event.kstat_open := by
  rw [ukstat_update_open_fail s w hkc hop]
  refine ⟨rfl, rfl, by simp, by simp, rfl, rfl, rfl, hkc, ?_⟩
  intro w'
  by_cases hop' : w'.kstat_open = true
  · by_cases ht : w'.time_check - s.last_update ≤ 1
    · rw [ukstat_update_throttle s w' (Or.inr hop') ht]
      simp [hkc]
    · rw [ukstat_update_contact s w' (Or.inr hop') ht]
      split
      · split
        · simp [hkc]
        · simp [ukstat_update_finish_trace, hkc]
      · split <;> simp [ukstat_update_finish_trace, hkc]
  · have hop'' : w'.kstat_open = false := by
      cases h : w'.kstat_open
      · rfl
      · exact absurd h hop'
    rw [ukstat_update_open_fail s w' hkc hop'']
    rfl

theorem ukstat_update_open_failure_witness :
    (⟨false, 0, 0⟩ : kstat_state).kc = false
      ∧ ukstat_update ⟨false, 0, 0⟩ ⟨false, 100, 4, 100, some 0⟩ =
          ⟨-1, ⟨false, 0, 0⟩, [event.kstat_open, event.error]⟩
      ∧ (ukstat_update ⟨false, 0, 0⟩ ⟨false, 100, 4, 100, some 0⟩).state = ⟨false, 0, 0⟩ :=
  ⟨rfl, by decide,
   (ukstat_update_open_failure ⟨false, 0, 0⟩ ⟨false, 100, 4, 100, some 0⟩ rfl rfl).2.2.2.2.1⟩

/-- C18: `ukstat_foreach` calls the callback on an initial part of the chain, in
chain order, each call on the state the previous one left.  It returns 0
exactly when every call returns 0, and then the callback has been called on
every entry once; otherwise the calls made are those up to and including the
first one with a non-zero status, which is the status returned. -/
theorem ukstat_foreach_calls {σ : Type} (callback : σ → kstat_t → Int × σ)
    (chain : List kstat_t) (user_data : σ) :
    (ukstat_foreach callback chain user_data).2.2 <+: chain
      ∧ ((ukstat_foreach callback chain user_data).1 = 0 ↔
          ∀ st ∈ callbackStatuses callback chain user_data, st = 0)
      ∧ ((ukstat_foreach callback chain user_data).1 = 0 →
          (ukstat_foreach callback chain user_data).2.2 = chain)
      ∧ ((ukstat_foreach callback chain user_data).1 ≠ 0 →
          ∃ pre ks, (ukstat_foreach callback chain user_data).2.2 = pre ++ [ks]
            ∧ callbackStatuses callback (pre ++ [ks]) user_data =
                List.replicate pre.length 0 ++ [(ukstat_foreach callback chain user_data).1]) := by
  induction chain generalizing user_data with
  | nil =>
    refine ⟨by simp [ukstat_foreach], by simp [ukstat_foreach, callbackStatuses],
      by simp [ukstat_foreach], by simp [ukstat_foreach]⟩
  | cons ks rest ih =>
    by_cases h : (callback user_data ks).1 = 0
    · obtain ⟨h1, h2, h3, h4⟩ := ih (callback user_data ks).2
      have e : ukstat_foreach callback (ks :: rest) user_data =
          ((ukstat_foreach callback rest (callback user_data ks).2).1,
           (ukstat_foreach callback rest (callback user_data ks).2).2.1,
           ks :: (ukstat_foreach callback rest (callback user_data ks).2).2.2) := by
        simp [ukstat_foreach, h]
      rw [e]
      refine ⟨?_, ?_, ?_, ?_⟩
      · simpa using (List.prefix_cons_inj ks).mpr h1
      · simp only [callbackStatuses, List.mem_cons, forall_eq_or_imp, h, true_and]
        exact h2
      · intro h0
        simp only
        rw [h3 h0]
      · intro hne
        obtain ⟨pre, k, hv, hs⟩ := h4 hne
        refine ⟨ks :: pre, k, ?_, ?_⟩
        · simp only [hv, List.cons_append]
        · have hs' : callbackStatuses callback (ks :: (pre ++ [k])) user_data =
              0 :: (List.replicate pre.length 0 ++
                [(ukstat_foreach callback rest (callback user_data ks).2).1]) := by
            rw [← hs]
            simp only [callbackStatuses, h]
          simpa [List.replicate_succ] using hs'
    · have e : ukstat_foreach callback (ks :: rest) user_data =
          ((callback user_data ks).1, (callback user_data ks).2, [ks]) := by
        simp [ukstat_foreach, h]
      rw [e]
      refine ⟨?_, ?_, ?_, ?_⟩
      · simp
      · simp only [h, callbackStatuses, List.mem_cons, forall_eq_or_imp, false_and]
      · intro h0; exact absurd h0 h
      · intro _
        exact ⟨[], ks, rfl, by simp [callbackStatuses]⟩

/-- C19, as the code has it: after a call `last_kcid` is either what it was or,
when the call reached `kstat_chain_update` and got a positive id, that id;
it does not decrease when a positive id of the kernel is never below the
stored one, and it changes only on a positive id other than the stored one. -/
theorem ukstat_update_last_kcid (s : kstat_state) (w : update_env) :
    ((ukstat_update s w).state.last_kcid = s.last_kcid
        ∨ (event.kstat_chain_update ∈ (ukstat_update s w).trace ∧ 0 < w.kstat_chain_update
            ∧ (ukstat_update s w).state.last_kcid = w.kstat_chain_update))
      ∧ ((0 < w.kstat_chain_update → s.last_kcid ≤ w.kstat_chain_update) →
          s.last_kcid ≤ (ukstat_update s w).state.last_kcid)
      ∧ ((ukstat_update s w).state.last_kcid ≠ s.last_kcid →
          event.kstat_chain_update ∈ (ukstat_update s w).trace ∧ 0 < w.kstat_chain_update
            ∧ w.kstat_chain_update ≠ s.last_kcid) := by
  have key : (ukstat_update s w).state.last_kcid = s.last_kcid
      ∨ (event.kstat_chain_update ∈ (ukstat_update s w).trace ∧ 0 < w.kstat_chain_update
          ∧ (ukstat_update s w).state.last_kcid = w.kstat_chain_update) := by
    by_cases hopen : s.kc = true ∨ w.kstat_open = true
    · by_cases ht : w.time_check - s.last_update ≤ 1
      · left; rw [ukstat_update_throttle s w hopen ht]
      · have hc : event.kstat_chain_update ∈ (ukstat_update s w).trace :=
          (ukstat_update_contact_iff s w).mpr ⟨hopen, ht⟩
        rw [ukstat_update_contact s w hopen ht] at hc ⊢
        by_cases h2 : w.kstat_chain_update < 0
        · left
          rw [if_pos h2]
          split
          · rfl
          · rw [ukstat_update_finish_state]
        · rw [if_neg h2] at hc ⊢
          by_cases h3 : w.kstat_chain_update > 0
          · right
            rw [if_pos h3] at hc ⊢
            exact ⟨hc, h3, by rw [ukstat_update_finish_state]⟩
          · left
            rw [if_neg h3, ukstat_update_finish_state]
    · left
      have hkc : s.kc = false := by
        cases hs : s.kc
        · rfl
        · exact absurd (Or.inl hs) hopen
      have hop : w.kstat_open = false := by
        cases hs : w.kstat_open
        · rfl
        · exact absurd (Or.inr hs) hopen
      rw [ukstat_update_open_fail s w hkc hop]
  refine ⟨key, ?_, ?_⟩
  · intro hmono
    rcases key with h | ⟨_, hpos, h⟩
    · rw [h]
    · rw [h]; exact hmono hpos
  · intro hne
    rcases key with h | ⟨hc, hpos, h⟩
    · exact absurd h hne
    · exact ⟨hc, hpos, fun heq => hne (h.trans heq)⟩

theorem ukstat_update_last_kcid_witness :
    (ukstat_update ⟨true, 0, 5⟩ ⟨true, 100, 7, 100, none⟩).state.last_kcid = 7
      ∧ (5 : Int) ≤ (ukstat_update ⟨true, 0, 5⟩ ⟨true, 100, 7, 100, none⟩).state.last_kcid :=
  ⟨by decide,
   (ukstat_update_last_kcid ⟨true, 0, 5⟩ ⟨true, 100, 7, 100, none⟩).2.1 (by decide)⟩

/-- C19 fails as stated: with generation 5 stored, a kernel response 3 leaves
`last_kcid` at 3. -/
theorem ukstat_update_last_kcid_decreases :
    (ukstat_update ⟨true, 0, 5⟩ ⟨true, 100, 3, 100, none⟩).state.last_kcid = 3
      ∧ ¬ ((⟨true, 0, 5⟩ : kstat_state).last_kcid ≤
          (ukstat_update ⟨true, 0, 5⟩ ⟨true, 100, 3, 100, none⟩).state.last_kcid) := by
  decide

/-! ## Typed extraction from a kstat -/

theorem ukstat_derive_output (ks : Option kstat_t) (name : String) (v : Option Int) :
    (ukstat_derive ks name v).2 = v := by
  unfold ukstat_derive
  cases ks with
  | none => rfl
  | some k =>
    dsimp only
    split
    · rfl
    · cases kstat_data_lookup k name with
      | none => rfl
      | some n =>
        obtain ⟨nm, val⟩ := n
        cases val <;> rfl

theorem ukstat_gauge_output (ks : Option kstat_t) (name : String) (v : Option gauge_t)
    (r : Int × Option gauge_t) (h : ukstat_gauge ks name v = Except.ok r) : r.2 = v := by
  unfold ukstat_gauge at h
  cases ks with
  | none => simp only [Except.ok.injEq] at h; rw [← h]
  | some k =>
    dsimp only at h
    split at h
    · simp only [Except.ok.injEq] at h; rw [← h]
    · cases hl : kstat_data_lookup k name with
      | none => rw [hl] at h; simp only [Except.ok.injEq] at h; rw [← h]
      | some n =>
        rw [hl] at h
        dsimp only at h
        cases hv : n.value <;> rw [hv] at h <;> dsimp only at h
        case other d => simp only [Except.ok.injEq] at h; rw [← h]
        all_goals
          (rename_i z
           cases hc : (gauge_t.ofInt z).toInt32 with
           | error f => rw [hc] at h; cases h
           | ok t =>
             rw [hc] at h
             simp only [Except.map, Except.ok.injEq] at h
             rw [← h])

/-- C12, the code at the failing input: for a named kstat whose record `x` is an
int32 with value 5, `ukstat_derive` returns 5 as its status and leaves `*v`
at its old content 0; for the value 0 it returns 0 and still leaves `*v`
as it was.  It never writes `*v`, whatever the kstat. -/
theorem ukstat_derive_returns_value :
    ukstat_derive (some (kstat_with "x" (kstat_value.int32 5))) "x" (some 0) = (5, some 0)
      ∧ ukstat_derive (some (kstat_with "x" (kstat_value.int32 0))) "x" (some 7) = (0, some 7)
      ∧ ukstat_derive (some (kstat_with "x" (kstat_value.uint64 (2 ^ 32 + 3)))) "x" (some 0) =
          (3, some 0)
      ∧ ∀ (ks : Option kstat_t) (name : String) (v : Option Int),
          (ukstat_derive ks name v).2 = v := by
  refine ⟨by decide, by decide, by decide, ukstat_derive_output⟩

/-- C13, the code at the failing input: for a named kstat whose record `x` is an
int32 with value 5, `ukstat_gauge` returns 5 as its status, for the value 6
it returns 6, and both calls leave `*v` at its old content; for the value 0
it returns 0 and still leaves `*v` as it was.  It never writes `*v`. -/
theorem ukstat_gauge_returns_value :
    ukstat_gauge (some (kstat_with "x" (kstat_value.int32 5))) "x" (some gauge_t.nan) =
        Except.ok (5, some gauge_t.nan)
      ∧ ukstat_gauge (some (kstat_with "x" (kstat_value.int32 6))) "x" (some gauge_t.nan) =
        Except.ok (6, some gauge_t.nan)
      ∧ ukstat_gauge (some (kstat_with "x" (kstat_value.uint64 0))) "x" (some gauge_t.nan) =
        Except.ok (0, some gauge_t.nan)
      ∧ ∀ (ks : Option kstat_t) (name : String) (v : Option gauge_t) (r : Int × Option gauge_t),
          ukstat_gauge ks name v = Except.ok r → r.2 = v := by
  refine ⟨by decide!, by decide!, by decide!, ukstat_gauge_output⟩

/-- C14: `ukstat_gauge` and `ukstat_derive` return EINVAL for a NULL handle and
for a handle that is not of the named kind, and ENOENT for a named handle
without a record of the given name (`v` pointing to a location); both
statuses are non-zero and `*v` keeps its content. -/
theorem ukstat_typed_errors (name : String) (g : Option gauge_t) (d : Option Int) :
    ukstat_gauge none name g = Except.ok (EINVAL, g)
      ∧ ukstat_derive none name d = (EINVAL, d)
      ∧ (∀ ks : kstat_t, ks.ks_type ≠ KSTAT_TYPE_NAMED →
          ukstat_gauge (some ks) name g = Except.ok (EINVAL, g)
            ∧ ukstat_derive (some ks) name d = (EINVAL, d))
      ∧ (∀ (ks : kstat_t) (g0 : gauge_t) (d0 : Int), ks.ks_type = KSTAT_TYPE_NAMED →
          kstat_data_lookup ks name = none →
          ukstat_gauge (some ks) name (some g0) = Except.ok (ENOENT, some g0)
            ∧ ukstat_derive (some ks) name (some d0) = (ENOENT, some d0))
      ∧ EINVAL ≠ 0 ∧ ENOENT ≠ 0
      ∧ ukstat_gauge (some (kstat_with "x" (kstat_value.int32 5))) "y" (some gauge_t.nan) =
          Except.ok (ENOENT, some gauge_t.nan)
      ∧ ukstat_derive (some { kstat_with "x" (kstat_value.int32 5) with ks_type := 0 }) "x"
          (some 0) = (EINVAL, some 0) := by
  refine ⟨rfl, rfl, ?_, ?_, by decide, by decide, by decide, by decide⟩
  · intro ks hk
    simp [ukstat_gauge, ukstat_derive, hk]
  · intro ks g0 d0 hk hl
    simp [ukstat_gauge, ukstat_derive, hk, hl]

/-! ## The backends before a refresh -/

/-- C20, as the code has it: no backend has a result of its own for a lookup
without a refresh.  On the counter file backend a lookup with the list as it is
before any refresh (`metrics` NULL), or after a first refresh that failed to
open the file, returns ENOENT; on the kstat backend a lookup with the handle
still NULL returns EINVAL; the lookups of the sysctl backend return the status
of `sysctlbyname` and use no state.  The output is untouched in all of them. -/
theorem zfs_get_before_refresh (pv : parse_value_t) (env : plugin_env) (sys : freebsd_env)
    (name : String) (g : gauge_t) (d : Int) :
    zfs_get_gauge pv metrics0 name g = Except.ok (ENOENT, g)
      ∧ zfs_get_derive pv metrics0 name d = Except.ok (ENOENT, d)
      ∧ zfs_update mallocOk none metrics0 = Except.ok (-1, metrics0)
      ∧ zfs_get_gauge_solaris env none name g = Except.ok (EINVAL, g)
      ∧ zfs_get_derive_solaris env none name d = (EINVAL, d)
      ∧ ((sys.sysctlbyname (sys.ssnprintf 256 (ZFS_ARCSTATS_PREFIX ++ name))).1 ≠ 0 →
          zfs_get_derive_freebsd sys name d =
              ((sys.sysctlbyname (sys.ssnprintf 256 (ZFS_ARCSTATS_PREFIX ++ name))).1, d)
            ∧ zfs_get_gauge_freebsd sys name g =
              ((sys.sysctlbyname (sys.ssnprintf 256 (ZFS_ARCSTATS_PREFIX ++ name))).1, g))
      ∧ ((sys.sysctlbyname (sys.ssnprintf 256 (ZFS_ARCSTATS_PREFIX ++ name))).1 = 0 →
          (zfs_get_derive_freebsd sys name d).1 = 0 ∧ (zfs_get_gauge_freebsd sys name g).1 = 0) := by
  refine ⟨rfl, rfl, rfl, rfl, rfl, ?_, ?_⟩
  · intro h
    simp [zfs_get_derive_freebsd, zfs_get_gauge_freebsd, h]
  · intro h
    simp [zfs_get_derive_freebsd, zfs_get_gauge_freebsd, h]

/-- C20 fails as stated: on the counter file backend a lookup before any
refresh returns ENOENT, exactly what the lookup of a missing key returns
after a successful refresh, be it on the list of the run (`metrics` NULL) or
on a list that holds another key. -/
theorem zfs_get_gauge_unrefreshed_is_not_found :
    zfs_get_gauge parse_decimal metrics0 "size" gauge_t.nan = Except.ok (ENOENT, gauge_t.nan)
      ∧ zfs_update mallocOk (some ["hits 4 1"]) metrics0 = Except.ok (0, none)
      ∧ zfs_get_gauge parse_decimal none "size" gauge_t.nan = Except.ok (ENOENT, gauge_t.nan)
      ∧ zfs_get_gauge parse_decimal (live [("hits", "1")]) "size" gauge_t.nan =
          Except.ok (ENOENT, gauge_t.nan)
      ∧ zfs_get_gauge parse_decimal metrics0 "size" gauge_t.nan =
          zfs_get_gauge parse_decimal (live [("hits", "1")]) "size" gauge_t.nan := by
  decide

/-! ## The read cycle of zfs_arc -/

theorem zfs_get_gauge_sound (pv : parse_value_t) (m : Option llist_t) (name : String)
    (g : gauge_t) (hm : m = none ∨ ∃ kvs, m = live kvs) :
    ∃ r, zfs_get_gauge pv m name g = Except.ok r := by
  rcases hm with rfl | ⟨kvs, rfl⟩
  · exact ⟨_, rfl⟩
  · exact ⟨_, zfs_get_gauge_live pv kvs name g⟩

theorem zfs_get_derive_sound (pv : parse_value_t) (m : Option llist_t) (name : String)
    (d : Int) (hm : m = none ∨ ∃ kvs, m = live kvs) :
    ∃ r, zfs_get_derive pv m name d = Except.ok r := by
  rcases hm with rfl | ⟨kvs, rfl⟩
  · exact ⟨_, rfl⟩
  · exact ⟨_, zfs_get_derive_live pv kvs name d⟩

theorem za_read_gauge_sound (pv : parse_value_t) (env : plugin_env) (m : Option llist_t)
    (name type type_instance : String) (hm : m = none ∨ ∃ kvs, m = live kvs) :
    ∃ r, za_read_gauge pv env m name type type_instance = Except.ok r := by
  obtain ⟨r, hr⟩ := zfs_get_gauge_sound pv m name (gauge_t.fin 0) hm
  unfold za_read_gauge
  rw [hr]
  dsimp only
  split <;> exact ⟨_, rfl⟩

theorem za_read_derive_sound (pv : parse_value_t) (env : plugin_env) (m : Option llist_t)
    (name type type_instance : String) (hm : m = none ∨ ∃ kvs, m = live kvs) :
    ∃ r, za_read_derive pv env m name type type_instance = Except.ok r := by
  obtain ⟨r, hr⟩ := zfs_get_derive_sound pv m name 0 hm
  unfold za_read_derive
  rw [hr]
  dsimp only
  split <;> exact ⟨_, rfl⟩

theorem za_read_derive_all_sound (pv : parse_value_t) (env : plugin_env) (m : Option llist_t)
    (l : List (String × String × String)) (hm : m = none ∨ ∃ kvs, m = live kvs) :
    ∃ r, za_read_derive_all pv env m l = Except.ok r := by
  induction l with
  | nil => exact ⟨[], rfl⟩
  | cons x rest ih =>
    obtain ⟨name, type, type_instance⟩ := x
    obtain ⟨r1, h1⟩ := za_read_derive_sound pv env m name type type_instance hm
    obtain ⟨r2, h2⟩ := ih
    obtain ⟨st, vls⟩ := r1
    exact ⟨vls ++ r2, by simp only [za_read_derive_all, h1, h2]⟩

theorem za_read_sizes_sound (pv : parse_value_t) (env : plugin_env) (m : Option llist_t)
    (b : Bool) (hm : m = none ∨ ∃ kvs, m = live kvs) :
    ∃ r, za_read_sizes pv env m b = Except.ok r := by
  obtain ⟨r1, h1⟩ := za_read_gauge_sound pv env m "size" "cache_size" "arc" hm
  obtain ⟨r2, h2⟩ := za_read_gauge_sound pv env m "l2_size" "cache_size" "L2" hm
  obtain ⟨s1, v1⟩ := r1
  obtain ⟨s2, v2⟩ := r2
  cases b
  · exact ⟨(false, v1), by simp only [za_read_sizes, h1, Bool.false_eq_true, if_false]⟩
  · exact ⟨(if s2 ≠ 0 then false else true, v1 ++ v2),
      by simp only [za_read_sizes, h1, h2, if_true]⟩

theorem za_read_ratios_sound (pv : parse_value_t) (env : plugin_env) (m : Option llist_t)
    (locals : za_locals) (hm : m = none ∨ ∃ kvs, m = live kvs) :
    ∃ r, za_read_ratios pv env m locals = Except.ok r := by
  obtain ⟨r1, h1⟩ := zfs_get_gauge_sound pv m "hits" locals.arc_hits hm
  obtain ⟨r2, h2⟩ := zfs_get_gauge_sound pv m "misses" locals.arc_misses hm
  obtain ⟨r3, h3⟩ := zfs_get_gauge_sound pv m "l2_hits" locals.l2_hits hm
  obtain ⟨r4, h4⟩ := zfs_get_gauge_sound pv m "l2_misses" locals.l2_misses hm
  unfold za_read_ratios
  rw [h1, h2, h3, h4]
  exact ⟨_, rfl⟩

theorem za_read_io_sound (pv : parse_value_t) (env : plugin_env) (m : Option llist_t)
    (locals : za_locals) (hm : m = none ∨ ∃ kvs, m = live kvs) :
    ∃ r, za_read_io pv env m locals = Except.ok r := by
  obtain ⟨r1, h1⟩ := zfs_get_derive_sound pv m "l2_read_bytes" locals.l2_io_0 hm
  obtain ⟨r2, h2⟩ := zfs_get_derive_sound pv m "l2_write_bytes" locals.l2_io_1 hm
  unfold za_read_io
  rw [h1, h2]
  exact ⟨_, rfl⟩

theorem za_read_of_update_ok (pv : parse_value_t) (env : plugin_env) (w : Nat → put_env)
    (file : Option (List String)) (locals : za_locals) (st : za_state) (m : Option llist_t)
    (hm : m = none ∨ ∃ kvs, m = live kvs)
    (hup : zfs_update w file st.metrics = Except.ok (0, m)) :
    ∃ r, za_read pv env w file locals st = Except.ok r ∧ r.status = 0
      ∧ r.state.metrics = m := by
  obtain ⟨r1, h1⟩ := za_read_sizes_sound pv env m st.l2_size_avail hm
  obtain ⟨r2, h2⟩ := za_read_derive_all_sound pv env m za_read_derives hm
  obtain ⟨r3, h3⟩ := za_read_ratios_sound pv env m locals hm
  obtain ⟨r4, h4⟩ := za_read_io_sound pv env m locals hm
  obtain ⟨b, v1⟩ := r1
  refine ⟨{ status := 0, state := { metrics := m, l2_size_avail := b },
            dispatched := v1 ++ r2 ++ r3 ++ r4 }, ?_, rfl, rfl⟩
  unfold za_read
  rw [hup]
  simp only [ne_eq, not_true_eq_false, if_false, h1, h2, h3, h4]

theorem za_read_status_of_ok (pv : parse_value_t) (env : plugin_env) (w : Nat → put_env)
    (file : Option (List String)) (locals : za_locals) (st : za_state) (status : Int)
    (metrics : Option llist_t) (r : za_result)
    (hup : zfs_update w file st.metrics = Except.ok (status, metrics))
    (h : za_read pv env w file locals st = Except.ok r) :
    r.status = status ∧ (status ≠ 0 → r.dispatched = []) := by
  unfold za_read at h
  rw [hup] at h
  dsimp only at h
  by_cases hs : status = 0
  · subst hs
    simp only [ne_eq, not_true_eq_false, if_false] at h
    split at h
    · cases h
    · split at h
      · cases h
      · split at h
        · cases h
        · split at h
          · cases h
          · simp only [Except.ok.injEq] at h
            subst h
            exact ⟨rfl, fun hne => absurd rfl hne⟩
  · simp only [ne_eq, hs, not_false_eq_true, if_true, Except.ok.injEq] at h
    subst h
    exact ⟨rfl, fun _ => rfl⟩

theorem za_read_derive_all_null (pv : parse_value_t) (env : plugin_env)
    (l : List (String × String × String)) :
    za_read_derive_all pv env none l = Except.ok [] := by
  induction l with
  | nil => rfl
  | cons x rest ih =>
    obtain ⟨name, type, type_instance⟩ := x
    have h1 : za_read_derive pv env none name type type_instance = Except.ok (ENOENT, []) := rfl
    simp only [za_read_derive_all, h1, ih, List.append_nil]

theorem za_read_sizes_null (pv : parse_value_t) (env : plugin_env) (b : Bool) :
    za_read_sizes pv env none b = Except.ok (false, []) := by
  cases b <;> rfl

theorem za_read_null (pv : parse_value_t) (env : plugin_env) (w : Nat → put_env)
    (locals : za_locals) (b : Bool) (lines : List String) :
    za_read pv env w none locals ⟨none, b⟩ =
        Except.ok { status := -1, state := ⟨none, b⟩, dispatched := [] }
      ∧ za_read pv env w (some lines) locals ⟨none, b⟩ =
        (if appendDies w lines = true then Except.error fault.null_pointer
         else Except.ok
          { status := 0
            state := ⟨none, false⟩
            dispatched :=
              [za_submit_ratio env "arc" locals.arc_hits locals.arc_misses,
               za_submit_ratio env "L2" locals.l2_hits locals.l2_misses,
               za_submit env "io_octets" "L2"
                 [value_t.derive locals.l2_io_0, value_t.derive locals.l2_io_1] 2] }) := by
  refine ⟨rfl, ?_⟩
  unfold za_read
  rw [(zfs_update_null w lines).2]
  cases appendDies w lines
  · simp only [Bool.false_eq_true, if_false, ne_eq, not_true_eq_false, za_read_sizes_null,
      za_read_derive_all_null]
    rfl
  · rfl

/-- C16: when `zfs_update` returns a non-zero status `za_read` returns that
status and dispatches nothing; when it returns 0, leaving `metrics` NULL or a
list of allocated entries, `za_read` returns 0; and whenever `za_read`
returns at all, its status is that of `zfs_update`.  With `metrics` NULL, as in
every run, `za_read` returns -1 when the file cannot be opened and 0 when it
can, unless the rebuild ends in `llist_append`. -/
theorem za_read_status (pv : parse_value_t) (env : plugin_env) (w : Nat → put_env)
    (file : Option (List String)) (locals : za_locals) (st : za_state) (status : Int)
    (metrics : Option llist_t)
    (hup : zfs_update w file st.metrics = Except.ok (status, metrics)) :
    (status ≠ 0 →
        za_read pv env w file locals st =
          Except.ok { status := status, state := { st with metrics := metrics },
                      dispatched := [] })
      ∧ (status = 0 → (metrics = none ∨ ∃ kvs, metrics = live kvs) →
          ∃ r, za_read pv env w file locals st = Except.ok r ∧ r.status = 0)
      ∧ (∀ r, za_read pv env w file locals st = Except.ok r →
          r.status = status ∧ (r.status ≠ 0 ↔ status ≠ 0))
      ∧ (∀ (w' : Nat → put_env) (lines : List String) (b : Bool),
          appendDies w' lines = false →
            ∃ r, za_read pv env w' (some lines) locals ⟨metrics0, b⟩ = Except.ok r
              ∧ r.status = 0)
      ∧ (∀ (w' : Nat → put_env) (b : Bool),
          za_read pv env w' none locals ⟨metrics0, b⟩ =
            Except.ok { status := -1, state := ⟨metrics0, b⟩, dispatched := [] }) := by
  refine ⟨?_, ?_, ?_, ?_, ?_⟩
  · intro hne
    unfold za_read
    rw [hup]
    simp only [hne, ne_eq, not_false_eq_true, if_true]
  · intro h0 hm
    subst h0
    obtain ⟨r, hr, hs, _⟩ := za_read_of_update_ok pv env w file locals st metrics hm hup
    exact ⟨r, hr, hs⟩
  · intro r hr
    have h := (za_read_status_of_ok pv env w file locals st status metrics r hup hr).1
    exact ⟨h, by rw [h]⟩
  · intro w' lines b hd
    rw [metrics0, (za_read_null pv env w' locals b lines).2, hd]
    exact ⟨_, rfl, rfl⟩
  · intro w' b
    rfl

theorem za_read_status_witness :
    zfs_update mallocOk none metrics0 = Except.ok (-1, none)
      ∧ za_read parse_decimal env0 mallocOk none
          ⟨gauge_t.nan, gauge_t.nan, gauge_t.nan, gauge_t.nan, 0, 0⟩ za_state0 =
        Except.ok { status := -1, state := za_state0, dispatched := [] } :=
  ⟨rfl,
   (za_read_status parse_decimal env0 mallocOk none
      ⟨gauge_t.nan, gauge_t.nan, gauge_t.nan, gauge_t.nan, 0, 0⟩ za_state0 (-1) none rfl).1
      (by decide)⟩

/-- C15, the code at the failing input: `metrics` is NULL, as in every run, so
every lookup returns ENOENT.  In a cycle on the snapshot `misses 4 10`
`za_read` still dispatches the `cache_ratio` record of `arc`, computed from
what the locals `arc_hits` and `arc_misses` happened to hold (30 and 10, giving
0.75), the `cache_ratio` record of `L2`, and the `io_octets` record with what
`l2_io` happened to hold; on an empty snapshot it does so whatever
`llist_append` does.  In every cycle whose rebuild returns, the three records
carry the content of the unwritten locals. -/
theorem za_read_dispatches_unwritten_locals :
    za_read parse_decimal env0 mallocOk (some ["misses 4 10"])
        ⟨gauge_t.fin 30, gauge_t.fin 10, gauge_t.nan, gauge_t.nan, 111, 222⟩ za_state0 =
      Except.ok
        { status := 0
          state := ⟨none, false⟩
          dispatched :=
            [za_submit env0 "cache_ratio" "arc" [value_t.gauge (gauge_t.fin (3 / 4))] 1,
             za_submit env0 "cache_ratio" "L2" [value_t.gauge gauge_t.nan] 1,
             za_submit env0 "io_octets" "L2" [value_t.derive 111, value_t.derive 222] 2] }
      ∧ (∀ w : Nat → put_env,
          za_read parse_decimal env0 w (some [])
              ⟨gauge_t.fin 30, gauge_t.fin 10, gauge_t.nan, gauge_t.nan, 111, 222⟩ za_state0 =
            Except.ok
              { status := 0
                state := ⟨none, false⟩
                dispatched :=
                  [za_submit env0 "cache_ratio" "arc" [value_t.gauge (gauge_t.fin (3 / 4))] 1,
                   za_submit env0 "cache_ratio" "L2" [value_t.gauge gauge_t.nan] 1,
                   za_submit env0 "io_octets" "L2"
                     [value_t.derive 111, value_t.derive 222] 2] })
      ∧ zfs_get_gauge parse_decimal none "hits" (gauge_t.fin 30) =
          Except.ok (ENOENT, gauge_t.fin 30)
      ∧ zfs_get_gauge parse_decimal none "misses" (gauge_t.fin 10) =
          Except.ok (ENOENT, gauge_t.fin 10)
      ∧ zfs_get_derive parse_decimal none "l2_read_bytes" 111 = Except.ok (ENOENT, 111)
      ∧ (∀ (pv : parse_value_t) (env : plugin_env) (w : Nat → put_env) (lines : List String)
            (locals : za_locals) (b : Bool), appendDies w lines = false →
          za_read pv env w (some lines) locals ⟨metrics0, b⟩ =
            Except.ok
              { status := 0
                state := ⟨none, false⟩
                dispatched :=
                  [za_submit_ratio env "arc" locals.arc_hits locals.arc_misses,
                   za_submit_ratio env "L2" locals.l2_hits locals.l2_misses,
                   za_submit env "io_octets" "L2"
                     [value_t.derive locals.l2_io_0, value_t.derive locals.l2_io_1] 2] }) := by
  have e : za_read parse_decimal env0 mallocOk (some ["misses 4 10"])
        ⟨gauge_t.fin 30, gauge_t.fin 10, gauge_t.nan, gauge_t.nan, 111, 222⟩ za_state0 =
      Except.ok
        { status := 0
          state := ⟨none, false⟩
          dispatched :=
            [za_submit env0 "cache_ratio" "arc" [value_t.gauge (gauge_t.fin (3 / 4))] 1,
             za_submit env0 "cache_ratio" "L2" [value_t.gauge gauge_t.nan] 1,
             za_submit env0 "io_octets" "L2" [value_t.derive 111, value_t.derive 222] 2] } := by
    decide!
  have e2 : za_submit_ratio env0 "arc" (gauge_t.fin 30) (gauge_t.fin 10) =
      za_submit env0 "cache_ratio" "arc" [value_t.gauge (gauge_t.fin (3 / 4))] 1 := by decide!
  have e3 : za_submit_ratio env0 "L2" gauge_t.nan gauge_t.nan =
      za_submit env0 "cache_ratio" "L2" [value_t.gauge gauge_t.nan] 1 := by decide!
  refine ⟨e, ?_, rfl, rfl, rfl, ?_⟩
  · intro w
    have := (za_read_null parse_decimal env0 w
      ⟨gauge_t.fin 30, gauge_t.fin 10, gauge_t.nan, gauge_t.nan, 111, 222⟩ true []).2
    rw [za_state0, metrics0, this]
    simp only [appendDies, Bool.false_eq_true, if_false, e2, e3]
  · intro pv env w lines locals b hd
    rw [metrics0, (za_read_null pv env w locals b lines).2, hd]
    rfl

/-! ## Exact arithmetic on doubles -/

theorem log2fuel_eq_log (fuel n : ℕ) (h : n ≤ fuel) : gauge_t.log2fuel fuel n = Nat.log 2 n := by
  induction fuel generalizing n with
  | zero =>
    have : n = 0 := by omega
    subst this
    simp [gauge_t.log2fuel]
  | succ fuel ih =>
    by_cases h2 : n < 2
    · simp [gauge_t.log2fuel, h2, Nat.log_of_lt h2]
    · have hle : n / 2 ≤ fuel := by omega
      simp only [gauge_t.log2fuel, h2, if_false, ih (n / 2) hle]
      rw [Nat.log_of_one_lt_of_le (by norm_num) (not_lt.mp h2)]

theorem ilog2_eq_log (n : ℕ) : gauge_t.ilog2 n = Nat.log 2 n :=
  log2fuel_eq_log n n le_rfl

theorem log2floor_one (N : ℕ) (hN : 0 < N) : gauge_t.log2floor N 1 = (Nat.log 2 N : ℤ) := by
  have hle : 2 ^ Nat.log 2 N ≤ N := Nat.pow_log_le_self 2 (Nat.pos_iff_ne_zero.mp hN)
  unfold gauge_t.log2floor
  simp only [ilog2_eq_log, Nat.log_one_right, Nat.cast_zero, sub_zero, Nat.cast_nonneg, if_true,
    Int.toNat_ofNat, one_mul, hle]

theorem round64_natCast_exact (N m j : ℕ) (hm0 : 0 < m) (hm : m < 2 ^ 53) (hj : j ≤ 970)
    (hN : N = m * 2 ^ j) : gauge_t.round64 (N : ℚ) = gauge_t.fin N := by
  have hN0 : 0 < N := by rw [hN]; positivity
  have hle : 2 ^ Nat.log 2 N ≤ N := Nat.pow_log_le_self 2 (Nat.pos_iff_ne_zero.mp hN0)
  have hNlt : N < 2 ^ (53 + j) := by
    rw [hN, pow_add]
    exact Nat.mul_lt_mul_of_lt_of_le hm le_rfl (by positivity)
  have hL : Nat.log 2 N < 53 + j := by
    by_contra hc
    have : 2 ^ (53 + j) ≤ 2 ^ Nat.log 2 N := Nat.pow_le_pow_right (by norm_num) (not_lt.mp hc)
    omega
  have hexp : 53 + j ≤ 1024 := by omega
  have hbig : N < 2 ^ 1024 :=
    lt_of_lt_of_le hNlt (Nat.pow_le_pow_right (Nat.succ_pos 1) hexp)
  have hq0 : ¬ ((N : ℚ) < 0) := not_lt.mpr (Nat.cast_nonneg N)
  unfold gauge_t.round64
  simp only [Rat.num_natCast, Int.natAbs_ofNat, Rat.den_natCast, log2floor_one N hN0]
  have hmax : max (Nat.log 2 N : ℤ) (-1022) = (Nat.log 2 N : ℤ) := max_eq_left (by omega)
  simp only [hmax, hq0, if_false, decide_False]
  have hbigQ : ¬ (((2 ^ 1024 : ℕ) : ℚ) ≤ (N : ℚ)) := by
    rw [Nat.cast_le]; exact not_le.mpr hbig
  by_cases hk : (Nat.log 2 N : ℤ) - 52 < 0
  · simp only [hk, if_true]
    generalize (-((Nat.log 2 N : ℤ) - 52)).toNat = a
    have ha : (2 ^ a : ℕ) ≠ 0 := by positivity
    have hmag : ((N * 2 ^ a : ℕ) : ℚ) / ((2 ^ a : ℕ) : ℚ) = (N : ℚ) := by
      rw [Nat.cast_mul]
      exact mul_div_cancel_right₀ _ (Nat.cast_ne_zero.mpr ha)
    have hne : N * 2 ^ a ≠ 0 := Nat.mul_ne_zero (Nat.pos_iff_ne_zero.mp hN0) ha
    simp only [Nat.mod_one, Nat.div_one, mul_zero, Nat.lt_one_iff, if_true, hmag, hbigQ,
      if_false, hne]
  · simp only [hk, if_false]
    have ht : ((Nat.log 2 N : ℤ) - 52).toNat ≤ j := by omega
    generalize ((Nat.log 2 N : ℤ) - 52).toNat = t at ht
    have hdvd : 2 ^ t ∣ N := by
      rw [hN]
      exact Dvd.dvd.mul_left (pow_dvd_pow 2 ht) m
    have hmod : N % (1 * 2 ^ t) = 0 := by
      rw [one_mul]; exact Nat.mod_eq_zero_of_dvd hdvd
    have hpos : 0 < 1 * 2 ^ t := by positivity
    have hmag : ((N / (1 * 2 ^ t) : ℕ) : ℚ) * ((2 ^ t : ℕ) : ℚ) = (N : ℚ) := by
      rw [one_mul, ← Nat.cast_mul, Nat.div_mul_cancel hdvd]
    have hne : N / (1 * 2 ^ t) ≠ 0 := by
      rw [one_mul]
      intro h0
      have := Nat.div_mul_cancel hdvd
      rw [h0, zero_mul] at this
      omega
    simp only [hmod, mul_zero, hpos, if_true, hmag, hbigQ, if_false, hne]

theorem fin_kB_exact (n : ℕ) (hn : n < 2 ^ 53) (h0 : n ≠ 0) :
    gauge_t.round64 (1024 * (n : ℚ)) = gauge_t.fin (1024 * (n : ℚ)) := by
  have h := round64_natCast_exact (n * 2 ^ 10) n 10 (Nat.pos_of_ne_zero h0) hn (by norm_num) rfl
  have e : ((n * 2 ^ 10 : ℕ) : ℚ) = 1024 * (n : ℚ) := by push_cast; ring
  rw [e] at h
  exact h

theorem mul_1024_exact (n : ℕ) (hn : n < 2 ^ 53) :
    (gauge_t.fin 1024).mul (gauge_t.fin (n : ℚ)) = gauge_t.fin (1024 * (n : ℚ)) := by
  by_cases h0 : n = 0
  · subst h0
    simp [gauge_t.mul, gauge_t.zero]
  · have hq : ¬ ((n : ℚ) = 0) := Nat.cast_ne_zero.mpr h0
    simp only [gauge_t.mul, hq, or_false]
    rw [if_neg (by norm_num)]
    exact fin_kB_exact n hn h0

theorem add_kB_exact (a b : ℕ) (h : a + b < 2 ^ 53) :
    (gauge_t.fin (1024 * (a : ℚ))).add (gauge_t.fin (1024 * (b : ℚ))) =
      gauge_t.fin (1024 * ((a + b : ℕ) : ℚ)) := by
  have e : 1024 * (a : ℚ) + 1024 * (b : ℚ) = 1024 * ((a + b : ℕ) : ℚ) := by push_cast; ring
  simp only [gauge_t.add, e]
  by_cases h0 : a + b = 0
  · rw [h0]; simp
  · have hq : ¬ (1024 * ((a + b : ℕ) : ℚ) = 0) := by
      have : ((a + b : ℕ) : ℚ) ≠ 0 := Nat.cast_ne_zero.mpr h0
      simpa using this
    rw [if_neg hq]
    exact fin_kB_exact (a + b) h h0

theorem sub_kB_exact (a b : ℕ) (ha : a < 2 ^ 53) (hb : b ≤ a) :
    (gauge_t.fin (1024 * (a : ℚ))).sub (gauge_t.fin (1024 * (b : ℚ))) =
      gauge_t.fin (1024 * ((a - b : ℕ) : ℚ)) := by
  have e : 1024 * (a : ℚ) + -(1024 * (b : ℚ)) = 1024 * ((a - b : ℕ) : ℚ) := by
    rw [Nat.cast_sub hb]; ring
  by_cases hb0 : b = 0
  · subst hb0
    simp [gauge_t.sub, gauge_t.neg, gauge_t.add]
  · have hbq : ¬ (1024 * (b : ℚ) = 0) := by
      have : (b : ℚ) ≠ 0 := Nat.cast_ne_zero.mpr hb0
      simpa using this
    simp only [gauge_t.sub, gauge_t.neg, hbq, if_false, gauge_t.add, e]
    by_cases h0 : a - b = 0
    · rw [h0]; simp
    · have hq : ¬ (1024 * ((a - b : ℕ) : ℚ) = 0) := by
        have : ((a - b : ℕ) : ℚ) ≠ 0 := Nat.cast_ne_zero.mpr h0
        simpa using this
      rw [if_neg hq]
      exact fin_kB_exact (a - b) (by omega) h0

theorem lt_kB (a b : ℕ) :
    (gauge_t.fin (1024 * (a : ℚ))).lt (gauge_t.fin (1024 * (b : ℚ))) = decide (a < b) := by
  simp only [gauge_t.lt, gauge_t.toRat]
  congr 1
  rw [eq_iff_iff]
  constructor
  · intro h
    have : (a : ℚ) < (b : ℚ) := by linarith
    exact_mod_cast this
  · intro h
    have : (a : ℚ) < (b : ℚ) := by exact_mod_cast h
    linarith

/-! ## The Linux memory read -/

theorem meminfo_get_set (m : meminfo) (val v : memvar) (x : gauge_t) :
    (m.set val x).get v = if val = v then x else m.get v := by
  cases val <;> cases v <;> simp [meminfo.set, meminfo.get]

theorem meminfo_set_detailed (m : meminfo) (val : memvar) (x : gauge_t) :
    (m.set val x).detailed_slab_info = m.detailed_slab_info := by
  cases val <;> rfl

theorem meminfo_get_detailed (m : meminfo) (v : memvar) (b : Bool) :
    ({ m with detailed_slab_info := b } : meminfo).get v = m.get v := by
  cases v <;> rfl

theorem memory_scan_line_get (atof : String → gauge_t) (b : String) (m : meminfo) (v : memvar) :
    (memory_scan_line atof b m).get v =
      if memory_line_val b = some v ∧ 2 ≤ (strsplit b 8).length then
        (gauge_t.fin 1024).mul (atof ((strsplit b 8).getD 1 ""))
      else m.get v := by
  unfold memory_scan_line
  cases hv : memory_line_val b with
  | none => simp
  | some val =>
    dsimp only
    by_cases hlen : (strsplit b 8).length < 2
    · have h2 : ¬ 2 ≤ (strsplit b 8).length := by omega
      rw [if_pos hlen]
      simp only [h2, and_false, if_false]
      split
      · exact meminfo_get_detailed m v true
      · rfl
    · have h2 : 2 ≤ (strsplit b 8).length := by omega
      rw [if_neg hlen, meminfo_get_set]
      by_cases hval : val = v
      · simp [hval, h2]
      · have : ¬ (some val = some v) := fun h => hval (Option.some.inj h)
        simp only [hval, this, false_and, if_false]
        split
        · exact meminfo_get_detailed m v true
        · rfl

theorem memory_scan_line_flag (atof : String → gauge_t) (b : String) (m : meminfo)
    (h : memory_line_val b ≠ some memvar.mem_slab_reclaimable
      ∧ memory_line_val b ≠ some memvar.mem_slab_unreclaimable) :
    (memory_scan_line atof b m).detailed_slab_info = m.detailed_slab_info := by
  unfold memory_scan_line
  cases hv : memory_line_val b with
  | none => rfl
  | some val =>
    rw [hv] at h
    have hd : val.detailed = false := by
      cases val <;> simp [memvar.detailed] at h ⊢
    dsimp only
    rw [hd]
    simp only [Bool.false_eq_true, if_false]
    split
    · rfl
    · exact meminfo_set_detailed m val _

theorem meminfo_kB_nil (atof : String → gauge_t) (v : memvar) : meminfo_kB atof [] v = none := rfl

theorem meminfo_kB_cons (atof : String → gauge_t) (b : String) (rest : List String)
    (v : memvar) :
    meminfo_kB atof (b :: rest) v =
      (match meminfo_kB atof rest v with
       | some x => some x
       | none =>
         if memory_line_val b = some v ∧ 2 ≤ (strsplit b 8).length then
           some (atof ((strsplit b 8).getD 1 ""))
         else none) := by
  by_cases h : memory_line_val b = some v ∧ 2 ≤ (strsplit b 8).length
  · have hp : (decide (memory_line_val b = some v) && decide (2 ≤ (strsplit b 8).length)) = true := by
      simp [h.1, h.2]
    simp only [meminfo_kB, List.filter_cons, hp, if_true, h, and_self]
    cases hf : List.filter (fun b =>
        decide (memory_line_val b = some v) && decide (2 ≤ (strsplit b 8).length)) rest with
    | nil => simp
    | cons y ys =>
      have hl : (y :: ys).getLast? = some ((y :: ys).getLast (List.cons_ne_nil y ys)) :=
        List.getLast?_eq_getLast _ _
      simp [List.getLast?_cons_cons, hl]
  · have hp : (decide (memory_line_val b = some v) && decide (2 ≤ (strsplit b 8).length)) = false := by
      simpa [not_and] using h
    simp only [meminfo_kB, List.filter_cons, hp, Bool.false_eq_true, if_false, h]
    cases (List.filter (fun b =>
        decide (memory_line_val b = some v) && decide (2 ≤ (strsplit b 8).length)) rest).getLast? <;> rfl

theorem memory_scan_get (atof : String → gauge_t) (lines : List String) (m : meminfo)
    (v : memvar) :
    (memory_scan atof lines m).get v =
      (match meminfo_kB atof lines v with
       | some x => (gauge_t.fin 1024).mul x
       | none => m.get v) := by
  induction lines generalizing m with
  | nil => rfl
  | cons b rest ih =>
    simp only [memory_scan]
    rw [ih, meminfo_kB_cons, memory_scan_line_get]
    cases meminfo_kB atof rest v with
    | some x => rfl
    | none =>
      dsimp only
      split <;> rfl

theorem memory_scan_flag (atof : String → gauge_t) (lines : List String) (m : meminfo)
    (h : ∀ b ∈ lines, memory_line_val b ≠ some memvar.mem_slab_reclaimable
      ∧ memory_line_val b ≠ some memvar.mem_slab_unreclaimable) :
    (memory_scan atof lines m).detailed_slab_info = m.detailed_slab_info := by
  induction lines generalizing m with
  | nil => rfl
  | cons b rest ih =>
    simp only [memory_scan]
    rw [ih _ (fun b' hb' => h b' (List.mem_cons_of_mem _ hb')),
      memory_scan_line_flag atof b m (h b (List.mem_cons_self _ _))]

/-- C17: for a snapshot without SReclaimable and SUnreclaim lines whose
MemTotal, MemFree, Buffers, Cached and Slab lines carry the counts `T`, `F`,
`B`, `C`, `S` with `F + B + C + S ≤ T < 2^53`, the Linux memory read returns 0
and hands `used = 1024 * (T - (F + B + C + S))`, `buffered = 1024 * B`,
`cached = 1024 * C`, `free = 1024 * F` and `slab = 1024 * S`, in that order,
to `MEMORY_SUBMIT`, which with the default options makes exactly one dispatch
call. -/
theorem memory_read_linux_slab (cfg : memory_config) (atof : String → gauge_t)
    (lines : List String) (vl : value_list_t) (T F B C S : ℕ)
    (hno : ∀ b ∈ lines, memory_line_val b ≠ some memvar.mem_slab_reclaimable
      ∧ memory_line_val b ≠ some memvar.mem_slab_unreclaimable)
    (hT : meminfo_kB atof lines memvar.mem_total = some (gauge_t.fin (T : ℚ)))
    (hF : meminfo_kB atof lines memvar.mem_free = some (gauge_t.fin (F : ℚ)))
    (hB : meminfo_kB atof lines memvar.mem_buffered = some (gauge_t.fin (B : ℚ)))
    (hC : meminfo_kB atof lines memvar.mem_cached = some (gauge_t.fin (C : ℚ)))
    (hS : meminfo_kB atof lines memvar.mem_slab_total = some (gauge_t.fin (S : ℚ)))
    (hbound : T < 2 ^ 53) (hsum : F + B + C + S ≤ T) :
    memory_read_internal_linux cfg atof (some lines) vl =
        (0, MEMORY_SUBMIT cfg vl
          [("used", gauge_t.fin (1024 * ((T - (F + B + C + S) : ℕ) : ℚ))),
           ("buffered", gauge_t.fin (1024 * (B : ℚ))),
           ("cached", gauge_t.fin (1024 * (C : ℚ))),
           ("free", gauge_t.fin (1024 * (F : ℚ))),
           ("slab", gauge_t.fin (1024 * (S : ℚ)))])
      ∧ memory_read_internal_linux memory_config.default atof (some lines) vl =
        (0, [{ vl := vl, store_percentage := 0, store_type := DS_TYPE_GAUGE,
               values :=
                 [("used", gauge_t.fin (1024 * ((T - (F + B + C + S) : ℕ) : ℚ))),
                  ("buffered", gauge_t.fin (1024 * (B : ℚ))),
                  ("cached", gauge_t.fin (1024 * (C : ℚ))),
                  ("free", gauge_t.fin (1024 * (F : ℚ))),
                  ("slab", gauge_t.fin (1024 * (S : ℚ)))] }]) := by
  have gT : (memory_scan atof lines meminfo.init).mem_total = gauge_t.fin (1024 * (T : ℚ)) := by
    have := memory_scan_get atof lines meminfo.init memvar.mem_total
    rw [hT] at this
    exact this.trans (mul_1024_exact T hbound)
  have gF : (memory_scan atof lines meminfo.init).mem_free = gauge_t.fin (1024 * (F : ℚ)) := by
    have := memory_scan_get atof lines meminfo.init memvar.mem_free
    rw [hF] at this
    exact this.trans (mul_1024_exact F (by omega))
  have gB : (memory_scan atof lines meminfo.init).mem_buffered =
      gauge_t.fin (1024 * (B : ℚ)) := by
    have := memory_scan_get atof lines meminfo.init memvar.mem_buffered
    rw [hB] at this
    exact this.trans (mul_1024_exact B (by omega))
  have gC : (memory_scan atof lines meminfo.init).mem_cached = gauge_t.fin (1024 * (C : ℚ)) := by
    have := memory_scan_get atof lines meminfo.init memvar.mem_cached
    rw [hC] at this
    exact this.trans (mul_1024_exact C (by omega))
  have gS : (memory_scan atof lines meminfo.init).mem_slab_total =
      gauge_t.fin (1024 * (S : ℚ)) := by
    have := memory_scan_get atof lines meminfo.init memvar.mem_slab_total
    rw [hS] at this
    exact this.trans (mul_1024_exact S (by omega))
  have gD : (memory_scan atof lines meminfo.init).detailed_slab_info = false :=
    memory_scan_flag atof lines meminfo.init hno
  have key : ∀ cfg' : memory_config, memory_read_internal_linux cfg' atof (some lines) vl =
      (0, MEMORY_SUBMIT cfg' vl
        [("used", gauge_t.fin (1024 * ((T - (F + B + C + S) : ℕ) : ℚ))),
         ("buffered", gauge_t.fin (1024 * (B : ℚ))),
         ("cached", gauge_t.fin (1024 * (C : ℚ))),
         ("free", gauge_t.fin (1024 * (F : ℚ))),
         ("slab", gauge_t.fin (1024 * (S : ℚ)))]) := by
    intro cfg'
    unfold memory_read_internal_linux
    simp only [gT, gF, gB, gC, gS, gD]
    rw [add_kB_exact F B (by omega), add_kB_exact (F + B) C (by omega),
      add_kB_exact (F + B + C) S (by omega), lt_kB, sub_kB_exact T (F + B + C + S) hbound hsum]
    have : ¬ (T < F + B + C + S) := by omega
    simp [this]
  exact ⟨key cfg, key memory_config.default⟩

theorem memory_read_linux_slab_witness :
    (∀ b ∈ meminfo_example, memory_line_val b ≠ some memvar.mem_slab_reclaimable
        ∧ memory_line_val b ≠ some memvar.mem_slab_unreclaimable)
      ∧ meminfo_kB atof_decimal meminfo_example memvar.mem_total =
          some (gauge_t.fin ((1000 : ℕ) : ℚ))
      ∧ (200 + 50 + 100 + 50 ≤ 1000)
      ∧ memory_read_internal_linux memory_config.default atof_decimal (some meminfo_example)
          memory_vl =
        (0, [{ vl := memory_vl, store_percentage := 0, store_type := DS_TYPE_GAUGE,
               values :=
                 [("used", gauge_t.fin (1024 * ((1000 - (200 + 50 + 100 + 50) : ℕ) : ℚ))),
                  ("buffered", gauge_t.fin (1024 * ((50 : ℕ) : ℚ))),
                  ("cached", gauge_t.fin (1024 * ((100 : ℕ) : ℚ))),
                  ("free", gauge_t.fin (1024 * ((200 : ℕ) : ℚ))),
                  ("slab", gauge_t.fin (1024 * ((50 : ℕ) : ℚ)))] }])
      ∧ gauge_t.fin (1024 * ((1000 - (200 + 50 + 100 + 50) : ℕ) : ℚ)) =
          gauge_t.fin (600 * 1024) :=
  ⟨by decide, by decide!, by decide,
   (memory_read_linux_slab memory_config.default atof_decimal meminfo_example memory_vl
      1000 200 50 100 50 (by decide) (by decide!) (by decide!) (by decide!) (by decide!)
      (by decide!) (by decide) (by decide)).2,
   by norm_num⟩

/-! ## Insert-or-update -/

/-- C21, the code at the failing input: `metrics` is NULL, as in every call of
every run, so the search finds nothing and the new entry is handed to
`llist_append` together with the NULL pointer.  The call returns ENOMEM when
`malloc` fails, ends in a read through NULL when `llist_append` does not
return, and otherwise returns 0 with `metrics` still NULL: `name` is as absent
after the call as before it and does not map to `value`. -/
theorem zfs_put_value_null_list (w : put_env) (name value : String) (pv : parse_value_t)
    (g : gauge_t) :
    zfs_put_value w metrics0 name value =
        (if w.malloc = false then Except.ok (ENOMEM, none)
         else if w.llist_append_null = true then Except.ok (0, none)
         else Except.error fault.null_pointer)
      ∧ (∀ m, zfs_put_value w metrics0 name value = Except.ok (0, m) →
          m = none ∧ llist_search m name = Except.ok none
            ∧ zfs_get_gauge pv m name g = Except.ok (ENOENT, g))
      ∧ zfs_put_value (mallocOk 0) metrics0 "foo" "1" = Except.ok (0, none)
      ∧ llist_search none "foo" = Except.ok none
      ∧ zfs_put_value (appendFaults 0) metrics0 "foo" "1" = Except.error fault.null_pointer := by
  refine ⟨zfs_put_value_null w name value, ?_, by decide, rfl, by decide⟩
  intro m hm
  rcases zfs_put_value_null_cases w name value with ⟨s, h⟩ | h
  · rw [metrics0, h] at hm
    have := Except.ok.inj hm
    simp only [Prod.mk.injEq] at this
    rw [← this.2]
    exact ⟨rfl, rfl, rfl⟩
  · rw [metrics0, h] at hm
    cases hm

/-! ## The sticky flag of `l2_size` -/

theorem za_read_sizes_false (pv : parse_value_t) (env : plugin_env) (metrics : Option llist_t)
    (b : Bool) (sizes : List value_list_t)
    (h : za_read_sizes pv env metrics false = Except.ok (b, sizes)) :
    b = false ∧ ∃ s, za_read_gauge pv env metrics "size" "cache_size" "arc" =
      Except.ok (s, sizes) := by
  unfold za_read_sizes at h
  split at h
  · cases h
  · rename_i s vls hs
    simp only [Bool.false_eq_true, if_false, Except.ok.injEq, Prod.mk.injEq] at h
    exact ⟨h.1.symm, s, by rw [hs, h.2]⟩

theorem za_read_sizes_true (pv : parse_value_t) (env : plugin_env) (metrics : Option llist_t)
    (b : Bool) (sizes : List value_list_t)
    (h : za_read_sizes pv env metrics true = Except.ok (b, sizes)) :
    ∃ s1 size s2 l2,
      za_read_gauge pv env metrics "size" "cache_size" "arc" = Except.ok (s1, size)
        ∧ za_read_gauge pv env metrics "l2_size" "cache_size" "L2" = Except.ok (s2, l2)
        ∧ sizes = size ++ l2 ∧ b = decide (s2 = 0) := by
  unfold za_read_sizes at h
  split at h
  · cases h
  · rename_i s1 size hs1
    simp only [if_true] at h
    split at h
    · cases h
    · rename_i s2 l2 hs2
      simp only [Except.ok.injEq, Prod.mk.injEq] at h
      refine ⟨s1, size, s2, l2, hs1, hs2, h.2.symm, ?_⟩
      rw [← h.1]
      by_cases h0 : s2 = 0 <;> simp [h0]

theorem za_read_ok_form (pv : parse_value_t) (env : plugin_env) (w : Nat → put_env)
    (file : Option (List String)) (locals : za_locals) (st : za_state) (r : za_result)
    (h : za_read pv env w file locals st = Except.ok r) :
    (r.status ≠ 0 ∧ r.state.l2_size_avail = st.l2_size_avail ∧ r.dispatched = [])
      ∨ (r.status = 0 ∧ ∃ sizes derives ratios io,
          za_read_sizes pv env r.state.metrics st.l2_size_avail =
              Except.ok (r.state.l2_size_avail, sizes)
            ∧ za_read_derive_all pv env r.state.metrics za_read_derives = Except.ok derives
            ∧ za_read_ratios pv env r.state.metrics locals = Except.ok ratios
            ∧ za_read_io pv env r.state.metrics locals = Except.ok io
            ∧ r.dispatched = sizes ++ derives ++ ratios ++ io) := by
  unfold za_read at h
  split at h
  · cases h
  · rename_i status metrics hup
    by_cases hs : status = 0
    · subst hs
      simp only [ne_eq, not_true_eq_false, if_false] at h
      split at h
      · cases h
      · rename_i b sizes h1
        split at h
        · cases h
        · rename_i derives h2
          split at h
          · cases h
          · rename_i ratios h3
            split at h
            · cases h
            · rename_i io h4
              simp only [Except.ok.injEq] at h
              subst h
              exact Or.inr ⟨rfl, sizes, derives, ratios, io, h1, h2, h3, h4, rfl⟩
    · simp only [ne_eq, hs, not_false_eq_true, if_true, Except.ok.injEq] at h
      subst h
      exact Or.inl ⟨hs, rfl, rfl⟩

theorem za_read_flag_stays_cleared (pv : parse_value_t) (env : plugin_env)
    (w : Nat → put_env) (file : Option (List String)) (locals : za_locals)
    (st : za_state) (r : za_result)
    (h : za_read pv env w file locals st = Except.ok r)
    (hf : st.l2_size_avail = false) : r.state.l2_size_avail = false := by
  rcases za_read_ok_form pv env w file locals st r h with ⟨_, h2, _⟩ | ⟨_, sizes, _, _, _, h1, _⟩
  · rw [h2, hf]
  · rw [hf] at h1
    exact (za_read_sizes_false pv env _ _ _ h1).1

theorem za_run_cons_ok (pv : parse_value_t) (env : plugin_env) (st : za_state) (c : za_cycle)
    (cs : List za_cycle) (r : za_result)
    (h : za_read pv env c.put c.file c.locals st = Except.ok r) :
    za_run pv env st (c :: cs) =
      ((st, c, r) :: (za_run pv env r.state cs).1, (za_run pv env r.state cs).2) := by
  simp only [za_run, h]

theorem za_run_cons_error (pv : parse_value_t) (env : plugin_env) (st : za_state)
    (c : za_cycle) (cs : List za_cycle) (f : fault)
    (h : za_read pv env c.put c.file c.locals st = Except.error f) :
    za_run pv env st (c :: cs) = ([], some f) := by
  simp only [za_run, h]

theorem za_run_cleared (pv : parse_value_t) (env : plugin_env) (st : za_state)
    (cs : List za_cycle) (hf : st.l2_size_avail = false) :
    ∀ t ∈ (za_run pv env st cs).1,
      t.1.l2_size_avail = false ∧ t.2.2.state.l2_size_avail = false := by
  induction cs generalizing st with
  | nil =>
    intro t ht
    cases ht
  | cons c cs ih =>
    cases hr : za_read pv env c.put c.file c.locals st with
    | error f =>
      rw [za_run_cons_error pv env st c cs f hr]
      intro t ht
      cases ht
    | ok r =>
      rw [za_run_cons_ok pv env st c cs r hr]
      have hr' := za_read_flag_stays_cleared pv env _ _ _ st r hr hf
      intro t ht
      rcases List.mem_cons.mp ht with h1 | h1
      · subst h1
        exact ⟨hf, hr'⟩
      · exact ih r.state hr' t h1

theorem za_run_mem (pv : parse_value_t) (env : plugin_env) (st : za_state)
    (cs : List za_cycle) :
    ∀ t ∈ (za_run pv env st cs).1,
      za_read pv env t.2.1.put t.2.1.file t.2.1.locals t.1 = Except.ok t.2.2 := by
  induction cs generalizing st with
  | nil =>
    intro t ht
    cases ht
  | cons c cs ih =>
    cases hr : za_read pv env c.put c.file c.locals st with
    | error f =>
      rw [za_run_cons_error pv env st c cs f hr]
      intro t ht
      cases ht
    | ok r =>
      rw [za_run_cons_ok pv env st c cs r hr]
      intro t ht
      rcases List.mem_cons.mp ht with h1 | h1
      · subst h1
        exact hr
      · exact ih r.state t h1

theorem za_run_pairwise (pv : parse_value_t) (env : plugin_env) (st : za_state)
    (cs : List za_cycle) :
    (za_run pv env st cs).1.Pairwise (fun a b => a.2.2.state.l2_size_avail = false →
      b.1.l2_size_avail = false ∧ b.2.2.state.l2_size_avail = false) := by
  induction cs generalizing st with
  | nil => exact List.Pairwise.nil
  | cons c cs ih =>
    cases hr : za_read pv env c.put c.file c.locals st with
    | error f =>
      rw [za_run_cons_error pv env st c cs f hr]
      exact List.Pairwise.nil
    | ok r =>
      rw [za_run_cons_ok pv env st c cs r hr]
      refine List.Pairwise.cons ?_ (ih r.state)
      intro b hb hf
      exact za_run_cleared pv env r.state cs hf b hb

theorem za_run_clears_once (pv : parse_value_t) (env : plugin_env) (st : za_state)
    (cs : List za_cycle) : ((za_run pv env st cs).1.filter clearsL2Size).length ≤ 1 := by
  induction cs generalizing st with
  | nil => simp [za_run]
  | cons c cs ih =>
    cases hr : za_read pv env c.put c.file c.locals st with
    | error f =>
      rw [za_run_cons_error pv env st c cs f hr]
      simp
    | ok r =>
      rw [za_run_cons_ok pv env st c cs r hr]
      by_cases hc : clearsL2Size (st, c, r) = true
      · have hf : r.state.l2_size_avail = false := by
          simp only [clearsL2Size, Bool.and_eq_true, Bool.not_eq_true'] at hc
          exact hc.2
        have hnone : (za_run pv env r.state cs).1.filter clearsL2Size = [] := by
          rw [List.filter_eq_nil_iff]
          intro t ht
          have := (za_run_cleared pv env r.state cs hf t ht).1
          simp [clearsL2Size, this]
        simp [List.filter_cons, hc, hnone]
      · simp only [List.filter_cons, hc, Bool.false_eq_true, if_false]
        exact ih r.state

theorem za_run_covers (pv : parse_value_t) (env : plugin_env) (st : za_state)
    (cs : List za_cycle) :
    (za_run pv env st cs).1.map (fun t => t.2.1) = cs.take (za_run pv env st cs).1.length
      ∧ ((za_run pv env st cs).2 = none → (za_run pv env st cs).1.length = cs.length) := by
  induction cs generalizing st with
  | nil => exact ⟨rfl, fun _ => rfl⟩
  | cons c cs ih =>
    cases hr : za_read pv env c.put c.file c.locals st with
    | error f =>
      rw [za_run_cons_error pv env st c cs f hr]
      exact ⟨rfl, fun h => by cases h⟩
    | ok r =>
      rw [za_run_cons_ok pv env st c cs r hr]
      obtain ⟨h1, h2⟩ := ih r.state
      refine ⟨?_, ?_⟩
      · simp only [List.map_cons, List.length_cons, List.take_succ_cons]
        rw [h1]
      · intro h
        simp only [List.length_cons]
        rw [h2 h]

theorem za_run_null (pv : parse_value_t) (env : plugin_env) (b : Bool) (cs : List za_cycle)
    (h : ∀ c ∈ cs, ∀ lines, c.file = some lines → appendDies c.put lines = false) :
    (za_run pv env ⟨none, b⟩ cs).2 = none
      ∧ ∀ t ∈ (za_run pv env ⟨none, b⟩ cs).1,
          t.1.metrics = none ∧ t.2.2.state.metrics = none := by
  induction cs generalizing b with
  | nil =>
    refine ⟨rfl, ?_⟩
    intro t ht
    cases ht
  | cons c cs ih =>
    have hc := h c (List.mem_cons_self _ _)
    have hrest : ∀ c' ∈ cs, ∀ lines, c'.file = some lines → appendDies c'.put lines = false :=
      fun c' hc' => h c' (List.mem_cons_of_mem _ hc')
    cases hfile : c.file with
    | none =>
      have hr : za_read pv env c.put c.file c.locals ⟨none, b⟩ =
          Except.ok { status := -1, state := ⟨none, b⟩, dispatched := [] } := by
        rw [hfile]
        rfl
      rw [za_run_cons_ok pv env _ c cs _ hr]
      obtain ⟨h1, h2⟩ := ih b hrest
      refine ⟨h1, ?_⟩
      intro t ht
      rcases List.mem_cons.mp ht with h3 | h3
      · subst h3
        exact ⟨rfl, rfl⟩
      · exact h2 t h3
    | some lines =>
      have hr := (za_read_null pv env c.put c.locals b lines).2
      rw [hc lines hfile] at hr
      simp only [Bool.false_eq_true, if_false] at hr
      rw [← hfile] at hr
      rw [za_run_cons_ok pv env _ c cs _ hr]
      obtain ⟨h1, h2⟩ := ih false hrest
      refine ⟨h1, ?_⟩
      intro t ht
      rcases List.mem_cons.mp ht with h3 | h3
      · subst h3
        exact ⟨rfl, rfl⟩
      · exact h2 t h3

/-- C22: over successive calls of `za_read`, from any state and with anything
outside, the flag `l2_size_avail` is cleared at most once; once a call has left
it cleared, every later call finds it cleared and leaves it cleared.  A call
that finds it cleared dispatches what the reads of `size`, of the derive
counters, of the ratios and of the I/O counters give and makes no read of
`l2_size`; a call that finds it set dispatches the same with the result of
reading `l2_size` behind `size`, and leaves the flag set exactly when that
read returned 0.  A call whose refresh fails leaves the flag as it was and
dispatches nothing.  The calls spoken of are those that return, in order, up
to the first that does not; they are all the calls when no call ends in a
fault, which is so from the state of the program start whenever no rebuild ends
in `llist_append`. -/
theorem za_run_l2_size_sticky (pv : parse_value_t) (env : plugin_env) (st : za_state)
    (cs : List za_cycle) :
    ((za_run pv env st cs).1.filter clearsL2Size).length ≤ 1
      ∧ (za_run pv env st cs).1.Pairwise (fun a b => a.2.2.state.l2_size_avail = false →
          b.1.l2_size_avail = false ∧ b.2.2.state.l2_size_avail = false)
      ∧ (∀ t ∈ (za_run pv env st cs).1,
          za_read pv env t.2.1.put t.2.1.file t.2.1.locals t.1 = Except.ok t.2.2
          ∧ (t.1.l2_size_avail = false → t.2.2.state.l2_size_avail = false)
          ∧ (t.2.2.status ≠ 0 →
              t.2.2.state.l2_size_avail = t.1.l2_size_avail ∧ t.2.2.dispatched = [])
          ∧ (t.2.2.status = 0 →
              ∃ s size derives ratios io,
                za_read_gauge pv env t.2.2.state.metrics "size" "cache_size" "arc" =
                    Except.ok (s, size)
                  ∧ za_read_derive_all pv env t.2.2.state.metrics za_read_derives =
                    Except.ok derives
                  ∧ za_read_ratios pv env t.2.2.state.metrics t.2.1.locals = Except.ok ratios
                  ∧ za_read_io pv env t.2.2.state.metrics t.2.1.locals = Except.ok io
                  ∧ ((t.1.l2_size_avail = false
                        ∧ t.2.2.dispatched = size ++ derives ++ ratios ++ io)
                      ∨ (t.1.l2_size_avail = true ∧ ∃ s2 l2,
                          za_read_gauge pv env t.2.2.state.metrics "l2_size" "cache_size" "L2" =
                              Except.ok (s2, l2)
                            ∧ t.2.2.dispatched = size ++ l2 ++ derives ++ ratios ++ io
                            ∧ t.2.2.state.l2_size_avail = decide (s2 = 0)))))
      ∧ (za_run pv env st cs).1.map (fun t => t.2.1) = cs.take (za_run pv env st cs).1.length
      ∧ ((za_run pv env st cs).2 = none → (za_run pv env st cs).1.length = cs.length)
      ∧ ((∀ c ∈ cs, ∀ lines, c.file = some lines → appendDies c.put lines = false) →
          (za_run pv env za_state0 cs).2 = none
            ∧ (za_run pv env za_state0 cs).1.length = cs.length) := by
  refine ⟨za_run_clears_once pv env st cs, za_run_pairwise pv env st cs, ?_,
    (za_run_covers pv env st cs).1, (za_run_covers pv env st cs).2, ?_⟩
  · intro t ht
    have hr := za_run_mem pv env st cs t ht
    refine ⟨hr, fun hf => za_read_flag_stays_cleared pv env _ _ _ _ _ hr hf, ?_, ?_⟩
    · intro hne
      rcases za_read_ok_form pv env _ _ _ _ _ hr with ⟨_, h2, h3⟩ | ⟨h0, _⟩
      · exact ⟨h2, h3⟩
      · exact absurd h0 hne
    · intro h0
      rcases za_read_ok_form pv env _ _ _ _ _ hr with
        ⟨hne, _⟩ | ⟨_, sizes, derives, ratios, io, h1, h2, h3, h4, h5⟩
      · exact absurd h0 hne
      · cases hflag : t.1.l2_size_avail with
        | false =>
          rw [hflag] at h1
          obtain ⟨_, s, hs⟩ := za_read_sizes_false pv env _ _ _ h1
          exact ⟨s, sizes, derives, ratios, io, hs, h2, h3, h4, Or.inl ⟨rfl, h5⟩⟩
        | true =>
          rw [hflag] at h1
          obtain ⟨s1, size, s2, l2, hs1, hs2, hsz, hb⟩ := za_read_sizes_true pv env _ _ _ h1
          refine ⟨s1, size, derives, ratios, io, hs1, h2, h3, h4,
            Or.inr ⟨rfl, s2, l2, hs2, ?_, hb⟩⟩
          rw [h5, hsz]
  · intro h
    have h1 := (za_run_null pv env true cs h).1
    exact ⟨h1, (za_run_covers pv env za_state0 cs).2 h1⟩

theorem za_run_l2_size_sticky_witness :
    (za_run parse_decimal env0 za_state0 za_cycles0).2 = none
      ∧ (za_run parse_decimal env0 za_state0 za_cycles0).1.map (fun t => (t.1, t.2.2)) =
          [(⟨none, true⟩, ⟨-1, ⟨none, true⟩, []⟩),
           (⟨none, true⟩,
             ⟨0, ⟨none, false⟩,
               [za_submit env0 "cache_ratio" "arc" [value_t.gauge gauge_t.nan] 1,
                za_submit env0 "cache_ratio" "L2" [value_t.gauge gauge_t.nan] 1,
                za_submit env0 "io_octets" "L2" [value_t.derive 0, value_t.derive 0] 2]⟩),
           (⟨none, false⟩,
             ⟨0, ⟨none, false⟩,
               [za_submit env0 "cache_ratio" "arc" [value_t.gauge gauge_t.nan] 1,
                za_submit env0 "cache_ratio" "L2" [value_t.gauge gauge_t.nan] 1,
                za_submit env0 "io_octets" "L2" [value_t.derive 0, value_t.derive 0] 2]⟩)]
      ∧ ((za_run parse_decimal env0 za_state0 za_cycles0).1.filter clearsL2Size).length ≤ 1 :=
  ⟨by decide!, by decide!,
   (za_run_l2_size_sticky parse_decimal env0 za_state0 za_cycles0).1⟩

/-! ## The kstat branch of the memory read -/

/-- C23, the code at the failing input: another source has refreshed the shared
handle at time 100 (`kc` open, `last_update = 100`) and the first memory read
comes at time 100 with `ksp` still NULL.  `ukstat_update` returns 0 from the
staleness test without calling `memory_update_kstat`, `ksp` stays NULL
although the chain holds `unix:0:system_pages`, and `ukstat_read` is called
with the NULL handle. -/
theorem memory_read_kstat_throttled_null_handle :
    ukstat_lookup [system_pages0] "unix" 0 "system_pages" = some system_pages0
      ∧ memory_read_internal_kstat memory_config.default (gauge_t.fin 4096) ⟨true, 100, 7⟩
          ⟨true, 100, 0, 100, none⟩ [system_pages0] none kstat_read0 memory_kstat_locals0
          memory_vl =
        Except.ok
          { status := -1
            update := { status := 0, state := ⟨true, 100, 7⟩, trace := [] }
            ksp := none
            read := some none
            calls := [] } := by
  decide

/-! ## The parts of `round64`, and exact arithmetic on whole numbers -/

theorem round64_eq (q : ℚ) :
    gauge_t.round64 q =
      if ((2 ^ 1024 : ℕ) : ℚ) ≤ gauge_t.rmag q then gauge_t.inf (decide (q < 0))
      else if gauge_t.rmant q = 0 then (if q < 0 then gauge_t.negZero else gauge_t.fin 0)
      else gauge_t.fin (if q < 0 then -gauge_t.rmag q else gauge_t.rmag q) := by
  rfl

theorem rmag_nonneg (q : ℚ) : 0 ≤ gauge_t.rmag q := by
  unfold gauge_t.rmag
  split
  · exact div_nonneg (Nat.cast_nonneg _) (Nat.cast_nonneg _)
  · exact mul_nonneg (Nat.cast_nonneg _) (Nat.cast_nonneg _)

theorem round64_pos_form (x : ℚ) (hx : 0 < x) :
    gauge_t.round64 x =
      if ((2 ^ 1024 : ℕ) : ℚ) ≤ gauge_t.rmag x then gauge_t.inf false
      else if gauge_t.rmant x = 0 then gauge_t.fin 0 else gauge_t.fin (gauge_t.rmag x) := by
  have hnn : ¬ x < 0 := by linarith
  rw [round64_eq]
  simp only [hnn, if_false, decide_False]

theorem round64_pos_not_neg (x : ℚ) (hx : 0 < x) : (gauge_t.round64 x).ltZero = false := by
  rw [round64_pos_form x hx]
  split
  · rfl
  · split
    · simp [gauge_t.ltZero]
    · have := rmag_nonneg x
      simp only [gauge_t.ltZero, decide_eq_false_iff_not, not_lt]
      exact this

theorem sub_not_neg_of_not_lt (x y : gauge_t) (h : x.lt y = false) : (x.sub y).ltZero = false := by
  cases x with
  | nan => simp [gauge_t.sub, gauge_t.add, gauge_t.ltZero]
  | inf a =>
    cases y with
    | nan => rfl
    | inf b =>
      cases a <;> cases b <;> simp [gauge_t.lt] at h <;> rfl
    | negZero =>
      simp only [gauge_t.lt] at h
      subst h
      rfl
    | fin q =>
      simp only [gauge_t.lt] at h
      subst h
      simp only [gauge_t.sub, gauge_t.neg]
      split <;> rfl
  | negZero =>
    cases y with
    | nan => rfl
    | inf b =>
      cases b
      · simp [gauge_t.lt] at h
      · rfl
    | negZero => rfl
    | fin q =>
      simp only [gauge_t.lt, gauge_t.toRat, decide_eq_false_iff_not, not_lt] at h
      simp only [gauge_t.sub, gauge_t.neg]
      by_cases hq : q = 0
      · simp [hq, gauge_t.add, gauge_t.ltZero]
      · have : q < 0 := lt_of_le_of_ne h hq
        simp only [hq, if_false, gauge_t.add, gauge_t.ltZero, decide_eq_false_iff_not, not_lt]
        linarith
  | fin p =>
    cases y with
    | nan => rfl
    | inf b =>
      cases b
      · simp [gauge_t.lt] at h
      · rfl
    | negZero =>
      simp only [gauge_t.lt, gauge_t.toRat, decide_eq_false_iff_not, not_lt] at h
      simp only [gauge_t.sub, gauge_t.neg, gauge_t.add, add_zero]
      by_cases hp : p = 0
      · simp [hp, gauge_t.ltZero]
      · rw [if_neg hp]
        exact round64_pos_not_neg p (lt_of_le_of_ne h (Ne.symm hp))
    | fin q =>
      simp only [gauge_t.lt, gauge_t.toRat, decide_eq_false_iff_not, not_lt] at h
      simp only [gauge_t.sub, gauge_t.neg]
      by_cases hq : q = 0
      · subst hq
        simp only [if_true, gauge_t.add, gauge_t.ltZero, decide_eq_false_iff_not, not_lt]
        exact h
      · simp only [hq, if_false, gauge_t.add]
        by_cases hpq : p + -q = 0
        · simp [hpq, gauge_t.ltZero]
        · rw [if_neg hpq]
          refine round64_pos_not_neg _ ?_
          have : p + -q ≠ 0 := hpq
          have h2 : 0 ≤ p + -q := by linarith
          exact lt_of_le_of_ne h2 (Ne.symm this)

theorem mem_MEMORY_SUBMIT (cfg : memory_config) (vl : value_list_t)
    (values : List (String × gauge_t)) (c : multivalue_call)
    (h : c ∈ MEMORY_SUBMIT cfg vl values) : c.values = values := by
  unfold MEMORY_SUBMIT at h
  rw [List.mem_append] at h
  rcases h with h | h
  · split at h
    · rw [List.mem_singleton] at h
      rw [h]
    · cases h
  · split at h
    · rw [List.mem_singleton] at h
      rw [h]
    · cases h

theorem memory_read_linux_used_not_negative (cfg : memory_config) (atof : String → gauge_t)
    (file : Option (List String)) (vl : value_list_t) (c : multivalue_call)
    (h : c ∈ (memory_read_internal_linux cfg atof file vl).2) :
    ∃ used rest, c.values = ("used", used) :: rest ∧ used.ltZero = false := by
  unfold memory_read_internal_linux at h
  cases file with
  | none => cases h
  | some lines =>
    dsimp only at h
    split at h
    · cases h
    · rename_i hlt
      have hlt' := Bool.eq_false_iff.mpr hlt
      split at h
      · exact ⟨_, _, mem_MEMORY_SUBMIT _ _ _ _ h, sub_not_neg_of_not_lt _ _ hlt'⟩
      · exact ⟨_, _, mem_MEMORY_SUBMIT _ _ _ _ h, sub_not_neg_of_not_lt _ _ hlt'⟩

theorem memory_scan_count (atof : String → gauge_t) (lines : List String) (v : memvar) (n : ℕ)
    (h : meminfo_kB atof lines v = some (gauge_t.fin (n : ℚ))
      ∨ (meminfo_kB atof lines v = none ∧ n = 0))
    (hn : n < 2 ^ 53) :
    (memory_scan atof lines meminfo.init).get v = gauge_t.fin (1024 * (n : ℚ)) := by
  have := memory_scan_get atof lines meminfo.init v
  rcases h with h | ⟨h, h0⟩
  · rw [h] at this
    exact this.trans (mul_1024_exact n hn)
  · rw [h] at this
    subst h0
    rw [this]
    cases v <;> simp [meminfo.get, meminfo.init]

/-- C24: the Linux memory read on a snapshot whose MemTotal, MemFree, Buffers,
Cached and Slab lines carry the whole counts `T`, `F`, `B`, `C`, `S` (a count
is 0 when no line gives it), all below `2^53`. The read returns -1 and
dispatches nothing exactly when `T < F + B + C + S`; otherwise it returns 0 and
hands `MEMORY_SUBMIT` a record whose `used` is `1024 * (T - (F + B + C + S))`,
which is not negative and which together with buffered, cached, free and the
Slab total adds up to the scaled MemTotal. Whatever the file holds and
whatever `atof` makes of it, the `used` of a dispatched record is never below
zero. -/
theorem memory_read_linux_conserves (cfg : memory_config) (atof : String → gauge_t)
    (lines : List String) (vl : value_list_t) (T F B C S : ℕ)
    (hT : meminfo_kB atof lines memvar.mem_total = some (gauge_t.fin (T : ℚ))
      ∨ (meminfo_kB atof lines memvar.mem_total = none ∧ T = 0))
    (hF : meminfo_kB atof lines memvar.mem_free = some (gauge_t.fin (F : ℚ))
      ∨ (meminfo_kB atof lines memvar.mem_free = none ∧ F = 0))
    (hB : meminfo_kB atof lines memvar.mem_buffered = some (gauge_t.fin (B : ℚ))
      ∨ (meminfo_kB atof lines memvar.mem_buffered = none ∧ B = 0))
    (hC : meminfo_kB atof lines memvar.mem_cached = some (gauge_t.fin (C : ℚ))
      ∨ (meminfo_kB atof lines memvar.mem_cached = none ∧ C = 0))
    (hS : meminfo_kB atof lines memvar.mem_slab_total = some (gauge_t.fin (S : ℚ))
      ∨ (meminfo_kB atof lines memvar.mem_slab_total = none ∧ S = 0))
    (hbound : T < 2 ^ 53) (hsum : F + B + C + S < 2 ^ 53) :
    (T < F + B + C + S → memory_read_internal_linux cfg atof (some lines) vl = (-1, []))
      ∧ (F + B + C + S ≤ T →
          memory_read_internal_linux cfg atof (some lines) vl =
            (0, MEMORY_SUBMIT cfg vl
              ([("used", gauge_t.fin (1024 * ((T - (F + B + C + S) : ℕ) : ℚ))),
                ("buffered", gauge_t.fin (1024 * (B : ℚ))),
                ("cached", gauge_t.fin (1024 * (C : ℚ))),
                ("free", gauge_t.fin (1024 * (F : ℚ)))] ++
               (if (memory_scan atof lines meminfo.init).detailed_slab_info then
                  [("slab_unrecl", (memory_scan atof lines meminfo.init).mem_slab_unreclaimable),
                   ("slab_recl", (memory_scan atof lines meminfo.init).mem_slab_reclaimable)]
                else [("slab", gauge_t.fin (1024 * (S : ℚ)))])))
          ∧ (0 : ℚ) ≤ 1024 * ((T - (F + B + C + S) : ℕ) : ℚ)
          ∧ 1024 * ((T - (F + B + C + S) : ℕ) : ℚ) + 1024 * (B : ℚ) + 1024 * (C : ℚ)
              + 1024 * (F : ℚ) + 1024 * (S : ℚ) = 1024 * (T : ℚ))
      ∧ ((memory_read_internal_linux cfg atof (some lines) vl).1 = -1 ↔ T < F + B + C + S)
      ∧ (∀ (atof' : String → gauge_t) (file : Option (List String)) (c : multivalue_call),
          c ∈ (memory_read_internal_linux cfg atof' file vl).2 →
            ∃ used rest, c.values = ("used", used) :: rest ∧ used.ltZero = false) := by
  have gT : (memory_scan atof lines meminfo.init).mem_total = gauge_t.fin (1024 * (T : ℚ)) :=
    memory_scan_count atof lines memvar.mem_total T hT hbound
  have gF : (memory_scan atof lines meminfo.init).mem_free = gauge_t.fin (1024 * (F : ℚ)) :=
    memory_scan_count atof lines memvar.mem_free F hF (by omega)
  have gB : (memory_scan atof lines meminfo.init).mem_buffered =
      gauge_t.fin (1024 * (B : ℚ)) :=
    memory_scan_count atof lines memvar.mem_buffered B hB (by omega)
  have gC : (memory_scan atof lines meminfo.init).mem_cached = gauge_t.fin (1024 * (C : ℚ)) :=
    memory_scan_count atof lines memvar.mem_cached C hC (by omega)
  have gS : (memory_scan atof lines meminfo.init).mem_slab_total =
      gauge_t.fin (1024 * (S : ℚ)) :=
    memory_scan_count atof lines memvar.mem_slab_total S hS (by omega)
  have hlow : T < F + B + C + S →
      memory_read_internal_linux cfg atof (some lines) vl = (-1, []) := by
    intro h
    unfold memory_read_internal_linux
    simp only [gT, gF, gB, gC, gS]
    rw [add_kB_exact F B (by omega), add_kB_exact (F + B) C (by omega),
      add_kB_exact (F + B + C) S (by omega), lt_kB]
    simp [h]
  have hhigh : F + B + C + S ≤ T →
      memory_read_internal_linux cfg atof (some lines) vl =
        (0, MEMORY_SUBMIT cfg vl
          ([("used", gauge_t.fin (1024 * ((T - (F + B + C + S) : ℕ) : ℚ))),
            ("buffered", gauge_t.fin (1024 * (B : ℚ))),
            ("cached", gauge_t.fin (1024 * (C : ℚ))),
            ("free", gauge_t.fin (1024 * (F : ℚ)))] ++
           (if (memory_scan atof lines meminfo.init).detailed_slab_info then
              [("slab_unrecl", (memory_scan atof lines meminfo.init).mem_slab_unreclaimable),
               ("slab_recl", (memory_scan atof lines meminfo.init).mem_slab_reclaimable)]
            else [("slab", gauge_t.fin (1024 * (S : ℚ)))]))) := by
    intro h
    have hn : ¬ (T < F + B + C + S) := by omega
    unfold memory_read_internal_linux
    simp only [gT, gF, gB, gC, gS]
    rw [add_kB_exact F B (by omega), add_kB_exact (F + B) C (by omega),
      add_kB_exact (F + B + C) S (by omega), lt_kB, sub_kB_exact T (F + B + C + S) hbound h]
    cases (memory_scan atof lines meminfo.init).detailed_slab_info <;> simp [hn]
  refine ⟨hlow, ?_, ?_, ?_⟩
  · intro h
    refine ⟨hhigh h, by positivity, ?_⟩
    rw [Nat.cast_sub h]
    push_cast
    ring
  · constructor
    · intro h1
      by_contra hn
      have := hhigh (by omega)
      rw [this] at h1
      simp at h1
    · intro h
      rw [hlow h]
  · intro atof' file c hc
    exact memory_read_linux_used_not_negative cfg atof' file vl c hc

theorem memory_read_linux_conserves_witness :
    meminfo_kB atof_decimal meminfo_detailed memvar.mem_total =
        some (gauge_t.fin ((2000 : ℕ) : ℚ))
      ∧ meminfo_kB atof_decimal meminfo_detailed memvar.mem_buffered = none
      ∧ memory_read_internal_linux memory_config.default atof_decimal (some meminfo_detailed)
          memory_vl =
        (0, MEMORY_SUBMIT memory_config.default memory_vl
          ([("used", gauge_t.fin (1024 * ((2000 - (500 + 0 + 300 + 200) : ℕ) : ℚ))),
            ("buffered", gauge_t.fin (1024 * ((0 : ℕ) : ℚ))),
            ("cached", gauge_t.fin (1024 * ((300 : ℕ) : ℚ))),
            ("free", gauge_t.fin (1024 * ((500 : ℕ) : ℚ)))] ++
           (if (memory_scan atof_decimal meminfo_detailed meminfo.init).detailed_slab_info then
              [("slab_unrecl",
                 (memory_scan atof_decimal meminfo_detailed meminfo.init).mem_slab_unreclaimable),
               ("slab_recl",
                 (memory_scan atof_decimal meminfo_detailed meminfo.init).mem_slab_reclaimable)]
            else [("slab", gauge_t.fin (1024 * ((200 : ℕ) : ℚ)))])))
      ∧ (memory_scan atof_decimal meminfo_detailed meminfo.init).detailed_slab_info = true :=
  ⟨by decide!, by decide!,
   ((memory_read_linux_conserves memory_config.default atof_decimal meminfo_detailed memory_vl
      2000 500 0 300 200 (Or.inl (by decide!)) (Or.inl (by decide!))
      (Or.inr ⟨by decide!, rfl⟩) (Or.inl (by decide!)) (Or.inl (by decide!))
      (by norm_num) (by norm_num)).2.1 (by decide)).1,
   by decide!⟩

/-! ## Bounds on `round64` -/

theorem log2floor_spec (n d : ℕ) (hn : 0 < n) (hd : 0 < d) :
    (2 : ℚ) ^ (gauge_t.log2floor n d) * (d : ℚ) ≤ (n : ℚ)
      ∧ (n : ℚ) < (2 : ℚ) ^ (gauge_t.log2floor n d + 1) * (d : ℚ) := by
  have hn1 : 2 ^ Nat.log 2 n ≤ n := Nat.pow_log_le_self 2 (Nat.pos_iff_ne_zero.mp hn)
  have hn2 : n < 2 ^ (Nat.log 2 n + 1) := Nat.lt_pow_succ_log_self (by norm_num) n
  have hd1 : 2 ^ Nat.log 2 d ≤ d := Nat.pow_log_le_self 2 (Nat.pos_iff_ne_zero.mp hd)
  have hd2 : d < 2 ^ (Nat.log 2 d + 1) := Nat.lt_pow_succ_log_self (by norm_num) d
  have qn1 : (2 : ℚ) ^ (Nat.log 2 n : ℤ) ≤ (n : ℚ) := by
    rw [zpow_natCast]; exact_mod_cast hn1
  have qn2 : (n : ℚ) < (2 : ℚ) ^ ((Nat.log 2 n : ℤ) + 1) := by
    have : (n : ℚ) < (2 : ℚ) ^ (Nat.log 2 n + 1) := by exact_mod_cast hn2
    rw [← zpow_natCast] at this
    push_cast at this
    exact this
  have qd1 : (2 : ℚ) ^ (Nat.log 2 d : ℤ) ≤ (d : ℚ) := by
    rw [zpow_natCast]; exact_mod_cast hd1
  have qd2 : (d : ℚ) < (2 : ℚ) ^ ((Nat.log 2 d : ℤ) + 1) := by
    have : (d : ℚ) < (2 : ℚ) ^ (Nat.log 2 d + 1) := by exact_mod_cast hd2
    rw [← zpow_natCast] at this
    push_cast at this
    exact this
  have h2 : (0 : ℚ) < 2 := by norm_num
  have h2ne : (2 : ℚ) ≠ 0 := by norm_num
  generalize hln : (Nat.log 2 n : ℤ) = ln at qn1 qn2
  generalize hld : (Nat.log 2 d : ℤ) = ld at qd1 qd2
  have hdq : (0 : ℚ) < (d : ℚ) := by exact_mod_cast hd
  -- upper bound with exponent e0 + 1
  have up : (n : ℚ) < (2 : ℚ) ^ (ln - ld + 1) * (d : ℚ) := by
    have e : (2 : ℚ) ^ (ln - ld + 1) * (2 : ℚ) ^ ld = (2 : ℚ) ^ (ln + 1) := by
      rw [← zpow_add₀ h2ne]; congr 1; ring
    calc (n : ℚ) < (2 : ℚ) ^ (ln + 1) := qn2
      _ = (2 : ℚ) ^ (ln - ld + 1) * (2 : ℚ) ^ ld := e.symm
      _ ≤ (2 : ℚ) ^ (ln - ld + 1) * (d : ℚ) :=
        mul_le_mul_of_nonneg_left qd1 (le_of_lt (zpow_pos h2 _))
  -- lower bound with exponent e0 - 1
  have low : (2 : ℚ) ^ (ln - ld - 1) * (d : ℚ) ≤ (n : ℚ) := by
    have e : (2 : ℚ) ^ (ln - ld - 1) * (2 : ℚ) ^ (ld + 1) = (2 : ℚ) ^ ln := by
      rw [← zpow_add₀ h2ne]; congr 1; ring
    calc (2 : ℚ) ^ (ln - ld - 1) * (d : ℚ)
        ≤ (2 : ℚ) ^ (ln - ld - 1) * (2 : ℚ) ^ (ld + 1) :=
          mul_le_mul_of_nonneg_left (le_of_lt qd2) (le_of_lt (zpow_pos h2 _))
      _ = (2 : ℚ) ^ ln := e
      _ ≤ (n : ℚ) := qn1
  unfold gauge_t.log2floor
  simp only [ilog2_eq_log, hln, hld]
  by_cases he : 0 ≤ ln - ld
  · simp only [he, if_true]
    have hcast : ((2 ^ (ln - ld).toNat : ℕ) : ℚ) = (2 : ℚ) ^ (ln - ld) := by
      push_cast
      rw [← zpow_natCast, Int.toNat_of_nonneg he]
    by_cases ht : d * 2 ^ (ln - ld).toNat ≤ n
    · simp only [ht, if_true]
      refine ⟨?_, up⟩
      have : ((d * 2 ^ (ln - ld).toNat : ℕ) : ℚ) ≤ (n : ℚ) := by exact_mod_cast ht
      rw [Nat.cast_mul, hcast] at this
      linarith
    · simp only [ht, if_false]
      refine ⟨low, ?_⟩
      have : (n : ℚ) < ((d * 2 ^ (ln - ld).toNat : ℕ) : ℚ) := by exact_mod_cast not_le.mp ht
      rw [Nat.cast_mul, hcast] at this
      rw [sub_add_cancel]
      linarith
  · simp only [he, if_false]
    have he' : 0 ≤ -(ln - ld) := by omega
    have hcast : ((2 ^ (-(ln - ld)).toNat : ℕ) : ℚ) = (2 : ℚ) ^ (-(ln - ld)) := by
      push_cast
      rw [← zpow_natCast, Int.toNat_of_nonneg he']
    have hinv : (2 : ℚ) ^ (ln - ld) * (2 : ℚ) ^ (-(ln - ld)) = 1 := by
      rw [← zpow_add₀ h2ne]; simp
    have hpos : (0 : ℚ) < (2 : ℚ) ^ (ln - ld) := zpow_pos h2 _
    by_cases ht : d ≤ n * 2 ^ (-(ln - ld)).toNat
    · simp only [ht, if_true]
      refine ⟨?_, up⟩
      have : (d : ℚ) ≤ ((n * 2 ^ (-(ln - ld)).toNat : ℕ) : ℚ) := by exact_mod_cast ht
      rw [Nat.cast_mul, hcast] at this
      calc (2 : ℚ) ^ (ln - ld) * (d : ℚ)
          ≤ (2 : ℚ) ^ (ln - ld) * ((n : ℚ) * (2 : ℚ) ^ (-(ln - ld))) :=
            mul_le_mul_of_nonneg_left this (le_of_lt hpos)
        _ = (n : ℚ) * ((2 : ℚ) ^ (ln - ld) * (2 : ℚ) ^ (-(ln - ld))) := by ring
        _ = (n : ℚ) := by rw [hinv, mul_one]
    · simp only [ht, if_false]
      refine ⟨low, ?_⟩
      have : ((n * 2 ^ (-(ln - ld)).toNat : ℕ) : ℚ) < (d : ℚ) := by exact_mod_cast not_le.mp ht
      rw [Nat.cast_mul, hcast] at this
      rw [sub_add_cancel]
      calc (n : ℚ) = (2 : ℚ) ^ (ln - ld) * ((n : ℚ) * (2 : ℚ) ^ (-(ln - ld))) := by
            rw [mul_comm (n : ℚ), ← mul_assoc, hinv, one_mul]
        _ < (2 : ℚ) ^ (ln - ld) * (d : ℚ) := mul_lt_mul_of_pos_left this hpos

theorem pos_num_den (x : ℚ) (hx : 0 < x) :
    0 < x.num.natAbs ∧ (x.num.natAbs : ℚ) = x * (x.den : ℚ) := by
  have hnum : 0 < x.num := Rat.num_pos.mpr hx
  have hd : (x.den : ℚ) ≠ 0 := Nat.cast_ne_zero.mpr x.den_nz
  refine ⟨Int.natAbs_pos.mpr (ne_of_gt hnum), ?_⟩
  rw [Nat.cast_natAbs, abs_of_pos hnum]
  exact (div_eq_iff hd).mp (Rat.num_div_den x)

theorem log2floor_rat (x : ℚ) (hx : 0 < x) :
    (2 : ℚ) ^ (gauge_t.log2floor x.num.natAbs x.den) ≤ x
      ∧ x < (2 : ℚ) ^ (gauge_t.log2floor x.num.natAbs x.den + 1) := by
  obtain ⟨hn, hnd⟩ := pos_num_den x hx
  have hd : 0 < x.den := x.den_pos
  have hdq : (0 : ℚ) < (x.den : ℚ) := by exact_mod_cast hd
  obtain ⟨h1, h2⟩ := log2floor_spec x.num.natAbs x.den hn hd
  rw [hnd] at h1 h2
  exact ⟨le_of_mul_le_mul_right h1 hdq, lt_of_mul_lt_mul_right h2 (le_of_lt hdq)⟩

theorem rexp_le (x : ℚ) : -1074 ≤ gauge_t.rexp x := by
  unfold gauge_t.rexp
  have := le_max_right (gauge_t.log2floor x.num.natAbs x.den) (-1022)
  omega

theorem rmag_eq (x : ℚ) : gauge_t.rmag x = (gauge_t.rmant x : ℚ) * (2 : ℚ) ^ (gauge_t.rexp x) := by
  unfold gauge_t.rmag
  by_cases hk : gauge_t.rexp x < 0
  · have hk' : 0 ≤ -gauge_t.rexp x := by omega
    have hcast : ((2 ^ (-gauge_t.rexp x).toNat : ℕ) : ℚ) = (2 : ℚ) ^ (-gauge_t.rexp x) := by
      push_cast
      rw [← zpow_natCast, Int.toNat_of_nonneg hk']
    rw [if_pos hk, hcast, zpow_neg, div_eq_mul_inv, inv_inv]
  · have hk' : 0 ≤ gauge_t.rexp x := by omega
    have hcast : ((2 ^ (gauge_t.rexp x).toNat : ℕ) : ℚ) = (2 : ℚ) ^ (gauge_t.rexp x) := by
      push_cast
      rw [← zpow_natCast, Int.toNat_of_nonneg hk']
    rw [if_neg hk, hcast]

theorem rnum_rden (x : ℚ) (hx : 0 < x) :
    0 < gauge_t.rden x
      ∧ (gauge_t.rnum x : ℚ) = x * (2 : ℚ) ^ (-gauge_t.rexp x) * (gauge_t.rden x : ℚ) := by
  obtain ⟨_, hnd⟩ := pos_num_den x hx
  have hd : 0 < x.den := x.den_pos
  have h2ne : (2 : ℚ) ≠ 0 := by norm_num
  unfold gauge_t.rnum gauge_t.rden
  by_cases hk : gauge_t.rexp x < 0
  · have hk' : 0 ≤ -gauge_t.rexp x := by omega
    have hcast : ((2 ^ (-gauge_t.rexp x).toNat : ℕ) : ℚ) = (2 : ℚ) ^ (-gauge_t.rexp x) := by
      push_cast
      rw [← zpow_natCast, Int.toNat_of_nonneg hk']
    simp only [hk, if_true]
    refine ⟨hd, ?_⟩
    rw [Nat.cast_mul, hcast, hnd]
    ring
  · have hk' : 0 ≤ gauge_t.rexp x := by omega
    have hcast : ((2 ^ (gauge_t.rexp x).toNat : ℕ) : ℚ) = (2 : ℚ) ^ (gauge_t.rexp x) := by
      push_cast
      rw [← zpow_natCast, Int.toNat_of_nonneg hk']
    simp only [hk, if_false]
    refine ⟨Nat.mul_pos hd (by positivity), ?_⟩
    rw [Nat.cast_mul, hcast, hnd]
    have : (2 : ℚ) ^ (-gauge_t.rexp x) * (2 : ℚ) ^ (gauge_t.rexp x) = 1 := by
      rw [← zpow_add₀ h2ne]; simp
    calc x * (x.den : ℚ) = x * (x.den : ℚ) * ((2 : ℚ) ^ (-gauge_t.rexp x) * (2 : ℚ) ^ (gauge_t.rexp x)) := by
          rw [this, mul_one]
      _ = x * (2 : ℚ) ^ (-gauge_t.rexp x) * ((x.den : ℚ) * (2 : ℚ) ^ (gauge_t.rexp x)) := by ring

theorem rne_ge (P Q : ℕ) : P / Q ≤ gauge_t.rne P Q := by
  unfold gauge_t.rne
  split
  · exact le_rfl
  · split
    · exact Nat.le_succ _
    · split
      · exact le_rfl
      · exact Nat.le_succ _

theorem rne_le (P Q : ℕ) : gauge_t.rne P Q ≤ P / Q + 1 := by
  unfold gauge_t.rne
  split
  · exact Nat.le_succ _
  · split
    · exact le_rfl
    · split
      · exact Nat.le_succ _
      · exact le_rfl

theorem rmant_ge (x : ℚ) (hx : 0 < x) (j : ℕ)
    (h : (j : ℚ) ≤ x * (2 : ℚ) ^ (-gauge_t.rexp x)) : j ≤ gauge_t.rmant x := by
  obtain ⟨hQ, hPQ⟩ := rnum_rden x hx
  have hQq : (0 : ℚ) < (gauge_t.rden x : ℚ) := by exact_mod_cast hQ
  have h1 : ((j * gauge_t.rden x : ℕ) : ℚ) ≤ (gauge_t.rnum x : ℚ) := by
    rw [Nat.cast_mul, hPQ]
    exact mul_le_mul_of_nonneg_right h (le_of_lt hQq)
  have h2 : j * gauge_t.rden x ≤ gauge_t.rnum x := by exact_mod_cast h1
  exact le_trans ((Nat.le_div_iff_mul_le hQ).mpr h2) (rne_ge _ _)

theorem rmant_le (x : ℚ) (hx : 0 < x) (J : ℕ)
    (h : x * (2 : ℚ) ^ (-gauge_t.rexp x) < (J : ℚ)) : gauge_t.rmant x ≤ J := by
  obtain ⟨hQ, hPQ⟩ := rnum_rden x hx
  have hQq : (0 : ℚ) < (gauge_t.rden x : ℚ) := by exact_mod_cast hQ
  have h1 : (gauge_t.rnum x : ℚ) < ((J * gauge_t.rden x : ℕ) : ℚ) := by
    rw [Nat.cast_mul, hPQ]
    exact mul_lt_mul_of_pos_right h hQq
  have h2 : gauge_t.rnum x < J * gauge_t.rden x := by exact_mod_cast h1
  have h3 : gauge_t.rnum x / gauge_t.rden x < J := (Nat.div_lt_iff_lt_mul hQ).mpr h2
  have := rne_le (gauge_t.rnum x) (gauge_t.rden x)
  unfold gauge_t.rmant
  omega

theorem rmant_le_pow (x : ℚ) (hx : 0 < x) : gauge_t.rmant x ≤ 2 ^ 53 := by
  apply rmant_le x hx
  obtain ⟨_, h2⟩ := log2floor_rat x hx
  have h2ne : (2 : ℚ) ≠ 0 := by norm_num
  have hle : gauge_t.log2floor x.num.natAbs x.den + 1 ≤ gauge_t.rexp x + 53 := by
    unfold gauge_t.rexp
    have := le_max_left (gauge_t.log2floor x.num.natAbs x.den) (-1022)
    omega
  have h3 : x < (2 : ℚ) ^ (gauge_t.rexp x + 53) :=
    lt_of_lt_of_le h2 (zpow_le_zpow_right₀ (by norm_num) hle)
  have hpos : (0 : ℚ) < (2 : ℚ) ^ (-gauge_t.rexp x) := zpow_pos (by norm_num) _
  have e : (2 : ℚ) ^ (gauge_t.rexp x + 53) * (2 : ℚ) ^ (-gauge_t.rexp x) = ((2 ^ 53 : ℕ) : ℚ) := by
    rw [← zpow_add₀ h2ne]
    have : gauge_t.rexp x + 53 + -gauge_t.rexp x = ((53 : ℕ) : ℤ) := by push_cast; ring
    rw [this, zpow_natCast]
    push_cast
    rfl
  calc x * (2 : ℚ) ^ (-gauge_t.rexp x)
      < (2 : ℚ) ^ (gauge_t.rexp x + 53) * (2 : ℚ) ^ (-gauge_t.rexp x) :=
        mul_lt_mul_of_pos_right h3 hpos
    _ = ((2 ^ 53 : ℕ) : ℚ) := e

theorem rmant_ge_pow (x : ℚ) (hx : 0 < x)
    (he : -1022 ≤ gauge_t.log2floor x.num.natAbs x.den) : 2 ^ 52 ≤ gauge_t.rmant x := by
  apply rmant_ge x hx
  obtain ⟨h1, _⟩ := log2floor_rat x hx
  have h2ne : (2 : ℚ) ≠ 0 := by norm_num
  have hk : gauge_t.rexp x = gauge_t.log2floor x.num.natAbs x.den - 52 := by
    unfold gauge_t.rexp
    rw [max_eq_left he]
  have hpos : (0 : ℚ) < (2 : ℚ) ^ (-gauge_t.rexp x) := zpow_pos (by norm_num) _
  have e : (2 : ℚ) ^ (gauge_t.log2floor x.num.natAbs x.den) * (2 : ℚ) ^ (-gauge_t.rexp x)
      = ((2 ^ 52 : ℕ) : ℚ) := by
    rw [← zpow_add₀ h2ne, hk]
    have : gauge_t.log2floor x.num.natAbs x.den
        + -(gauge_t.log2floor x.num.natAbs x.den - 52) = ((52 : ℕ) : ℤ) := by push_cast; ring
    rw [this, zpow_natCast]
    push_cast
    rfl
  calc ((2 ^ 52 : ℕ) : ℚ)
      = (2 : ℚ) ^ (gauge_t.log2floor x.num.natAbs x.den) * (2 : ℚ) ^ (-gauge_t.rexp x) := e.symm
    _ ≤ x * (2 : ℚ) ^ (-gauge_t.rexp x) := mul_le_mul_of_nonneg_right h1 (le_of_lt hpos)

theorem round64_unit (x : ℚ) (h0 : 0 < x) (h1 : x ≤ 1) :
    ∃ r, gauge_t.round64 x = gauge_t.fin r ∧ 0 ≤ r ∧ r ≤ 1 := by
  rcases eq_or_lt_of_le h1 with h1 | h1
  · subst h1
    exact ⟨1, by decide!, by norm_num, le_rfl⟩
  · obtain ⟨hl, _⟩ := log2floor_rat x h0
    have h2ne : (2 : ℚ) ≠ 0 := by norm_num
    have he : gauge_t.log2floor x.num.natAbs x.den < 0 := by
      have : (2 : ℚ) ^ (gauge_t.log2floor x.num.natAbs x.den) < (2 : ℚ) ^ (0 : ℤ) := by
        rw [zpow_zero]
        exact lt_of_le_of_lt hl h1
      exact (zpow_lt_zpow_iff_right₀ (by norm_num)).mp this
    have hk : gauge_t.rexp x + 53 ≤ 0 := by
      unfold gauge_t.rexp
      have : max (gauge_t.log2floor x.num.natAbs x.den) (-1022) ≤ -1 := max_le (by omega) (by norm_num)
      omega
    have hm : (gauge_t.rmant x : ℚ) ≤ (2 : ℚ) ^ (53 : ℤ) := by
      have := rmant_le_pow x h0
      have h' : (gauge_t.rmant x : ℚ) ≤ ((2 ^ 53 : ℕ) : ℚ) := by exact_mod_cast this
      have e : ((2 ^ 53 : ℕ) : ℚ) = (2 : ℚ) ^ (53 : ℤ) := by
        have : (53 : ℤ) = ((53 : ℕ) : ℤ) := rfl
        rw [this, zpow_natCast]
        push_cast
        rfl
      rw [e] at h'
      exact h'
    have hmag : gauge_t.rmag x ≤ 1 := by
      rw [rmag_eq]
      calc (gauge_t.rmant x : ℚ) * (2 : ℚ) ^ (gauge_t.rexp x)
          ≤ (2 : ℚ) ^ (53 : ℤ) * (2 : ℚ) ^ (gauge_t.rexp x) :=
            mul_le_mul_of_nonneg_right hm (le_of_lt (zpow_pos (by norm_num) _))
        _ = (2 : ℚ) ^ (53 + gauge_t.rexp x) := (zpow_add₀ h2ne _ _).symm
        _ ≤ (2 : ℚ) ^ (0 : ℤ) := zpow_le_zpow_right₀ (by norm_num) (by omega)
        _ = 1 := zpow_zero _
    have hbig : ¬ (((2 ^ 1024 : ℕ) : ℚ) ≤ gauge_t.rmag x) := by
      have : (1 : ℚ) < ((2 ^ 1024 : ℕ) : ℚ) := by
        have : 1 < 2 ^ 1024 := Nat.one_lt_two_pow (by norm_num)
        exact_mod_cast this
      intro hc
      linarith
    rw [round64_pos_form x h0, if_neg hbig]
    split
    · exact ⟨0, rfl, le_rfl, by norm_num⟩
    · exact ⟨_, rfl, rmag_nonneg x, hmag⟩

theorem round64_ge_of_exact (h x : ℚ) (hh : 0 < h) (hr : gauge_t.round64 h = gauge_t.fin h)
    (hx : h ≤ x) :
    gauge_t.round64 x = gauge_t.inf false ∨ ∃ r, gauge_t.round64 x = gauge_t.fin r ∧ h ≤ r := by
  have hx0 : 0 < x := lt_of_lt_of_le hh hx
  have h2ne : (2 : ℚ) ≠ 0 := by norm_num
  -- what exactness says about `h`
  have hmagh : gauge_t.rmag h = h := by
    rw [round64_pos_form h hh] at hr
    split at hr
    · cases hr
    · split at hr
      · simp only [gauge_t.fin.injEq] at hr
        linarith
      · simpa using hr
  obtain ⟨hl1, hl2⟩ := log2floor_rat h hh
  obtain ⟨xl1, xl2⟩ := log2floor_rat x hx0
  have hee : gauge_t.log2floor h.num.natAbs h.den ≤ gauge_t.log2floor x.num.natAbs x.den := by
    have : (2 : ℚ) ^ (gauge_t.log2floor h.num.natAbs h.den)
        < (2 : ℚ) ^ (gauge_t.log2floor x.num.natAbs x.den + 1) :=
      lt_of_le_of_lt hl1 (lt_of_le_of_lt hx xl2)
    have := (zpow_lt_zpow_iff_right₀ (by norm_num : (1 : ℚ) < 2)).mp this
    omega
  have key : h ≤ gauge_t.rmag x := by
    by_cases hk : gauge_t.rexp h = gauge_t.rexp x
    · have hmh : (gauge_t.rmant h : ℚ) = h * (2 : ℚ) ^ (-gauge_t.rexp h) := by
        have hinv : (2 : ℚ) ^ (gauge_t.rexp h) * (2 : ℚ) ^ (-gauge_t.rexp h) = 1 := by
          rw [← zpow_add₀ h2ne]; simp
        calc (gauge_t.rmant h : ℚ)
            = (gauge_t.rmant h : ℚ)
                * ((2 : ℚ) ^ (gauge_t.rexp h) * (2 : ℚ) ^ (-gauge_t.rexp h)) := by
              rw [hinv, mul_one]
          _ = (gauge_t.rmant h : ℚ) * (2 : ℚ) ^ (gauge_t.rexp h)
                * (2 : ℚ) ^ (-gauge_t.rexp h) := by ring
          _ = h * (2 : ℚ) ^ (-gauge_t.rexp h) := by rw [← rmag_eq, hmagh]
      have hle : gauge_t.rmant h ≤ gauge_t.rmant x := by
        apply rmant_ge x hx0
        rw [hmh, hk]
        exact mul_le_mul_of_nonneg_right hx (le_of_lt (zpow_pos (by norm_num) _))
      have hle' : (gauge_t.rmant h : ℚ) ≤ (gauge_t.rmant x : ℚ) := by exact_mod_cast hle
      calc h = gauge_t.rmag h := hmagh.symm
        _ = (gauge_t.rmant h : ℚ) * (2 : ℚ) ^ (gauge_t.rexp x) := by rw [rmag_eq, hk]
        _ ≤ (gauge_t.rmant x : ℚ) * (2 : ℚ) ^ (gauge_t.rexp x) :=
          mul_le_mul_of_nonneg_right hle' (le_of_lt (zpow_pos (by norm_num) _))
        _ = gauge_t.rmag x := (rmag_eq x).symm
    · have hmax : max (gauge_t.log2floor h.num.natAbs h.den) (-1022)
          ≤ max (gauge_t.log2floor x.num.natAbs x.den) (-1022) := max_le_max hee le_rfl
      have hklt : max (gauge_t.log2floor h.num.natAbs h.den) (-1022)
          < max (gauge_t.log2floor x.num.natAbs x.den) (-1022) := by
        refine lt_of_le_of_ne hmax ?_
        intro hc
        apply hk
        unfold gauge_t.rexp
        rw [hc]
      have hge : -1022 ≤ max (gauge_t.log2floor h.num.natAbs h.den) (-1022) := le_max_right _ _
      have hex : -1022 < gauge_t.log2floor x.num.natAbs x.den := by
        rcases max_cases (gauge_t.log2floor x.num.natAbs x.den) (-1022) with ⟨hm, _⟩ | ⟨hm, _⟩
        · rw [hm] at hklt
          omega
        · rw [hm] at hklt
          omega
      have hmx : max (gauge_t.log2floor x.num.natAbs x.den) (-1022)
          = gauge_t.log2floor x.num.natAbs x.den := max_eq_left (le_of_lt hex)
      have helt : gauge_t.log2floor h.num.natAbs h.den + 1
          ≤ gauge_t.log2floor x.num.natAbs x.den := by
        have := le_max_left (gauge_t.log2floor h.num.natAbs h.den) (-1022)
        rw [hmx] at hklt
        omega
      have hkx : gauge_t.rexp x = gauge_t.log2floor x.num.natAbs x.den - 52 := by
        unfold gauge_t.rexp
        rw [hmx]
      have hm52 : (2 : ℚ) ^ (52 : ℤ) ≤ (gauge_t.rmant x : ℚ) := by
        have := rmant_ge_pow x hx0 (le_of_lt hex)
        have h' : ((2 ^ 52 : ℕ) : ℚ) ≤ (gauge_t.rmant x : ℚ) := by exact_mod_cast this
        have e : ((2 ^ 52 : ℕ) : ℚ) = (2 : ℚ) ^ (52 : ℤ) := by
          have : (52 : ℤ) = ((52 : ℕ) : ℤ) := rfl
          rw [this, zpow_natCast]
          push_cast
          rfl
        rw [e] at h'
        exact h'
      calc h ≤ (2 : ℚ) ^ (gauge_t.log2floor h.num.natAbs h.den + 1) := le_of_lt hl2
        _ ≤ (2 : ℚ) ^ (gauge_t.log2floor x.num.natAbs x.den) :=
          zpow_le_zpow_right₀ (by norm_num) helt
        _ = (2 : ℚ) ^ (52 : ℤ) * (2 : ℚ) ^ (gauge_t.rexp x) := by
          rw [← zpow_add₀ h2ne, hkx]
          congr 1
          ring
        _ ≤ (gauge_t.rmant x : ℚ) * (2 : ℚ) ^ (gauge_t.rexp x) :=
          mul_le_mul_of_nonneg_right hm52 (le_of_lt (zpow_pos (by norm_num) _))
        _ = gauge_t.rmag x := (rmag_eq x).symm
  rw [round64_pos_form x hx0]
  split
  · exact Or.inl rfl
  · right
    split
    · rename_i h0
      have : gauge_t.rmag x = 0 := by rw [rmag_eq, h0]; simp
      rw [this] at key
      linarith
    · exact ⟨_, rfl, key⟩

/-! ## The range of the ratio -/

theorem clampInput_form (x : gauge_t) (hx : x.isDouble) :
    clampInput x = gauge_t.negZero
      ∨ ∃ p, clampInput x = gauge_t.fin p ∧ 0 ≤ p
          ∧ (p = 0 ∨ gauge_t.round64 p = gauge_t.fin p) := by
  cases x with
  | nan => exact Or.inr ⟨0, rfl, le_rfl, Or.inl rfl⟩
  | inf b => exact Or.inr ⟨0, rfl, le_rfl, Or.inl rfl⟩
  | negZero => exact Or.inl rfl
  | fin q =>
    right
    by_cases hq : q < 0
    · exact ⟨0, by simp [clampInput, hq], le_rfl, Or.inl rfl⟩
    · exact ⟨q, by simp [clampInput, hq], not_lt.mp hq, hx⟩

theorem div_self_exact (p : ℚ) (hp : 0 < p) :
    (gauge_t.fin p).div (gauge_t.fin p) = gauge_t.fin 1 := by
  have hne : p ≠ 0 := ne_of_gt hp
  have h1 : gauge_t.round64 1 = gauge_t.fin 1 := by decide!
  simp only [gauge_t.div, hne, if_false, div_self hne, h1]

theorem div_inUnit (p r : ℚ) (hp : 0 < p) (hr : p ≤ r) :
    ((gauge_t.fin p).div (gauge_t.fin r)).inUnit := by
  have hpne : p ≠ 0 := ne_of_gt hp
  have hr0 : 0 < r := lt_of_lt_of_le hp hr
  have hrne : r ≠ 0 := ne_of_gt hr0
  obtain ⟨t, ht, ht0, ht1⟩ := round64_unit (p / r) (div_pos hp hr0) ((div_le_one hr0).mpr hr)
  simp only [gauge_t.div, hpne, hrne, if_false, ht, gauge_t.inUnit]
  exact ⟨ht0, ht1⟩

theorem ratio_inUnit (a b : gauge_t)
    (ha : a = gauge_t.negZero
      ∨ ∃ p, a = gauge_t.fin p ∧ 0 ≤ p ∧ (p = 0 ∨ gauge_t.round64 p = gauge_t.fin p))
    (hb : b = gauge_t.negZero
      ∨ ∃ q, b = gauge_t.fin q ∧ 0 ≤ q ∧ (q = 0 ∨ gauge_t.round64 q = gauge_t.fin q))
    (hne : (a.neZero || b.neZero) = true) : (a.div (a.add b)).inUnit := by
  rcases ha with rfl | ⟨p, rfl, hp0, hpr⟩
  · rcases hb with rfl | ⟨q, rfl, hq0, hqr⟩
    · simp [gauge_t.neZero] at hne
    · have hq : q ≠ 0 := by simpa [gauge_t.neZero] using hne
      have hqn : ¬ q < 0 := not_lt.mpr hq0
      simp [gauge_t.add, gauge_t.div, hq, hqn, gauge_t.zero, gauge_t.inUnit]
  · by_cases hp : p = 0
    · subst hp
      rcases hb with rfl | ⟨q, rfl, hq0, hqr⟩
      · simp [gauge_t.neZero] at hne
      · have hq : q ≠ 0 := by simpa [gauge_t.neZero] using hne
        have hqn : ¬ q < 0 := not_lt.mpr hq0
        have hqr' : gauge_t.round64 q = gauge_t.fin q := hqr.resolve_left hq
        simp [gauge_t.add, gauge_t.div, hq, hqn, hqr', gauge_t.zero, gauge_t.inUnit]
    · have hppos : 0 < p := lt_of_le_of_ne hp0 (Ne.symm hp)
      have hpr' : gauge_t.round64 p = gauge_t.fin p := hpr.resolve_left hp
      have hone : (gauge_t.fin 1).inUnit := by
        simp [gauge_t.inUnit]
      rcases hb with rfl | ⟨q, rfl, hq0, hqr⟩
      · have : (gauge_t.fin p).add gauge_t.negZero = gauge_t.fin p := rfl
        rw [this, div_self_exact p hppos]
        exact hone
      · by_cases hq : q = 0
        · subst hq
          have : (gauge_t.fin p).add (gauge_t.fin 0) = gauge_t.fin p := by
            simp [gauge_t.add, hp, hpr']
          rw [this, div_self_exact p hppos]
          exact hone
        · have hqpos : 0 < q := lt_of_le_of_ne hq0 (Ne.symm hq)
          have hsum : p + q ≠ 0 := ne_of_gt (by linarith)
          have hadd : (gauge_t.fin p).add (gauge_t.fin q) = gauge_t.round64 (p + q) := by
            simp [gauge_t.add, hsum]
          rw [hadd]
          rcases round64_ge_of_exact p (p + q) hppos hpr' (by linarith) with hinf | ⟨r, hr, hpr2⟩
          · rw [hinf]
            have hpn : ¬ p < 0 := not_lt.mpr hp0
            simp [gauge_t.div, gauge_t.signbit, gauge_t.zero, hpn, gauge_t.inUnit]
          · rw [hr]
            exact div_inUnit p r hppos hpr2

/-- C25: for every pair of doubles `hits` and `misses`, be they negative,
infinite or NaN, `za_submit_ratio` dispatches one gauge, which is NaN or lies
in the closed interval from 0 to 1 (a zero may carry a sign bit); it is NaN
exactly when both inputs clamp to zero. The hypothesis `isDouble` says that a
finite input is a number that a `double` can hold, as every argument of the C
function is. -/
theorem za_submit_ratio_range (env : plugin_env) (type_instance : String)
    (hits misses : gauge_t) (hh : hits.isDouble) (hm : misses.isDouble) :
    ∃ g, ratioOf (za_submit_ratio env type_instance hits misses) = some g
      ∧ (g = gauge_t.nan ∨ g.inUnit)
      ∧ (g = gauge_t.nan ↔ clampsToZero hits ∧ clampsToZero misses) := by
  rw [za_submit_ratio_eq, ratioOf_za_submit]
  refine ⟨_, rfl, ?_⟩
  by_cases hne : ((clampInput hits).neZero || (clampInput misses).neZero) = true
  · have hu := ratio_inUnit _ _ (clampInput_form hits hh) (clampInput_form misses hm) hne
    rw [if_pos hne]
    have hnan : (clampInput hits).div ((clampInput hits).add (clampInput misses)) ≠ gauge_t.nan := by
      intro hc
      rw [hc] at hu
      exact hu
    refine ⟨Or.inr hu, ?_⟩
    constructor
    · intro hc
      exact absurd hc hnan
    · intro hc
      rw [clampsToZero_iff, clampsToZero_iff] at hc
      rw [hc.1, hc.2] at hne
      simp at hne
  · rw [if_neg hne]
    refine ⟨Or.inl rfl, ?_⟩
    constructor
    · intro _
      rw [clampsToZero_iff, clampsToZero_iff]
      simpa using hne
    · intro _
      rfl

theorem za_submit_ratio_range_witness :
    ¬ (gauge_t.fin (1 / 3)).isDouble
      ∧ (gauge_t.fin 7).isDouble ∧ (gauge_t.inf true).isDouble
      ∧ ∃ g, ratioOf (za_submit_ratio ⟨"localhost", 64, fun src _ => src⟩ "L2" (gauge_t.fin 7)
            (gauge_t.inf true)) = some g
          ∧ (g = gauge_t.nan ∨ g.inUnit)
          ∧ (g = gauge_t.nan ↔ clampsToZero (gauge_t.fin 7) ∧ clampsToZero (gauge_t.inf true)) :=
  ⟨by decide!, by decide!, by decide!,
   za_submit_ratio_range ⟨"localhost", 64, fun src _ => src⟩ "L2" (gauge_t.fin 7)
     (gauge_t.inf true) (by decide!) (by decide!)⟩

end Collectd
